import Mathlib

/-!
Sheepdog: the farm snapshot engine (`dog/farm/farm.c`) and the KV bucket and object
layers (`sheep/http/kv.c`).

Shallow embedding of the two source files.  C strings are `String`s (the bytes before the
terminating NUL), machine integers are `Nat`/`Int`, pointers into a container are positions,
and global variables are the fields of an explicit state record.  Code that lives outside the
two files (slice store, snap log, trunk files, block-store RPCs, SHA-1) is modelled from its
described interface and marked as such.
-/

set_option linter.unusedVariables false

/-! ## Part I. `farm.c` : data model -/

/-- C `strcmp` on the characters of two NUL-terminated strings: negative, zero or positive. -/
def strcmp : List Char → List Char → Int
  | [], [] => 0
  | [], _ :: _ => -1
  | _ :: _, [] => 1
  | a :: as, b :: bs =>
    if a.toNat < b.toNat then -1 else if b.toNat < a.toNat then 1 else strcmp as bs

/-- One record of the snap log: `struct snap_log` with fields idx, tag, sha1. -/
structure snap_log where
  idx : Nat
  tag : String
  sha1 : Nat
deriving DecidableEq, Repr

/-- Decoded snap file: `struct snap_file` with fields idx, trunk_sha1. -/
structure snap_file where
  idx : Nat
  trunk_sha1 : Nat
deriving DecidableEq, Repr

/-- One record of a trunk file: `struct trunk_entry`. -/
structure trunk_entry where
  oid : Nat
  nr_copies : Nat
  copy_policy : Nat
  sha1 : Nat
deriving DecidableEq, Repr

/-- The fields of `struct sd_inode` that the two files touch.  `name` is the NUL-terminated
value of `char name[SD_MAX_VDI_LEN]`; `data_vdi_id` is the extent map read by
`INODE_GET_VID` and written by `INODE_SET_VID`. -/
structure sd_inode where
  name : String
  vdi_size : Nat
  vdi_id : Nat
  snap_id : Nat
  nr_copies : Nat
  copy_policy : Nat
  store_policy : Nat
  data_vdi_id : Nat → Nat

/-- Restore-time registry node: `struct vdi_entry` (the `rb` link is the list position). -/
structure vdi_entry where
  name : String
  vdi_size : Nat
  vdi_id : Nat
  snap_id : Nat
  nr_copies : Nat
  copy_policy : Nat
  store_policy : Nat
deriving DecidableEq, Repr

/-- An object of the cluster block store: its bytes and its redundancy attributes. -/
structure sd_object where
  data : List Nat
  nr_copies : Nat
  copy_policy : Nat
deriving DecidableEq, Repr

/-- One node of the object tree walked by `for_each_object_in_tree`. -/
structure object_tree_entry where
  oid : Nat
  nr_copies : Nat
  copy_policy : Nat
deriving DecidableEq, Repr

/-- Calls into collaborators that the claims observe, in the order they are issued. -/
inductive FarmCall where
  | trunk_file_write (nr : Nat) (entries : List trunk_entry)
  | vdi_create (name : String) (vdi_size base_vid : Nat) (snapshot : Bool)
      (nr_copies copy_policy store_policy : Nat)
  | notify_vdi_add (vid nr_copies copy_policy : Nat) (set_bitmap : Bool)
deriving DecidableEq, Repr

/-- `struct snapshot_work`: the trunk entry being built (the trunk buffer it points to is
threaded through the completion callbacks). -/
structure snapshot_work where
  entry : trunk_entry
deriving DecidableEq, Repr

/-- Pure functions, codecs and failure oracles of the collaborators of `farm.c`.
A failure oracle says whether the named call fails on the given argument. -/
structure FarmEnv where
  sha1 : List Nat → Nat
  get_objsize : Nat → Nat
  is_vdi_obj : Nat → Bool
  oid_to_vid : Nat → Nat
  as_inode : List Nat → sd_inode
  snap_enc : snap_file → List Nat
  snap_dec : List Nat → snap_file
  trunk_enc : Nat → List trunk_entry → List Nat
  trunk_dec : List Nat → List trunk_entry
  read_object_fails : Nat → Bool
  write_object_fails : Nat → Bool
  load_order : List snapshot_work → List snapshot_work
  slice_write_fails : List Nat → Bool
  slice_read_fails : Nat → Bool
  trunk_write_fails : Bool
  trunk_read_fails : Bool
  snap_write_fails : Bool
  notify_fails : Nat → Bool
  vdi_create_fails : String → Bool
  log_write_fails : Bool

/-- Everything `farm.c` reads or writes: the snap log file (`none` when it cannot be read),
the slice store, the cluster objects, the object tree, and the file-scope variables
`last_vdi_tree` and `work_error`; `calls` records the observed collaborator calls. -/
structure FarmState where
  snap_log : Option (List snap_log)
  slices : Nat → Option (List Nat)
  objects : Nat → Option sd_object
  object_tree : List object_tree_entry
  last_vdi_tree : List vdi_entry
  work_error : Bool
  calls : List FarmCall

/-! ### Collaborators of `farm.c` (not part of the two files) -/

/-- Modelled from the spec: `snap_log_read` of snap.c, "parses the log in order"; `none`
is the failure return (NULL, `nr_logs` left negative). -/
def snap_log_read (st : FarmState) : Option (List snap_log) :=
  st.snap_log

/-- Modelled from the spec: `snap_log_write` of snap.c, "appends one record"; on failure
nothing is appended. -/
def snap_log_write (env : FarmEnv) (st : FarmState) (idx : Nat) (tag : String) (sha : Nat) :
    Option FarmState :=
  if env.log_write_fails then none
  else match st.snap_log with
    | none => none
    | some log => some { st with snap_log := some (log ++ [⟨idx, tag, sha⟩]) }

/-- Modelled from the spec: `slice_write` of slice.c, "computes SHA-1, writes to the derived
path (or skip if the target already exists), and returns the digest". -/
def slice_write (env : FarmEnv) (st : FarmState) (buf : List Nat) : Option (FarmState × Nat) :=
  if env.slice_write_fails buf then none
  else
    let d := env.sha1 buf
    match st.slices d with
    | some _ => some (st, d)
    | none => some ({ st with slices := fun k => if k = d then some buf else st.slices k }, d)

/-- Modelled from the spec: `slice_read` of slice.c, "loads and returns the bytes"; `none`
is the NULL return. -/
def slice_read (env : FarmEnv) (st : FarmState) (sha : Nat) : Option (List Nat) :=
  if env.slice_read_fails sha then none else st.slices sha

/-- Modelled from the spec: `snap_file_write` of snap.c, "serializes a snap file, stores it
via the slice store, returns its digest". -/
def snap_file_write (env : FarmEnv) (st : FarmState) (idx : Nat) (trunk_sha1 : Nat) :
    Option (FarmState × Nat) :=
  if env.snap_write_fails then none
  else slice_write env st (env.snap_enc ⟨idx, trunk_sha1⟩)

/-- Modelled from the spec: `snap_file_read` of snap.c, "returns the decoded snap file". -/
def snap_file_read (env : FarmEnv) (st : FarmState) (sha : Nat) : Option snap_file :=
  (slice_read env st sha).map env.snap_dec

/-- Modelled from the spec: `trunk_file_write` of trunk.c, "serializes the (count, entries)
structure, stores via slice store, returns its digest"; the digest is `none` on failure. -/
def trunk_file_write (env : FarmEnv) (st : FarmState) (nr : Nat) (entries : List trunk_entry) :
    Option Nat × FarmState :=
  let st1 := { st with calls := st.calls ++ [FarmCall.trunk_file_write nr entries] }
  if env.trunk_write_fails then (none, st1)
  else match slice_write env st1 (env.trunk_enc nr entries) with
    | none => (none, st1)
    | some (st2, d) => (some d, st2)

/-- Modelled from the spec: the entries that `for_each_entry_in_trunk` of trunk.c streams
to its callback; `none` is its negative return. -/
def trunk_entries (env : FarmEnv) (st : FarmState) (trunk_sha1 : Nat) :
    Option (List trunk_entry) :=
  if env.trunk_read_fails then none
  else (slice_read env st trunk_sha1).map env.trunk_dec

/-- Modelled from the spec: `object_tree_size` of object_tree.c. -/
def object_tree_size (st : FarmState) : Nat :=
  st.object_tree.length

/-- Modelled from the spec: `dog_read_object(oid, buf, size, 0, true)`, the first `size`
bytes of the object; `none` is the negative return. -/
def dog_read_object (env : FarmEnv) (st : FarmState) (oid size : Nat) : Option (List Nat) :=
  if env.read_object_fails oid then none
  else (st.objects oid).map (fun o => o.data.take size)

/-- Modelled from the spec: `dog_write_object(oid, 0, buf, size, 0, 0, nr_copies,
copy_policy, create = true, direct = true)`: the object is created or replaced. -/
def dog_write_object (env : FarmEnv) (st : FarmState) (oid : Nat) (buf : List Nat)
    (nr_copies copy_policy : Nat) : Option FarmState :=
  if env.write_object_fails oid then none
  else some { st with
    objects := fun k => if k = oid then some ⟨buf, nr_copies, copy_policy⟩ else st.objects k }

/-- Modelled from the spec: `do_vdi_create` of dog/vdi.c, the `vdi_create` RPC; returns 0
or a negative value. -/
def do_vdi_create (env : FarmEnv) (st : FarmState) (name : String) (vdi_size base_vid : Nat)
    (snapshot : Bool) (nr_copies copy_policy store_policy : Nat) : Int × FarmState :=
  let st1 := { st with calls := st.calls ++
    [FarmCall.vdi_create name vdi_size base_vid snapshot nr_copies copy_policy store_policy] }
  if env.vdi_create_fails name then (-1, st1) else (0, st1)

/-- Modelled from the spec: `dog_exec_req` of an `SD_OP_NOTIFY_VDI_ADD` request; `true`
when the request is executed and answered with `SD_RES_SUCCESS`. -/
def dog_exec_req_notify (env : FarmEnv) (st : FarmState) (new_vid copies copy_policy : Nat)
    (set_bitmap : Bool) : Bool × FarmState :=
  (!env.notify_fails new_vid,
   { st with calls := st.calls ++
      [FarmCall.notify_vdi_add new_vid copies copy_policy set_bitmap] })

/-! ### `farm.c` -/

/-- `vdi_cmp`: order of registry nodes, `strcmp` of the names. -/
def vdi_cmp (e1 e2 : vdi_entry) : Int :=
  strcmp e1.name.toList e2.name.toList

/-- Modelled from the spec: `rb_search(&last_vdi_tree, &key, rb, vdi_cmp)` of rbtree.h on the
"ordered mapping keyed by VDI name": position of the node comparing equal to the key, if
any. -/
def rb_search (t : List vdi_entry) (key : vdi_entry) : Option Nat :=
  match t with
  | [] => none
  | e :: rest => if vdi_cmp key e = 0 then some 0 else (rb_search rest key).map (· + 1)

/-- Modelled from the spec: `rb_insert(&last_vdi_tree, vdi, rb, vdi_cmp)` of rbtree.h, ordered
insertion into the "ordered mapping keyed by VDI name"; a node comparing equal is left in
place and nothing is inserted. -/
def rb_insert (t : List vdi_entry) (v : vdi_entry) : List vdi_entry :=
  match t with
  | [] => [v]
  | e :: rest =>
    if vdi_cmp v e < 0 then v :: e :: rest
    else if vdi_cmp v e = 0 then e :: rest
    else e :: rb_insert rest v

/-- `find_vdi`: builds a key carrying the name (`pstrcpy` into a buffer as large as the
inode's name field keeps the whole name) and searches the tree. -/
def find_vdi (t : List vdi_entry) (name : String) : Option Nat :=
  rb_search t ⟨name, 0, 0, 0, 0, 0, 0⟩

/-- `new_vdi`: a fresh registry node with the given fields. -/
def new_vdi (name : String) (vdi_size vdi_id snap_id nr_copies copy_policy store_policy : Nat) :
    vdi_entry :=
  ⟨name, vdi_size, vdi_id, snap_id, nr_copies, copy_policy, store_policy⟩

/-- `insert_vdi` on the registry: insert when the name is absent, else overwrite the found
node only when its snap_id is strictly smaller. -/
def insert_vdi_tree (t : List vdi_entry) (new : sd_inode) : List vdi_entry :=
  match find_vdi t new.name with
  | none =>
    rb_insert t (new_vdi new.name new.vdi_size new.vdi_id new.snap_id new.nr_copies
      new.copy_policy new.store_policy)
  | some i =>
    match t[i]? with
    | none => t
    | some vdi =>
      if vdi.snap_id < new.snap_id then
        t.set i { vdi with
          vdi_size := new.vdi_size, vdi_id := new.vdi_id, snap_id := new.snap_id,
          nr_copies := new.nr_copies, copy_policy := new.copy_policy,
          store_policy := new.store_policy }
      else t

/-- `insert_vdi` acting on the file-scope `last_vdi_tree`. -/
def insert_vdi (st : FarmState) (new : sd_inode) : FarmState :=
  { st with last_vdi_tree := insert_vdi_tree st.last_vdi_tree new }

/-- Loop of `create_active_vdis` over the nodes in tree order: the first failing
`do_vdi_create` ends it with -1. -/
def create_active_vdis_loop (env : FarmEnv) (st : FarmState) : List vdi_entry → Int × FarmState
  | [] => (0, st)
  | vdi :: rest =>
    let r := do_vdi_create env st vdi.name vdi.vdi_size vdi.vdi_id false vdi.nr_copies
      vdi.copy_policy vdi.store_policy
    if r.1 < 0 then (-1, r.2) else create_active_vdis_loop env r.2 rest

/-- `create_active_vdis`. -/
def create_active_vdis (env : FarmEnv) (st : FarmState) : Int × FarmState :=
  create_active_vdis_loop env st st.last_vdi_tree

/-- Modelled from the spec: `rb_erase(&vdi->rb, &last_vdi_tree)` of rbtree.h: unlink that
node. -/
def rb_erase (t : List vdi_entry) (vdi : vdi_entry) : List vdi_entry :=
  t.erase vdi

/-- `free_vdi_list`: walks the tree with `rb_for_each_entry`, which fetches the successor
before the body runs, and erases every node ("clear(): releases the registry"). -/
def free_vdi_list (st : FarmState) : FarmState :=
  { st with last_vdi_tree := st.last_vdi_tree.foldl rb_erase st.last_vdi_tree }

/-- The `for (int i = 0; i < nr_logs; i++, log_buf++)` loop of `get_trunk_sha1`: `some
trunk_sha1` for return 0 with the digest copied out, `none` for return -1. -/
def get_trunk_sha1_loop (env : FarmEnv) (st : FarmState) (idx : Nat) (tag : String) :
    List snap_log → Option Nat
  | [] => none
  | log_buf :: rest =>
    if log_buf.idx ≠ idx ∧ strcmp log_buf.tag.toList tag.toList ≠ 0 then
      get_trunk_sha1_loop env st idx tag rest
    else
      match snap_file_read env st log_buf.sha1 with
      | none => none
      | some snap_buf => some snap_buf.trunk_sha1

/-- `get_trunk_sha1`: read the log (a failed read leaves `nr_logs` negative), scan it in
order. -/
def get_trunk_sha1 (env : FarmEnv) (st : FarmState) (idx : Nat) (tag : String) : Option Nat :=
  match snap_log_read st with
  | none => none
  | some log => get_trunk_sha1_loop env st idx tag log

/-- `farm_contain_snapshot`. -/
def farm_contain_snapshot (env : FarmEnv) (st : FarmState) (idx : Nat) (tag : String) : Bool :=
  (get_trunk_sha1 env st idx tag).isSome

/-- `notify_vdi_add`: 0 on success, -1 otherwise. -/
def notify_vdi_add (env : FarmEnv) (st : FarmState) (vdi_id nr_copies copy_policy : Nat) :
    Int × FarmState :=
  let r := dog_exec_req_notify env st vdi_id nr_copies copy_policy true
  if r.1 then (0, r.2) else (-1, r.2)

/-- `do_save_object`: the work function of a save task.  It does nothing once `work_error`
is set; a failing read or slice write sets `work_error`. -/
def do_save_object (env : FarmEnv) (st : FarmState) (sw : snapshot_work) :
    FarmState × snapshot_work :=
  if st.work_error then (st, sw)
  else
    let size := env.get_objsize sw.entry.oid
    match dog_read_object env st sw.entry.oid size with
    | none => ({ st with work_error := true }, sw)
    | some buf =>
      match slice_write env st buf with
      | none => ({ st with work_error := true }, sw)
      | some (st1, sha) => (st1, { entry := { sw.entry with sha1 := sha } })

/-- `save_object_done`: the completion callback; appends the entry to the trunk buffer
unless `work_error` is set. -/
def save_object_done (st : FarmState) (trunk_buf : List trunk_entry) (sw : snapshot_work) :
    List trunk_entry :=
  if st.work_error then trunk_buf else trunk_buf ++ [sw.entry]

/-- `queue_save_snapshot_work`: the zero-filled work item for one object; the entry fields
nr_copies and copy_policy are 8 bits wide. -/
def queue_save_snapshot_work (oid nr_copies copy_policy : Nat) : snapshot_work :=
  { entry := ⟨oid, nr_copies % 256, copy_policy % 256, 0⟩ }

/-- The ordered work queue of a save, first half: the work functions run in submission
order. -/
def run_save_works (env : FarmEnv) (st : FarmState) :
    List snapshot_work → FarmState × List snapshot_work
  | [] => (st, [])
  | sw :: rest =>
    let r := do_save_object env st sw
    let rs := run_save_works env r.1 rest
    (rs.1, r.2 :: rs.2)

/-- `farm_save_snapshot`: returns 0 or -1 together with the state it leaves.  The
completion callbacks run in submission order during `work_queue_wait`. -/
def farm_save_snapshot (env : FarmEnv) (st : FarmState) (tag : String) : Int × FarmState :=
  let nr_objects := object_tree_size st
  match snap_log_read st with
  | none => (-1, st)
  | some snap_log =>
    let idx := snap_log.length + 1
    let works := st.object_tree.map
      (fun o => queue_save_snapshot_work o.oid o.nr_copies o.copy_policy)
    let ran := run_save_works env st works
    let st1 := ran.1
    let trunk_buf := ran.2.foldl (save_object_done st1) []
    if st1.work_error then (-1, st1)
    else
      match trunk_file_write env st1 nr_objects trunk_buf with
      | (none, st2) => (-1, st2)
      | (some trunk_sha1, st2) =>
        match snap_file_write env st2 idx trunk_sha1 with
        | none => (-1, st2)
        | some (st3, snap_sha1) =>
          match snap_log_write env st3 idx tag snap_sha1 with
          | none => (-1, st3)
          | some st4 => (0, st4)

/-- `do_load_object`: the work function of a load task. -/
def do_load_object (env : FarmEnv) (st : FarmState) (sw : snapshot_work) : FarmState :=
  if st.work_error then st
  else
    match slice_read env st sw.entry.sha1 with
    | none => { st with work_error := true }
    | some buffer =>
      match dog_write_object env st sw.entry.oid buffer sw.entry.nr_copies
          sw.entry.copy_policy with
      | none => { st with work_error := true }
      | some st1 =>
        if env.is_vdi_obj sw.entry.oid then
          let r := notify_vdi_add env st1 (env.oid_to_vid sw.entry.oid) sw.entry.nr_copies
            sw.entry.copy_policy
          if r.1 < 0 then { r.2 with work_error := true }
          else insert_vdi r.2 (env.as_inode buffer)
        else st1

/-- `queue_load_snapshot_work`: the work item holding a copy of the trunk entry. -/
def queue_load_snapshot_work (entry : trunk_entry) : snapshot_work :=
  { entry := entry }

/-- `farm_load_snapshot`: returns 0 or -1 together with the state it leaves.  The dynamic
work queue runs the queued works in the order `env.load_order` picks. -/
def farm_load_snapshot (env : FarmEnv) (st : FarmState) (idx : Nat) (tag : String) :
    Int × FarmState :=
  match get_trunk_sha1 env st idx tag with
  | none => (-1, free_vdi_list st)
  | some trunk_sha1 =>
    match trunk_entries env st trunk_sha1 with
    | none => (-1, free_vdi_list st)
    | some entries =>
      let works := entries.map queue_load_snapshot_work
      let st1 := (env.load_order works).foldl (do_load_object env) st
      if st1.work_error then (-1, free_vdi_list st1)
      else
        let r := create_active_vdis env st1
        if r.1 < 0 then (-1, free_vdi_list r.2) else (0, free_vdi_list r.2)


/-! ## Part II. `kv.c` : accounts and buckets -/

/-- Modelled from the spec: status constant `SD_RES_SUCCESS` of the block-store protocol. -/
def SD_RES_SUCCESS : Int := 0

/-- Modelled from the spec: status constant `SD_RES_NO_OBJ` of the block-store protocol. -/
def SD_RES_NO_OBJ : Int := 2

/-- Modelled from the spec: status constant `SD_RES_VDI_EXIST` of the block-store protocol. -/
def SD_RES_VDI_EXIST : Int := 4

/-- Modelled from the spec: status constant `SD_RES_NO_VDI` of the block-store protocol. -/
def SD_RES_NO_VDI : Int := 8

/-- Modelled from the spec: status constant `SD_RES_OBJ_TAKEN`, one of the non-negative
status codes of the block store that `kv.c` uses for "the index is taken by other object". -/
def SD_RES_OBJ_TAKEN : Int := 146

/-- Geometry constants of the block store, the cluster defaults (`sys->cinfo`) and the hash
function, all defined outside `kv.c`. -/
structure KvEnv where
  SD_MAX_VDI_SIZE : Nat
  SD_DATA_OBJ_SIZE : Nat
  SD_MAX_BUCKET_NAME : Nat
  SD_MAX_VDI_LEN : Nat
  nr_copies : Nat
  copy_policy : Nat
  sd_hash : String → Nat
  MAX_DATA_OBJS : Nat
  SD_MAX_OBJECT_NAME : Nat
  BLOCK_SIZE : Nat

/-- `struct bucket_inode` seen through its header: bucket_name, obj_count, bytes_used,
onode_vid.  `onode_vid = 0` marks an empty slot. -/
structure bucket_inode where
  bucket_name : String
  obj_count : Nat
  bytes_used : Nat
  onode_vid : Nat
deriving DecidableEq, Repr

/-- `sizeof(struct bucket_inode)`: the union is padded to `SD_MAX_BUCKET_NAME << 1` bytes. -/
def sizeof_bucket_inode (env : KvEnv) : Nat :=
  env.SD_MAX_BUCKET_NAME <<< 1

/-- Macro `MAX_BUCKETS`. -/
def MAX_BUCKETS (env : KvEnv) : Nat :=
  env.SD_MAX_VDI_SIZE / sizeof_bucket_inode env

/-- Macro `BUCKETS_PER_SD_OBJ`. -/
def BUCKETS_PER_SD_OBJ (env : KvEnv) : Nat :=
  env.SD_DATA_OBJ_SIZE / sizeof_bucket_inode env

/-- A zero-filled bucket inode, as in a buffer from `xzalloc`. -/
def bucket_inode_zero : bucket_inode :=
  ⟨"", 0, 0, 0⟩

/-- `struct kv_onode_hdr` seen through the fields `kv.c` uses: name, size, ctime, mtime,
inlined (sha1, data_vid and nr_extent are never touched and stay zero).  An empty name,
`name[0] == 0`, marks a deleted object. -/
structure kv_onode_hdr where
  name : String
  size : Nat
  ctime : Nat
  mtime : Nat
  inlined : Bool
deriving DecidableEq, Repr

/-- `struct kv_onode`: the header and the inline data area; bytes past the end of the list
are zero. -/
structure kv_onode where
  hdr : kv_onode_hdr
  data : List Nat
deriving DecidableEq, Repr

/-- The cluster as `kv.c` sees it: the VDI namespace, the VDI inode objects by vid, the data
objects of account VDIs by (vid, data index) as sequences of bucket-inode records, the data
objects of bucket VDIs by (vid, data index) as onodes, and the next free vid. -/
structure Sheep where
  vdis : String → Option Nat
  inodes : Nat → Option sd_inode
  data : Nat → Nat → Option (Nat → bucket_inode)
  next_vid : Nat
  onodes : Nat → Nat → Option kv_onode

/-! ### Collaborators of `kv.c` (not part of the two files) -/

/-- Modelled from the spec: `vdi_lookup(name, len)` giving a status and the vid. -/
def vdi_lookup (st : Sheep) (name : String) : Int × Nat :=
  match st.vdis name with
  | some vid => (SD_RES_SUCCESS, vid)
  | none => (SD_RES_NO_VDI, 0)

/-- Modelled from the spec: `read_object` of a VDI inode object, `vid_to_vdi_oid(vid)`; the
buffer is left as it was when the object is absent. -/
def sd_read_object_inode (st : Sheep) (vid : Nat) (buf : sd_inode) : Int × sd_inode :=
  match st.inodes vid with
  | some inode => (SD_RES_SUCCESS, inode)
  | none => (SD_RES_NO_OBJ, buf)

/-- Modelled from the spec: `read_object(oid, buf, SD_DATA_OBJ_SIZE, 0)` of the data object
`vid_to_data_oid(vid, idx)`: the `BUCKETS_PER_SD_OBJ` records of the object land in the
buffer. -/
def sd_read_object (env : KvEnv) (st : Sheep) (vid idx : Nat) (buf : Nat → bucket_inode) :
    Int × (Nat → bucket_inode) :=
  match st.data vid idx with
  | some obj => (SD_RES_SUCCESS, fun i => if i < BUCKETS_PER_SD_OBJ env then obj i else buf i)
  | none => (SD_RES_NO_OBJ, buf)

/-- Modelled from the spec: `write_object(oid, buf, len, offset, create)` on the data object
`vid_to_data_oid(vid, idx)`, with `len` and `offset` counted in records: the first `len`
records of `buf` are stored at record `offset`.  With `create` the object is made anew
(zero-filled elsewhere); without it the object must exist. -/
def sd_write_object (st : Sheep) (vid idx : Nat) (buf : Nat → bucket_inode) (len offset : Nat)
    (create : Bool) : Int × Sheep :=
  let put (old : Nat → bucket_inode) : Nat → bucket_inode :=
    fun i => if offset ≤ i ∧ i < offset + len then buf (i - offset) else old i
  if create then
    (SD_RES_SUCCESS,
      { st with
        data := fun v d =>
          if v = vid ∧ d = idx then some (put (fun _ => bucket_inode_zero)) else st.data v d })
  else
    match st.data vid idx with
    | none => (SD_RES_NO_OBJ, st)
    | some old =>
      (SD_RES_SUCCESS,
        { st with
          data := fun v d => if v = vid ∧ d = idx then some (put old) else st.data v d })

/-- Modelled from the spec: `exec_local_req` of `SD_OP_NEW_VDI`, the `vdi_create` RPC of a
hyper volume: status, new vid and new cluster.  An existing name is refused. -/
def exec_local_req_new_vdi (env : KvEnv) (st : Sheep) (name : String) : Int × Nat × Sheep :=
  match st.vdis name with
  | some vid => (SD_RES_VDI_EXIST, 0, st)
  | none =>
    let vid := st.next_vid
    (SD_RES_SUCCESS, vid,
      { st with
        vdis := fun n => if n = name then some vid else st.vdis n
        inodes := fun v =>
          if v = vid then
            some ⟨name, env.SD_MAX_VDI_SIZE, vid, 0, env.nr_copies, env.copy_policy, 1,
              fun _ => 0⟩
          else st.inodes v
        next_vid := vid + 1 })

/-- Modelled from the spec: `exec_local_req` of `SD_OP_DISCARD_OBJ`, `discard_object(oid)`. -/
def exec_local_req_discard (st : Sheep) (vid idx : Nat) : Int × Sheep :=
  match st.data vid idx with
  | none => (SD_RES_NO_OBJ, st)
  | some _ =>
    (SD_RES_SUCCESS,
      { st with data := fun v d => if v = vid ∧ d = idx then none else st.data v d })

/-- Modelled from the spec: `exec_local_req` of `SD_OP_DEL_VDI`, `vdi_delete(name)`. -/
def exec_local_req_del_vdi (st : Sheep) (name : String) : Int × Sheep :=
  match st.vdis name with
  | none => (SD_RES_NO_VDI, st)
  | some vid =>
    (SD_RES_SUCCESS,
      { st with
        vdis := fun n => if n = name then none else st.vdis n
        inodes := fun v => if v = vid then none else st.inodes v })

/-- Modelled from the spec: `inode_write_vid(inode, data_index, ...)`: the extent of
`data_index` held by the in-memory inode is written into the stored inode. -/
def sd_inode_write_vid (st : Sheep) (inode : sd_inode) (data_index : Nat) : Int × Sheep :=
  match st.inodes inode.vdi_id with
  | none => (SD_RES_NO_OBJ, st)
  | some stored =>
    let written : sd_inode :=
      { stored with
        data_vdi_id := fun d =>
          if d = data_index then inode.data_vdi_id data_index else stored.data_vdi_id d }
    (SD_RES_SUCCESS,
      { st with inodes := fun v => if v = inode.vdi_id then some written else st.inodes v })

/-- Modelled from the spec: `INODE_GET_VID(inode, idx)`, "read a slot" of the extent map. -/
def INODE_GET_VID (inode : sd_inode) (idx : Nat) : Nat :=
  inode.data_vdi_id idx

/-- Modelled from the spec: `INODE_SET_VID(inode, idx, vid)`, "set a slot" of the extent
map of the in-memory inode. -/
def INODE_SET_VID (inode : sd_inode) (idx vid : Nat) : sd_inode :=
  { inode with data_vdi_id := fun d => if d = idx then vid else inode.data_vdi_id d }

/-- Modelled from the spec: the extents `traverse_btree` hands to its callback, as
(vdi_id, idx) pairs in index order over the data indices of a hyper volume. -/
def traverse_btree (env : KvEnv) (inode : sd_inode) : List (Nat × Nat) :=
  (List.range ((MAX_BUCKETS env + BUCKETS_PER_SD_OBJ env - 1) / BUCKETS_PER_SD_OBJ env)).map
    (fun idx => (inode.data_vdi_id idx, idx))

/-- A zero-filled `struct sd_inode`, standing for an uninitialised local. -/
def sd_inode_zero : sd_inode :=
  ⟨"", 0, 0, 0, 0, 0, 0, fun _ => 0⟩

/-- C `strncmp(a, b, n)`: `strcmp` of the first n characters. -/
def strncmp (a b : String) (n : Nat) : Int :=
  strcmp (a.toList.take n) (b.toList.take n)

/-- C `strncpy(dst, src, n)` into a zeroed field: the first n characters of src. -/
def strncpy (src : String) (n : Nat) : String :=
  String.mk (src.toList.take n)

/-- C `snprintf(vdi_name, SD_MAX_VDI_LEN, "%s/%s", account, bucket)`. -/
def snprintf_vdi_name (env : KvEnv) (account bucket : String) : String :=
  String.mk ((account.toList ++ '/' :: bucket.toList).take (env.SD_MAX_VDI_LEN - 1))

/-! ### `kv.c` -/

/-- `lookup_vdi`: status and vid. -/
def lookup_vdi (st : Sheep) (name : String) : Int × Nat :=
  vdi_lookup st name

/-- `kv_create_hyper_volume`: status, `*vdi_id` and the new cluster. -/
def kv_create_hyper_volume (env : KvEnv) (st : Sheep) (name : String) : Int × Nat × Sheep :=
  exec_local_req_new_vdi env st name

/-- `discard_data_obj` of the data object `vid_to_data_oid(vid, idx)`. -/
def discard_data_obj (st : Sheep) (vid idx : Nat) : Int × Sheep :=
  exec_local_req_discard st vid idx

/-- `kv_delete_vdi`: look the name up, then delete the VDI. -/
def kv_delete_vdi (st : Sheep) (name : String) : Int × Sheep :=
  let r := lookup_vdi st name
  if r.1 ≠ SD_RES_SUCCESS then (r.1, st)
  else exec_local_req_del_vdi st name

/-- `list_buckets_cb` for one extent: the names it hands to the callback, in slot order. -/
def list_buckets_cb (env : KvEnv) (st : Sheep) (ext : Nat × Nat) : List String :=
  if ext.1 = 0 then []
  else
    let r := sd_read_object env st ext.1 ext.2 (fun _ => bucket_inode_zero)
    if r.1 ≠ SD_RES_SUCCESS then []
    else
      ((List.range (BUCKETS_PER_SD_OBJ env)).filter (fun i => (r.2 i).onode_vid ≠ 0)).map
        (fun i => (r.2 i).bucket_name)

/-- Outcome of the slot loop of `delete_bucket`. -/
inductive delete_loop_result where
  | panicked
  | failed (st : Sheep)
  | finished (i : Nat) (buf : Nat → bucket_inode) (empty_buckets found : Nat) (st : Sheep)

/-- The `for (i = 0; i < BUCKETS_PER_SD_OBJ; i++)` loop of `delete_bucket`, with `n` slots
left to visit.  The loop has no `break`: a match is recorded and the scan goes on. -/
def delete_bucket_loop (env : KvEnv) (account_inode : sd_inode) (bucket : String)
    (offset : Nat) : Nat → Nat → (Nat → bucket_inode) → Nat → Nat → Sheep → delete_loop_result
  | 0, i, buf, empty_buckets, found, st =>
    delete_loop_result.finished i buf empty_buckets found st
  | n + 1, i, buf, empty_buckets, found, st =>
    if (buf i).onode_vid = 0 then
      delete_bucket_loop env account_inode bucket offset n (i + 1) buf (empty_buckets + 1)
        found st
    else if strncmp (buf i).bucket_name bucket env.SD_MAX_BUCKET_NAME ≠ 0 then
      delete_bucket_loop env account_inode bucket offset n (i + 1) buf empty_buckets found st
    else if i < offset then delete_loop_result.panicked
    else
      let buf1 : Nat → bucket_inode :=
        fun k => if k = i then { buf i with onode_vid := 0 } else buf k
      let vdi_name := snprintf_vdi_name env account_inode.name bucket
      let r := kv_delete_vdi st vdi_name
      if r.1 ≠ SD_RES_SUCCESS then delete_loop_result.failed r.2
      else delete_bucket_loop env account_inode bucket offset n (i + 1) buf1 empty_buckets i r.2

/-- `delete_bucket`: `none` when the function panics, else the return value, the in-memory
account inode and the cluster. -/
def delete_bucket (env : KvEnv) (st : Sheep) (account_inode : sd_inode) (idx : Nat)
    (bucket : String) : Option (Int × sd_inode × Sheep) :=
  let data_index := idx / BUCKETS_PER_SD_OBJ env
  let offset := idx % BUCKETS_PER_SD_OBJ env
  let vdi_id := INODE_GET_VID account_inode data_index
  if vdi_id = 0 then some (-1, account_inode, st)
  else
    let rd := sd_read_object env st account_inode.vdi_id data_index (fun _ => bucket_inode_zero)
    if rd.1 ≠ SD_RES_SUCCESS then some (-1, account_inode, st)
    else
      match delete_bucket_loop env account_inode bucket offset (BUCKETS_PER_SD_OBJ env) 0 rd.2
          0 0 st with
      | delete_loop_result.panicked => none
      | delete_loop_result.failed st1 => some (-1, account_inode, st1)
      | delete_loop_result.finished i buf empty_buckets found st1 =>
        if found = 0 then some ((BUCKETS_PER_SD_OBJ env : Int), account_inode, st1)
        else if empty_buckets = BUCKETS_PER_SD_OBJ env - 1 then
          let dr := discard_data_obj st1 account_inode.vdi_id data_index
          if dr.1 ≠ SD_RES_SUCCESS then some (-1, account_inode, dr.2)
          else
            let inode1 := INODE_SET_VID account_inode data_index 0
            let wr := sd_inode_write_vid dr.2 inode1 data_index
            if wr.1 ≠ SD_RES_SUCCESS then some (-1, inode1, wr.2)
            else some ((found : Int), inode1, wr.2)
        else
          let wr := sd_write_object st1 account_inode.vdi_id data_index buf 1 i false
          if wr.1 ≠ SD_RES_SUCCESS then some (-1, account_inode, wr.2)
          else some ((found : Int), account_inode, wr.2)

/-- Outcome of the slot loop of `add_bucket`. -/
inductive add_loop_result where
  | failed (st : Sheep)
  | finished (i : Nat) (buf : Nat → bucket_inode) (st : Sheep)

/-- The `for (i = offset; i < BUCKETS_PER_SD_OBJ; i++)` loop of `add_bucket`, with `n` slots
left to visit: the first slot with `onode_vid = 0` is filled and the loop is left by
`break`. -/
def add_bucket_loop (env : KvEnv) (account_inode : sd_inode) (bucket : String) :
    Nat → Nat → (Nat → bucket_inode) → Sheep → add_loop_result
  | 0, i, buf, st => add_loop_result.finished i buf st
  | n + 1, i, buf, st =>
    if (buf i).onode_vid ≠ 0 then add_bucket_loop env account_inode bucket n (i + 1) buf st
    else
      let vdi_name := snprintf_vdi_name env account_inode.name bucket
      let r := kv_create_hyper_volume env st vdi_name
      let buf1 : Nat → bucket_inode :=
        fun k => if k = i then ⟨strncpy bucket env.SD_MAX_BUCKET_NAME, 0, 0, r.2.1⟩ else buf k
      if r.1 ≠ SD_RES_SUCCESS then add_loop_result.failed r.2.2
      else add_loop_result.finished i buf1 r.2.2

/-- `add_bucket`: the return value, the in-memory account inode and the cluster. -/
def add_bucket (env : KvEnv) (st : Sheep) (account_inode : sd_inode) (idx : Nat)
    (bucket : String) : Int × sd_inode × Sheep :=
  let data_index := idx / BUCKETS_PER_SD_OBJ env
  let offset := idx % BUCKETS_PER_SD_OBJ env
  let vdi_id := INODE_GET_VID account_inode data_index
  let rd :=
    if vdi_id ≠ 0 then
      sd_read_object env st account_inode.vdi_id data_index (fun _ => bucket_inode_zero)
    else (SD_RES_SUCCESS, fun _ => bucket_inode_zero)
  let create : Bool := decide (vdi_id = 0)
  if rd.1 ≠ SD_RES_SUCCESS then (-1, account_inode, st)
  else
    match add_bucket_loop env account_inode bucket (BUCKETS_PER_SD_OBJ env - offset) offset
        rd.2 st with
    | add_loop_result.failed st1 => (-1, account_inode, st1)
    | add_loop_result.finished i buf st1 =>
      if i ≥ BUCKETS_PER_SD_OBJ env then ((BUCKETS_PER_SD_OBJ env : Int), account_inode, st1)
      else
        let wr :=
          if create then
            sd_write_object st1 account_inode.vdi_id data_index buf (BUCKETS_PER_SD_OBJ env) 0
              true
          else sd_write_object st1 account_inode.vdi_id data_index buf 1 i false
        if wr.1 ≠ SD_RES_SUCCESS then (-1, account_inode, wr.2)
        else if create then
          let inode1 := INODE_SET_VID account_inode data_index account_inode.vdi_id
          let iw := sd_inode_write_vid wr.2 inode1 data_index
          if iw.1 ≠ SD_RES_SUCCESS then (-1, inode1, iw.2)
          else ((i : Int), inode1, iw.2)
        else ((i : Int), account_inode, wr.2)

/-- `kv_get_bucket`: reads the account inode and looks the bucket VDI up by name. -/
def kv_get_bucket (env : KvEnv) (st : Sheep) (account_inode : sd_inode) (account_vid : Nat)
    (account bucket : String) : Int × sd_inode :=
  let rd := sd_read_object_inode st account_vid account_inode
  if rd.1 ≠ SD_RES_SUCCESS then (rd.1, rd.2)
  else
    let vdi_name := snprintf_vdi_name env rd.2.name bucket
    ((lookup_vdi st vdi_name).1, rd.2)

/-- Result of a bucket operation: the return value, the cluster, and the indexes passed to
`add_bucket` or `delete_bucket`, in probe order. -/
structure kv_result where
  ret : Int
  st : Sheep
  probes : List Nat

/-- The probe loop `for (i = 0; i < MAX_BUCKETS; i++)` of `kv_create_bucket`; a skip adds
`BUCKETS_PER_SD_OBJ` to `i` before the loop's own `i++`.  `none` when `fuel` iterations do
not finish the loop. -/
def kv_create_bucket_loop (env : KvEnv) (bucket : String) (hval : Nat) :
    Nat → Nat → sd_inode → Sheep → List Nat → Option kv_result
  | 0, i, inode, st, probes =>
    if i < MAX_BUCKETS env then none else some ⟨-1, st, probes⟩
  | fuel + 1, i, inode, st, probes =>
    if i < MAX_BUCKETS env then
      let idx := (hval + i) % 2 ^ 64 % MAX_BUCKETS env
      let r := add_bucket env st inode idx bucket
      if r.1 = (BUCKETS_PER_SD_OBJ env : Int) then
        kv_create_bucket_loop env bucket hval fuel (i + BUCKETS_PER_SD_OBJ env + 1) r.2.1 r.2.2
          (probes ++ [idx])
      else if r.1 < 0 then some ⟨r.1, r.2.2, probes ++ [idx]⟩
      else some ⟨0, r.2.2, probes ++ [idx]⟩
    else some ⟨-1, st, probes⟩

/-- `kv_create_bucket`. -/
def kv_create_bucket (env : KvEnv) (st : Sheep) (account bucket : String) : Option kv_result :=
  let r := lookup_vdi st account
  if r.1 ≠ SD_RES_SUCCESS then some ⟨r.1, st, []⟩
  else
    let g := kv_get_bucket env st sd_inode_zero r.2 account bucket
    if g.1 = SD_RES_SUCCESS then some ⟨SD_RES_VDI_EXIST, st, []⟩
    else if g.1 ≠ SD_RES_NO_VDI then some ⟨g.1, st, []⟩
    else
      kv_create_bucket_loop env bucket (env.sd_hash bucket % 2 ^ 64) (MAX_BUCKETS env) 0 g.2 st []

/-- Outcome of `kv_delete_bucket`: it returns, or `delete_bucket` panics. -/
inductive kv_delete_result where
  | panicked
  | returned (r : kv_result)

/-- The probe loop of `kv_delete_bucket`; `none` when `fuel` iterations do not finish it. -/
def kv_delete_bucket_loop (env : KvEnv) (bucket : String) (hval : Nat) :
    Nat → Nat → sd_inode → Sheep → List Nat → Option kv_delete_result
  | 0, i, inode, st, probes =>
    if i < MAX_BUCKETS env then none
    else some (kv_delete_result.returned ⟨SD_RES_NO_VDI, st, probes⟩)
  | fuel + 1, i, inode, st, probes =>
    if i < MAX_BUCKETS env then
      let idx := (hval + i) % 2 ^ 64 % MAX_BUCKETS env
      match delete_bucket env st inode idx bucket with
      | none => some kv_delete_result.panicked
      | some r =>
        if r.1 = (BUCKETS_PER_SD_OBJ env : Int) then
          kv_delete_bucket_loop env bucket hval fuel (i + BUCKETS_PER_SD_OBJ env + 1) r.2.1
            r.2.2 (probes ++ [idx])
        else if r.1 < 0 then some (kv_delete_result.returned ⟨r.1, r.2.2, probes ++ [idx]⟩)
        else some (kv_delete_result.returned ⟨SD_RES_SUCCESS, r.2.2, probes ++ [idx]⟩)
    else some (kv_delete_result.returned ⟨SD_RES_NO_VDI, st, probes⟩)

/-- `kv_delete_bucket`. -/
def kv_delete_bucket (env : KvEnv) (st : Sheep) (account bucket : String) :
    Option kv_delete_result :=
  let r := lookup_vdi st account
  if r.1 ≠ SD_RES_SUCCESS then some (kv_delete_result.returned ⟨r.1, st, []⟩)
  else
    let g := kv_get_bucket env st sd_inode_zero r.2 account bucket
    if g.1 ≠ SD_RES_SUCCESS then some (kv_delete_result.returned ⟨g.1, st, []⟩)
    else
      kv_delete_bucket_loop env bucket (env.sd_hash bucket % 2 ^ 64) (MAX_BUCKETS env) 0 g.2 st []

/-- `kv_list_buckets`: the return value and the bucket names handed to the callback. -/
def kv_list_buckets (env : KvEnv) (st : Sheep) (account : String) : Int × List String :=
  let r := lookup_vdi st account
  if r.1 ≠ SD_RES_SUCCESS then (r.1, [])
  else
    let rd := sd_read_object_inode st r.2 sd_inode_zero
    if rd.1 ≠ SD_RES_SUCCESS then (rd.1, [])
    else (SD_RES_SUCCESS, (traverse_btree env rd.2).flatMap (list_buckets_cb env st))

/-! ## Part II, continued. `kv.c` : objects -/

/-- Modelled from the spec: the response codes of the HTTP layer; `UNKNOWN` is the status of
a request that no response header has been sent for. -/
inductive http_status where
  | UNKNOWN
  | OK
  | CREATED
  | ACCEPTED
  | NO_CONTENT
  | NOT_FOUND
  | SERVICE_UNAVAILABLE
  | INTERNAL_SERVER_ERROR
deriving DecidableEq, Repr

/-- Modelled from the spec: the part of `struct http_request` that `kv.c` reaches: the
response status, the request payload still to be read, whether reading it fails, the
response payload written so far and the time of day while the request is served
(`tv_sec`, `tv_usec`). -/
structure http_request where
  status : http_status
  body : List Nat
  read_fails : Bool
  written : List Nat
  tv : Nat × Nat
deriving DecidableEq, Repr

/-- Modelled from the spec: `http_response_header(req, status)`, the single side channel that
signals completion: it sets the status of the request. -/
def http_response_header (req : http_request) (status : http_status) : http_request :=
  { req with status := status }

/-- Modelled from the spec: `http_request_read(req, buf, len)`: up to `len` bytes of the
payload go to the buffer; the count, or a negative value on failure. -/
def http_request_read (req : http_request) (len : Nat) : Int × List Nat × http_request :=
  if req.read_fails then (-1, [], req)
  else ((min req.body.length len : Nat), req.body.take len,
    { req with body := req.body.drop len })

/-- The first `len` bytes of a buffer whose bytes past the end of the list are zero. -/
def buf_bytes (buf : List Nat) (len : Nat) : List Nat :=
  (List.range len).map (fun i => buf.getD i 0)

/-- Modelled from the spec: `http_request_write(req, buf, len)`: `len` bytes of the buffer
are appended to the response payload. -/
def http_request_write (req : http_request) (buf : List Nat) (len : Nat) : http_request :=
  { req with written := req.written ++ buf_bytes buf len }

/-- Modelled from the spec: `pstrcpy(dst, size, src)`, the bounded copy into a "name[≤MAX]"
field: at most `size - 1` characters, then the terminating NUL. -/
def pstrcpy (size : Nat) (src : String) : String :=
  String.mk (src.toList.take (size - 1))

/-- `sizeof(struct kv_onode_hdr)`: the union is padded to `BLOCK_SIZE` bytes. -/
def sizeof_kv_onode_hdr (env : KvEnv) : Nat :=
  env.BLOCK_SIZE

/-- Macro `KV_ONODE_INLINE_SIZE`, also `sizeof(onode->data)`. -/
def KV_ONODE_INLINE_SIZE (env : KvEnv) : Nat :=
  env.SD_DATA_OBJ_SIZE - sizeof_kv_onode_hdr env

/-- A zero-filled `struct kv_onode`, as from `xzalloc`. -/
def kv_onode_zero : kv_onode :=
  ⟨⟨"", 0, 0, 0, false⟩, []⟩

/-- Modelled from the spec: `read_object(oid, obj, sizeof(*obj), 0)` of the data object
`vid_to_data_oid(vid, idx)` of a bucket VDI: the whole onode; `SD_RES_NO_OBJ` and an
untouched buffer when the object is absent. -/
def sd_read_object_onode (st : Sheep) (vid idx : Nat) (buf : kv_onode) : Int × kv_onode :=
  match st.onodes vid idx with
  | some o => (SD_RES_SUCCESS, o)
  | none => (SD_RES_NO_OBJ, buf)

/-- Modelled from the spec: `read_object(oid, &hdr, sizeof(hdr), 0)`: the header of the
onode only. -/
def sd_read_object_hdr (st : Sheep) (vid idx : Nat) (buf : kv_onode_hdr) :
    Int × kv_onode_hdr :=
  match st.onodes vid idx with
  | some o => (SD_RES_SUCCESS, o.hdr)
  | none => (SD_RES_NO_OBJ, buf)

/-- Modelled from the spec: `read_object(oid, name, sizeof(name), 0)`: the first
`SD_MAX_OBJECT_NAME` bytes of the onode, its name field. -/
def sd_read_object_name (st : Sheep) (vid idx : Nat) (buf : String) : Int × String :=
  match st.onodes vid idx with
  | some o => (SD_RES_SUCCESS, o.hdr.name)
  | none => (SD_RES_NO_OBJ, buf)

/-- Modelled from the spec: `write_object(oid, onode, sizeof(onode->hdr) + size, 0, create)`:
the header and the first `size` data bytes of the buffer are stored.  With `create` the
object is made anew (zero elsewhere); without it the object must exist and keeps its
bytes past the written range. -/
def sd_write_object_onode (st : Sheep) (vid idx : Nat) (buf : kv_onode) (size : Nat)
    (create : Bool) : Int × Sheep :=
  if create then
    (SD_RES_SUCCESS,
      { st with
        onodes := fun v d =>
          if v = vid ∧ d = idx then some ⟨buf.hdr, buf_bytes buf.data size⟩
          else st.onodes v d })
  else
    match st.onodes vid idx with
    | none => (SD_RES_NO_OBJ, st)
    | some old =>
      (SD_RES_SUCCESS,
        { st with
          onodes := fun v d =>
            if v = vid ∧ d = idx then
              some ⟨buf.hdr, buf_bytes buf.data size ++ old.data.drop size⟩
            else st.onodes v d })

/-- Modelled from the spec: `write_object(oid, name, sizeof(name), 0, false)`: the name field
of an existing onode is overwritten, the rest of the object stays. -/
def sd_write_object_name (st : Sheep) (vid idx : Nat) (name : String) : Int × Sheep :=
  match st.onodes vid idx with
  | none => (SD_RES_NO_OBJ, st)
  | some old =>
    (SD_RES_SUCCESS,
      { st with
        onodes := fun v d =>
          if v = vid ∧ d = idx then some { old with hdr := { old.hdr with name := name } }
          else st.onodes v d })

/-- `lookup_bucket(req, bucket, &vid)`: the status of `vdi_lookup`, `*vid` (assigned on
success only, otherwise what the caller's variable held) and the request. -/
def lookup_bucket (st : Sheep) (req : http_request) (bucket : String) (vid : Nat) :
    Int × Nat × http_request :=
  let r := vdi_lookup st bucket
  if r.1 = SD_RES_SUCCESS then (r.1, r.2, req)
  else if r.1 = SD_RES_NO_VDI then (r.1, vid, http_response_header req http_status.NOT_FOUND)
  else (r.1, vid, http_response_header req http_status.INTERNAL_SERVER_ERROR)

/-- `kv_create_inlined_object`: status and cluster. -/
def kv_create_inlined_object (st : Sheep) (inode : sd_inode) (onode : kv_onode)
    (vid idx : Nat) (overwrite : Bool) : Int × Sheep :=
  if overwrite then
    sd_write_object_onode st vid idx onode onode.hdr.size false
  else
    let w := sd_write_object_onode st vid idx onode onode.hdr.size true
    if w.1 ≠ SD_RES_SUCCESS then w
    else sd_inode_write_vid w.2 (INODE_SET_VID inode idx vid) idx

/-- `kv_create_extented_object`: the placeholder returns success and does nothing. -/
def kv_create_extented_object (st : Sheep) (inode : sd_inode) (onode : kv_onode)
    (vid idx : Nat) : Int × Sheep :=
  (SD_RES_SUCCESS, st)

/-- `do_kv_create_object`: status and cluster. -/
def do_kv_create_object (st : Sheep) (onode : kv_onode) (vid idx : Nat) : Int × Sheep :=
  let rd := sd_read_object_inode st vid sd_inode_zero
  if rd.1 ≠ SD_RES_SUCCESS then (rd.1, st)
  else
    let inode := rd.2
    let tmp_vid := INODE_GET_VID inode idx
    let fin : Int × Sheep :=
      if onode.hdr.inlined then
        kv_create_inlined_object st inode onode vid idx (decide (tmp_vid ≠ 0))
      else kv_create_extented_object st inode onode vid idx
    if tmp_vid ≠ 0 then
      let rh := sd_read_object_hdr st vid idx kv_onode_zero.hdr
      if rh.1 ≠ SD_RES_SUCCESS then (rh.1, st)
      else if rh.2.name ≠ "" ∧ strcmp rh.2.name.toList onode.hdr.name.toList ≠ 0 then
        (SD_RES_OBJ_TAKEN, st)
      else fin
    else fin

/-- Outcome of an object operation: the return value, the request and the cluster. -/
structure kv_obj_result where
  ret : Int
  req : http_request
  st : Sheep

/-- C `INT_MAX` for the 32-bit `int` of the probe counters `int i` of the object loops. -/
def INT_MAX : Nat := 2147483647

/-- The slot probed at step i: `uint32_t idx = (hval + i) % MAX_DATA_OBJS` with the 64-bit
`hval`. -/
def onode_idx (env : KvEnv) (hval i : Nat) : Nat :=
  (hval + i) % 2 ^ 64 % env.MAX_DATA_OBJS % 2 ^ 32

/-- The probe loop of `kv_create_object` with `n` iterations left, at counter i.  The code
counts with `int i`; the model counts in `Nat` and agrees with the code for
`MAX_DATA_OBJS ≤ INT_MAX`, beyond which the increment of the C counter overflows. -/
def kv_create_object_loop (env : KvEnv) (onode : kv_onode) (vid hval : Nat) :
    Nat → Nat → http_request → Sheep → kv_obj_result
  | 0, i, req, st => ⟨-1, http_response_header req http_status.SERVICE_UNAVAILABLE, st⟩
  | n + 1, i, req, st =>
    let r := do_kv_create_object st onode vid (onode_idx env hval i)
    if r.1 = SD_RES_SUCCESS then ⟨0, http_response_header req http_status.CREATED, r.2⟩
    else if r.1 = SD_RES_OBJ_TAKEN then
      kv_create_object_loop env onode vid hval n (i + 1) req r.2
    else ⟨-1, http_response_header req http_status.INTERNAL_SERVER_ERROR, r.2⟩

/-- The time stamp `(uint64_t) tv.tv_sec << 32 | tv.tv_usec * 1000`. -/
def kv_timestamp (tv : Nat × Nat) : Nat :=
  ((tv.1 <<< 32) % 2 ^ 64) ||| ((tv.2 * 1000) % 2 ^ 64)

/-- `kv_create_object(req, bucket, name)`; `vid` is what the local variable of that name
holds before `lookup_bucket` assigns it. -/
def kv_create_object (env : KvEnv) (st : Sheep) (req : http_request) (bucket name : String)
    (vid : Nat) : kv_obj_result :=
  let lb := lookup_bucket st req bucket vid
  if lb.1 < 0 then ⟨lb.1, lb.2.2, st⟩
  else
    let vid := lb.2.1
    let rd := http_request_read lb.2.2 (KV_ONODE_INLINE_SIZE env)
    if rd.1 < 0 then
      ⟨-1, http_response_header rd.2.2 http_status.INTERNAL_SERVER_ERROR, st⟩
    else
      let stamp := kv_timestamp req.tv
      let onode : kv_onode :=
        ⟨⟨pstrcpy env.SD_MAX_OBJECT_NAME name, rd.1.toNat, stamp, stamp,
          decide (rd.1.toNat ≤ KV_ONODE_INLINE_SIZE env)⟩, rd.2.1⟩
      kv_create_object_loop env onode vid (env.sd_hash name) env.MAX_DATA_OBJS 0 rd.2.2 st

/-- `do_kv_read_object`: return value, request and the buffer `obj`. -/
def do_kv_read_object (st : Sheep) (req : http_request) (obj_name : String) (obj : kv_onode)
    (vid idx : Nat) : Int × http_request × kv_onode :=
  let rd := sd_read_object_onode st vid idx obj
  if rd.1 = SD_RES_SUCCESS then
    if strcmp rd.2.hdr.name.toList obj_name.toList = 0 then
      (0, http_request_write (http_response_header req http_status.OK) rd.2.data
        rd.2.hdr.size, rd.2)
    else (0, req, rd.2)
  else if rd.1 = SD_RES_NO_OBJ then
    (-1, http_response_header req http_status.NOT_FOUND, rd.2)
  else (-1, http_response_header req http_status.INTERNAL_SERVER_ERROR, rd.2)

/-- The probe loop of `kv_read_object` with `n` iterations left, at counter i (an `int` in
the code: the model agrees with it for `MAX_DATA_OBJS ≤ INT_MAX`). -/
def kv_read_object_loop (env : KvEnv) (st : Sheep) (object : String) (vid hval : Nat) :
    Nat → Nat → http_request → kv_onode → kv_obj_result
  | 0, i, req, obj => ⟨-1, http_response_header req http_status.NOT_FOUND, st⟩
  | n + 1, i, req, obj =>
    let r := do_kv_read_object st req object obj vid (onode_idx env hval i)
    if r.2.1.status ≠ http_status.UNKNOWN then ⟨0, r.2.1, st⟩
    else kv_read_object_loop env st object vid hval n (i + 1) r.2.1 r.2.2

/-- `kv_read_object(req, bucket, object)`. -/
def kv_read_object (env : KvEnv) (st : Sheep) (req : http_request) (bucket object : String)
    (vid : Nat) : kv_obj_result :=
  let lb := lookup_bucket st req bucket vid
  if lb.1 < 0 then ⟨lb.1, lb.2.2, st⟩
  else
    kv_read_object_loop env st object lb.2.1 (env.sd_hash object) env.MAX_DATA_OBJS 0 lb.2.2
      kv_onode_zero

/-- `do_kv_update_object`: return value, request, the buffer `obj` and the cluster. -/
def do_kv_update_object (st : Sheep) (req : http_request) (obj_name : String)
    (obj : kv_onode) (vid idx size : Nat) : Int × http_request × kv_onode × Sheep :=
  let rd := sd_read_object_hdr st vid idx obj.hdr
  if rd.1 = SD_RES_SUCCESS then
    let obj1 : kv_onode := { obj with hdr := rd.2 }
    if strcmp obj1.hdr.name.toList obj_name.toList = 0 then
      let obj2 : kv_onode :=
        { obj1 with hdr := { obj1.hdr with mtime := kv_timestamp req.tv, size := size } }
      let w := sd_write_object_onode st vid idx obj2 obj2.hdr.size false
      if w.1 = SD_RES_SUCCESS then
        (0, http_response_header req http_status.ACCEPTED, obj2, w.2)
      else (-1, http_response_header req http_status.INTERNAL_SERVER_ERROR, obj2, w.2)
    else (0, req, obj1, st)
  else if rd.1 = SD_RES_NO_VDI then
    (-1, http_response_header req http_status.NOT_FOUND, obj, st)
  else (-1, http_response_header req http_status.INTERNAL_SERVER_ERROR, obj, st)

/-- The probe loop of `kv_update_object` with `n` iterations left, at counter i (an `int`
in the code: the model agrees with it for `MAX_DATA_OBJS ≤ INT_MAX`). -/
def kv_update_object_loop (env : KvEnv) (object : String) (vid hval size : Nat) :
    Nat → Nat → http_request → kv_onode → Sheep → kv_obj_result
  | 0, i, req, obj, st => ⟨-1, http_response_header req http_status.NOT_FOUND, st⟩
  | n + 1, i, req, obj, st =>
    let r := do_kv_update_object st req object obj vid (onode_idx env hval i) size
    if r.2.1.status ≠ http_status.UNKNOWN then ⟨0, r.2.1, r.2.2.2⟩
    else kv_update_object_loop env object vid hval size n (i + 1) r.2.1 r.2.2.1 r.2.2.2

/-- `kv_update_object(req, bucket, object)`. -/
def kv_update_object (env : KvEnv) (st : Sheep) (req : http_request) (bucket object : String)
    (vid : Nat) : kv_obj_result :=
  let lb := lookup_bucket st req bucket vid
  if lb.1 < 0 then ⟨lb.1, lb.2.2, st⟩
  else
    let rd := http_request_read lb.2.2 (KV_ONODE_INLINE_SIZE env)
    if rd.1 < 0 then
      ⟨-1, http_response_header rd.2.2 http_status.INTERNAL_SERVER_ERROR, st⟩
    else
      kv_update_object_loop env object lb.2.1 (env.sd_hash object) rd.1.toNat
        env.MAX_DATA_OBJS 0 rd.2.2 { kv_onode_zero with data := rd.2.1 } st

/-- `do_kv_delete_object`: return value, request and cluster. -/
def do_kv_delete_object (st : Sheep) (req : http_request) (obj_name : String)
    (vid idx : Nat) : Int × http_request × Sheep :=
  let rd := sd_read_object_name st vid idx ""
  if rd.1 = SD_RES_SUCCESS then
    if strcmp rd.2.toList obj_name.toList = 0 then
      let w := sd_write_object_name st vid idx ""
      if w.1 = SD_RES_SUCCESS then (0, http_response_header req http_status.NO_CONTENT, w.2)
      else (-1, http_response_header req http_status.INTERNAL_SERVER_ERROR, w.2)
    else (0, req, st)
  else if rd.1 = SD_RES_NO_OBJ then
    (-1, http_response_header req http_status.NOT_FOUND, st)
  else (-1, http_response_header req http_status.INTERNAL_SERVER_ERROR, st)

/-- The probe loop of `kv_delete_object` with `n` iterations left, at counter i (an `int`
in the code: the model agrees with it for `MAX_DATA_OBJS ≤ INT_MAX`). -/
def kv_delete_object_loop (env : KvEnv) (object : String) (vid hval : Nat) :
    Nat → Nat → http_request → Sheep → kv_obj_result
  | 0, i, req, st => ⟨-1, http_response_header req http_status.NOT_FOUND, st⟩
  | n + 1, i, req, st =>
    let r := do_kv_delete_object st req object vid (onode_idx env hval i)
    if r.2.1.status ≠ http_status.UNKNOWN then ⟨0, r.2.1, r.2.2⟩
    else kv_delete_object_loop env object vid hval n (i + 1) r.2.1 r.2.2

/-- `kv_delete_object(req, bucket, object)`. -/
def kv_delete_object (env : KvEnv) (st : Sheep) (req : http_request) (bucket object : String)
    (vid : Nat) : kv_obj_result :=
  let lb := lookup_bucket st req bucket vid
  if lb.1 < 0 then ⟨lb.1, lb.2.2, st⟩
  else
    kv_delete_object_loop env object lb.2.1 (env.sd_hash object) env.MAX_DATA_OBJS 0 lb.2.2 st

/-- The names the slot loop of `kv_list_objects` hands to the callback, in slot order: a
slot is skipped when `data_vdi_id[idx]` is zero, when its name cannot be read and when the
name starts with NUL.  The code counts with `uint32_t idx`; the model agrees with it for
`MAX_DATA_OBJS < 2 ^ 32`, beyond which the C loop does not end. -/
def kv_list_objects_names (env : KvEnv) (st : Sheep) (inode : sd_inode) (vid : Nat) :
    List String :=
  (List.range env.MAX_DATA_OBJS).filterMap (fun idx =>
    if inode.data_vdi_id idx = 0 then none
    else
      let rd := sd_read_object_name st vid idx ""
      if rd.1 = SD_RES_SUCCESS then (if rd.2 ≠ "" then some rd.2 else none) else none)

/-- `kv_list_objects(req, bucket, cb, opaque)`: return value, request and the names handed
to the callback. -/
def kv_list_objects (env : KvEnv) (st : Sheep) (req : http_request) (bucket : String)
    (vid : Nat) : Int × http_request × List String :=
  let lb := lookup_bucket st req bucket vid
  if lb.1 < 0 then (lb.1, lb.2.2, [])
  else
    let rd := sd_read_object_inode st lb.2.1 sd_inode_zero
    if rd.1 ≠ SD_RES_SUCCESS then
      (-1, http_response_header lb.2.2 http_status.INTERNAL_SERVER_ERROR, [])
    else
      (0, http_response_header lb.2.2 http_status.OK,
        kv_list_objects_names env st rd.2 lb.2.1)
/-! ## Vocabulary of the statements and concrete data -/

/-- The registry node that `new_vdi` builds from an inode. -/
def entry_of_inode (i : sd_inode) : vdi_entry :=
  new_vdi i.name i.vdi_size i.vdi_id i.snap_id i.nr_copies i.copy_policy i.store_policy

/-- The registry invariant: names are pairwise distinct, every node is the image of a seen
inode of maximal snap_id among the seen inodes of its name, and every seen name has a node. -/
def registry_inv (t : List vdi_entry) (seen : List sd_inode) : Prop :=
  (t.map (fun e => e.name)).Nodup ∧
  (∀ e ∈ t, ∃ i ∈ seen, i.name = e.name ∧ e = entry_of_inode i ∧
    ∀ j ∈ seen, j.name = e.name → j.snap_id ≤ i.snap_id) ∧
  (∀ i ∈ seen, ∃ e ∈ t, e.name = i.name)


/-- Concrete trunk decoder: four numbers per entry. -/
def trunk_dec4 : List Nat → List trunk_entry
  | a :: b :: c :: d :: rest => ⟨a, b, c, d⟩ :: trunk_dec4 rest
  | _ => []

/-- Concrete trunk encoder: four numbers per entry. -/
def trunk_enc4 : List trunk_entry → List Nat
  | [] => []
  | e :: rest => e.oid :: e.nr_copies :: e.copy_policy :: e.sha1 :: trunk_enc4 rest

/-- A concrete environment without failures: an injective digest, four-byte objects, oids
from 100 on are VDI inode objects, and the dynamic queue runs its works in reverse order. -/
def farm_env0 : FarmEnv where
  sha1 := fun b => Encodable.encode b
  get_objsize := fun _ => 4
  is_vdi_obj := fun oid => decide (100 ≤ oid)
  oid_to_vid := fun oid => oid - 100
  as_inode := fun b =>
    ⟨if b.head? = some 1 then "a" else "b", b.getD 1 0, b.getD 2 0, b.getD 3 0, 2, 0, 0,
      fun _ => 0⟩
  snap_enc := fun f => [f.idx, f.trunk_sha1]
  snap_dec := fun b => ⟨b.getD 0 0, b.getD 1 0⟩
  trunk_enc := fun n es => n :: trunk_enc4 es
  trunk_dec := fun b => trunk_dec4 b.tail
  read_object_fails := fun _ => false
  write_object_fails := fun _ => false
  load_order := List.reverse
  slice_write_fails := fun _ => false
  slice_read_fails := fun _ => false
  trunk_write_fails := false
  trunk_read_fails := false
  snap_write_fails := false
  notify_fails := fun _ => false
  vdi_create_fails := fun _ => false
  log_write_fails := false

/-- A farm with an empty log, an empty slice store and an empty cluster. -/
def farm_st0 : FarmState where
  snap_log := some []
  slices := fun _ => none
  objects := fun _ => none
  object_tree := []
  last_vdi_tree := []
  work_error := false
  calls := []

/-- A farm whose log holds the snapshots (1, "v0") and (2, "v1"); the snap file of the
first one is stored under digest 7 and names trunk digest 42. -/
def farm_st1 : FarmState :=
  { farm_st0 with
    snap_log := some [⟨1, "v0", 7⟩, ⟨2, "v1", 8⟩]
    slices := fun k => if k = 7 then some [1, 42] else none }

/-- Two inodes of the VDI "a", with snap_id 3 and snap_id 5. -/
def inodes_a35 : List sd_inode :=
  [⟨"a", 30, 13, 3, 1, 0, 0, fun _ => 0⟩, ⟨"a", 50, 15, 5, 2, 0, 1, fun _ => 0⟩]

/-- The ordering invariant of the snap log: the entry at position i has idx i + 1. -/
def snap_log_ordered (log : List snap_log) : Prop :=
  ∀ i e, log[i]? = some e → e.idx = i + 1

/-- A save task for this object fails: its object read fails, or the slice write of the
bytes read fails. -/
def save_task_fails (env : FarmEnv) (st : FarmState) (o : object_tree_entry) : Bool :=
  match dog_read_object env st o.oid (env.get_objsize o.oid) with
  | none => true
  | some buf => env.slice_write_fails buf

/-- The bytes a save task reads from an object (empty when the read fails). -/
def saved_bytes (env : FarmEnv) (st : FarmState) (oid : Nat) : List Nat :=
  (dog_read_object env st oid (env.get_objsize oid)).getD []

/-- The parts of the state a save task leaves alone. -/
def save_frame (st st1 : FarmState) : Prop :=
  st1.snap_log = st.snap_log ∧ st1.objects = st.objects ∧ st1.object_tree = st.object_tree ∧
  st1.last_vdi_tree = st.last_vdi_tree ∧ st1.calls = st.calls

/-- A cluster with a data object (oid 1) and the inode object of VDI "a" (oid 100), on an
empty farm. -/
def farm_st2 : FarmState :=
  { farm_st0 with
    objects := fun k =>
      if k = 1 then some ⟨[5, 6, 7, 8], 2, 0⟩
      else if k = 100 then some ⟨[1, 30, 13, 3], 2, 0⟩ else none
    object_tree := [⟨1, 2, 0⟩, ⟨100, 2, 0⟩] }

/-- The same cluster on a farm that already holds the snapshot (1, "v0"). -/
def farm_st3 : FarmState :=
  { farm_st2 with
    snap_log := some [⟨1, "v0", 7⟩]
    slices := fun k => if k = 7 then some [1, 42] else none }

/-- The concrete environment with every object read failing. -/
def farm_env_rf : FarmEnv :=
  { farm_env0 with read_object_fails := fun _ => true }

/-- A load task for this trunk entry fails: its slice read, its object write or (for a VDI
inode object) its `notify_vdi_add` fails. -/
def load_task_fails (env : FarmEnv) (st : FarmState) (e : trunk_entry) : Bool :=
  (slice_read env st e.sha1).isNone || env.write_object_fails e.oid ||
    (env.is_vdi_obj e.oid && env.notify_fails (env.oid_to_vid e.oid))

/-- The observed call is a `vdi_create`. -/
def is_vdi_create : FarmCall → Bool
  | FarmCall.vdi_create _ _ _ _ _ _ _ => true
  | _ => false

/-- The concrete environment with every `notify_vdi_add` failing. -/
def farm_env_nf : FarmEnv :=
  { farm_env0 with notify_fails := fun _ => true }

/-- What a load task leaves alone, and what it may only grow. -/
def load_frame (st st1 : FarmState) : Prop :=
  st1.snap_log = st.snap_log ∧ st1.slices = st.slices ∧
  st1.calls.filter is_vdi_create = st.calls.filter is_vdi_create ∧
  (st.work_error = true → st1.work_error = true)

/-- Every stored slice is filed under the digest of its bytes. -/
def slices_ok (env : FarmEnv) (st : FarmState) : Prop :=
  ∀ d b, st.slices d = some b → env.sha1 b = d

/-- The trunk entries a save builds for the object tree of this state. -/
def saved_entries (env : FarmEnv) (st : FarmState) : List trunk_entry :=
  st.object_tree.map (fun o =>
    ⟨o.oid, o.nr_copies % 256, o.copy_policy % 256, env.sha1 (saved_bytes env st o.oid)⟩)

/-- The digest of the trunk file a save writes for this state. -/
def saved_trunk_sha1 (env : FarmEnv) (st : FarmState) : Nat :=
  env.sha1 (env.trunk_enc st.object_tree.length (saved_entries env st))

/-- The digest of the snap file a save writes for this state under index idx. -/
def saved_snap_sha1 (env : FarmEnv) (st : FarmState) (idx : Nat) : Nat :=
  env.sha1 (env.snap_enc ⟨idx, saved_trunk_sha1 env st⟩)

/-- The slices that `farm_save_snapshot(tag)` writes on this state read back afterwards:
`slice_read` of the digest that `slice_write` returned for every object slice, for the trunk
file and for the snap file (written under index idx) gives back the bytes written. -/
def save_round_trips (env : FarmEnv) (st : FarmState) (tag : String) (idx : Nat) : Prop :=
  (∀ o ∈ st.object_tree,
    slice_read env (farm_save_snapshot env st tag).2 (env.sha1 (saved_bytes env st o.oid))
      = some (saved_bytes env st o.oid)) ∧
  slice_read env (farm_save_snapshot env st tag).2 (saved_trunk_sha1 env st)
    = some (env.trunk_enc st.object_tree.length (saved_entries env st)) ∧
  slice_read env (farm_save_snapshot env st tag).2 (saved_snap_sha1 env st idx)
    = some (env.snap_enc ⟨idx, saved_trunk_sha1 env st⟩)

/-- The concrete environment with a digest of 160 bits, which is not injective. -/
def farm_env_160 : FarmEnv :=
  { farm_env0 with sha1 := fun b => Encodable.encode b % 2 ^ 160 }

/-- The farm after snapshot "v0" of the cluster of `farm_st2` has been saved with the
160-bit digest and the whole cluster has then been wiped. -/
def farm_st7 : FarmState :=
  { (farm_save_snapshot farm_env_160 farm_st2 "v0").2 with
    objects := fun _ => none, object_tree := [] }

/-- The farm after snapshot "v0" of the cluster of `farm_st2` has been saved. -/
def farm_st4 : FarmState :=
  (farm_save_snapshot farm_env0 farm_st2 "v0").2

/-- The object a load task writes for a trunk entry: the bytes stored under the entry's
digest, with the entry's nr_copies and copy_policy. -/
def loaded_object (st : FarmState) (e : trunk_entry) : sd_object :=
  ⟨(st.slices e.sha1).getD [], e.nr_copies, e.copy_policy⟩

/-- No call into a collaborator fails. -/
def no_farm_faults (env : FarmEnv) : Prop :=
  (∀ o, env.read_object_fails o = false) ∧ (∀ o, env.write_object_fails o = false) ∧
  (∀ b, env.slice_write_fails b = false) ∧ (∀ s, env.slice_read_fails s = false) ∧
  env.trunk_write_fails = false ∧ env.trunk_read_fails = false ∧
  env.snap_write_fails = false ∧ (∀ v, env.notify_fails v = false) ∧
  (∀ n, env.vdi_create_fails n = false) ∧ env.log_write_fails = false

/-- The farm of `farm_st4` after the whole cluster has been wiped. -/
def farm_st5 : FarmState :=
  { farm_st4 with objects := fun _ => none, object_tree := [] }

/-- The farm of `farm_st4` after the data object 1 has been rewritten. -/
def farm_st6 : FarmState :=
  { farm_st4 with
    objects := fun k =>
      if k = 1 then some ⟨[9, 9, 9, 9], 2, 0⟩
      else if k = 100 then some ⟨[1, 30, 13, 3], 2, 0⟩ else none }

/-- A small geometry: two bucket inodes per data object, eight buckets per account, four
object slots per bucket, object names of at most 7 characters, 128 inline bytes; the names
"x" and "b" hash to 1, "a" hashes to 0, every other name hashes to 2. -/
def kv_env0 : KvEnv where
  SD_MAX_VDI_SIZE := 1024
  SD_DATA_OBJ_SIZE := 256
  SD_MAX_BUCKET_NAME := 64
  SD_MAX_VDI_LEN := 256
  nr_copies := 3
  copy_policy := 0
  sd_hash := fun s => if s = "x" ∨ s = "b" then 1 else if s = "a" then 0 else 2
  MAX_DATA_OBJS := 4
  SD_MAX_OBJECT_NAME := 8
  BLOCK_SIZE := 128

/-- The inode of the account "acct" (vid 1) with its four data objects present. -/
def kv_inode_full : sd_inode :=
  ⟨"acct", 1024, 1, 0, 3, 0, 1, fun d => if d < 4 then 1 else 0⟩

/-- The account "acct" at capacity: four data objects, every slot occupied. -/
def kv_st_full : Sheep where
  vdis := fun n => if n = "acct" then some 1 else none
  inodes := fun v => if v = 1 then some kv_inode_full else none
  data := fun v d => if v = 1 ∧ d < 4 then some (fun _ => ⟨"n", 0, 0, 7⟩) else none
  next_vid := 10
  onodes := fun _ _ => none

/-- An empty account "acct" (vid 1): no data object yet. -/
def kv_st_empty : Sheep where
  vdis := fun n => if n = "acct" then some 1 else none
  inodes := fun v => if v = 1 then some ⟨"acct", 1024, 1, 0, 3, 0, 1, fun _ => 0⟩ else none
  data := fun _ _ => none
  next_vid := 10
  onodes := fun _ _ => none

/-- The result of a `kv_delete_bucket` that returned (no panic, loop finished). -/
def delete_outcome (r : Option kv_delete_result) : Option kv_result :=
  match r with
  | some (kv_delete_result.returned k) => some k
  | _ => none

/-- The inode of the account "acct" (vid 1) with only data object 0 present. -/
def kv_inode_one : sd_inode :=
  ⟨"acct", 1024, 1, 0, 3, 0, 1, fun d => if d = 0 then 1 else 0⟩

/-- The account "acct" with two live buckets in data object 0: "a" in slot 0 (VDI 5) and
"b" in slot 1 (VDI 6). -/
def kv_st_two : Sheep where
  vdis := fun n =>
    if n = "acct" then some 1 else if n = "acct/a" then some 5
    else if n = "acct/b" then some 6 else none
  inodes := fun v =>
    if v = 1 then some kv_inode_one
    else if v = 5 then some ⟨"acct/a", 1024, 5, 0, 3, 0, 1, fun _ => 0⟩
    else if v = 6 then some ⟨"acct/b", 1024, 6, 0, 3, 0, 1, fun _ => 0⟩ else none
  data := fun v d =>
    if v = 1 ∧ d = 0 then
      some (fun i => if i = 0 then ⟨"a", 0, 0, 5⟩ else if i = 1 then ⟨"b", 0, 0, 6⟩
        else bucket_inode_zero)
    else none
  next_vid := 10
  onodes := fun _ _ => none

/-- The account "acct" whose data object 0 holds exactly one live bucket, "a" in slot 0. -/
def kv_st_one_a : Sheep :=
  { kv_st_two with
    vdis := fun n => if n = "acct" then some 1 else if n = "acct/a" then some 5 else none
    data := fun v d =>
      if v = 1 ∧ d = 0 then some (fun i => if i = 0 then ⟨"a", 0, 0, 5⟩ else bucket_inode_zero)
      else none }

/-- The account "acct" whose data object 0 holds exactly one live bucket, "b" in slot 1. -/
def kv_st_one_b : Sheep :=
  { kv_st_two with
    vdis := fun n => if n = "acct" then some 1 else if n = "acct/b" then some 6 else none
    data := fun v d =>
      if v = 1 ∧ d = 0 then some (fun i => if i = 1 then ⟨"b", 0, 0, 6⟩ else bucket_inode_zero)
      else none }

/-- The account of `kv_st_full` (every slot occupied by buckets named "n") together with an
existing bucket VDI "acct/x" that no slot records. -/
def kv_st_full_x : Sheep :=
  { kv_st_full with
    vdis := fun n => if n = "acct" then some 1 else if n = "acct/x" then some 9 else none }

/-- The cluster after `kv_create_bucket("acct", "a")` and then
`kv_create_bucket("acct", "b")` on the empty account of `kv_st_empty`. -/
def kv_st_after_a_b : Option Sheep :=
  (kv_create_bucket kv_env0 kv_st_empty "acct" "a").bind
    (fun r => (kv_create_bucket kv_env0 r.st "acct" "b").map (fun r2 => r2.st))

/-- The inode of the bucket VDI "b1" (vid 6) with no slot set. -/
def kv_inode_bucket : sd_inode :=
  ⟨"b1", 1024, 6, 0, 3, 0, 1, fun _ => 0⟩

/-- A cluster whose only VDI is the empty bucket "b1" (vid 6). -/
def kv_st_bucket : Sheep where
  vdis := fun n => if n = "b1" then some 6 else none
  inodes := fun v => if v = 6 then some kv_inode_bucket else none
  data := fun _ _ => none
  next_vid := 10
  onodes := fun _ _ => none

/-- The bucket "b1" (vid 6) holding one object, "k1" with the payload 97, in slot 2. -/
def kv_st_bucket_one : Sheep where
  vdis := fun n => if n = "b1" then some 6 else none
  inodes := fun v =>
    if v = 6 then some ⟨"b1", 1024, 6, 0, 3, 0, 1, fun d => if d = 2 then 6 else 0⟩ else none
  data := fun _ _ => none
  next_vid := 10
  onodes := fun v d => if v = 6 ∧ d = 2 then some ⟨⟨"k1", 1, 0, 0, true⟩, [97]⟩ else none

/-- A fresh request with the given payload. -/
def kv_req (body : List Nat) : http_request :=
  ⟨http_status.UNKNOWN, body, false, [], (0, 0)⟩

/-- The bucket VDI `vid` is in order: the vid is not zero, its inode object is stored under
its own vid, and every slot the inode marks as set has a data object. -/
def bucket_ok (st : Sheep) (vid : Nat) : Prop :=
  vid ≠ 0 ∧ ∃ inode, st.inodes vid = some inode ∧ inode.vdi_id = vid ∧
    ∀ idx, inode.data_vdi_id idx ≠ 0 → ∃ o, st.onodes vid idx = some o

/-- Slot idx of the bucket `vid` is taken by an object other than `name`: the inode's slot
is set and the stored header name is non-empty and differs from `name`. -/
def slot_taken (st : Sheep) (vid idx : Nat) (name : String) : Bool :=
  match st.inodes vid, st.onodes vid idx with
  | some inode, some o =>
    decide (inode.data_vdi_id idx ≠ 0 ∧ o.hdr.name ≠ "" ∧ o.hdr.name ≠ name)
  | _, _ => false

/-- The cluster after `onode` has been created in the empty slot idx of the bucket `vid`
whose stored inode is `inode`: a new data object holding the header and the first `size`
data bytes, and the inode's slot set to `vid`. -/
def onode_created (st : Sheep) (inode : sd_inode) (vid idx : Nat) (onode : kv_onode) :
    Sheep :=
  { st with
    onodes := fun v d =>
      if v = vid ∧ d = idx then some ⟨onode.hdr, buf_bytes onode.data onode.hdr.size⟩
      else st.onodes v d
    inodes := fun v =>
      if v = vid then
        some { inode with
               data_vdi_id := fun d => if d = idx then vid else inode.data_vdi_id d }
      else st.inodes v }

/-- The cluster after `onode` has overwritten in place the data object `old` of slot idx of
the bucket `vid`: the header and the first `size` data bytes are new, later bytes stay. -/
def onode_overwritten (st : Sheep) (vid idx : Nat) (onode old : kv_onode) : Sheep :=
  { st with
    onodes := fun v d =>
      if v = vid ∧ d = idx then
        some ⟨onode.hdr, buf_bytes onode.data onode.hdr.size ++ old.data.drop onode.hdr.size⟩
      else st.onodes v d }

/-- The cluster `st1` differs from `st` only in slot idx of the bucket `vid`: its data
object now has the header `hdr` and data starting with `bytes`, and the inode's slot is
set; the VDI namespace, the other inodes and the other slots are as in `st`. -/
def slot_written (st st1 : Sheep) (vid idx : Nat) (hdr : kv_onode_hdr) (bytes : List Nat) :
    Prop :=
  (∃ tail, st1.onodes vid idx = some ⟨hdr, bytes ++ tail⟩) ∧
  (∀ v d, ¬ (v = vid ∧ d = idx) → st1.onodes v d = st.onodes v d) ∧
  st1.vdis = st.vdis ∧
  (∀ v, v ≠ vid → st1.inodes v = st.inodes v) ∧
  (∃ inode inode1, st.inodes vid = some inode ∧ st1.inodes vid = some inode1 ∧
    inode1.vdi_id = inode.vdi_id ∧ inode1.data_vdi_id idx ≠ 0 ∧
    ∀ d, d ≠ idx → inode1.data_vdi_id d = inode.data_vdi_id d)

/-- The onode `kv_create_object` builds for `name` from a readable request: the name cut to
the name field, the number of payload bytes read, both time stamps, inlined; and the bytes
read. -/
def created_onode (env : KvEnv) (req : http_request) (name : String) : kv_onode :=
  ⟨⟨pstrcpy env.SD_MAX_OBJECT_NAME name, min req.body.length (KV_ONODE_INLINE_SIZE env),
      kv_timestamp req.tv, kv_timestamp req.tv, true⟩,
    req.body.take (KV_ONODE_INLINE_SIZE env)⟩

/-- The request after `http_request_read` has taken up to `len` bytes of the payload. -/
def req_after_read (req : http_request) (len : Nat) : http_request :=
  { req with body := req.body.drop len }

/-- The cluster after the object `old` in slot idx of the bucket `vid` has been deleted:
its name field is zeroed, the rest of the data object stays. -/
def onode_deleted (st : Sheep) (vid idx : Nat) (old : kv_onode) : Sheep :=
  { st with
    onodes := fun v d =>
      if v = vid ∧ d = idx then some { old with hdr := { old.hdr with name := "" } }
      else st.onodes v d }

/-- Probe m is the first of the probe sequence of `name` in the bucket `vid` whose slot is
not taken by another object. -/
def first_free (env : KvEnv) (st : Sheep) (vid : Nat) (name : String) (m : Nat) : Prop :=
  m < env.MAX_DATA_OBJS ∧
  (∀ j, j < m → slot_taken st vid (onode_idx env (env.sd_hash name) j)
    (pstrcpy env.SD_MAX_OBJECT_NAME name) = true) ∧
  slot_taken st vid (onode_idx env (env.sd_hash name) m)
    (pstrcpy env.SD_MAX_OBJECT_NAME name) = false

/-- No data object of the bucket `vid` has the stored name `name`. -/
def name_absent (st : Sheep) (vid : Nat) (name : String) : Prop :=
  ∀ idx o, st.onodes vid idx = some o → o.hdr.name ≠ name

/-- One call of the object layer on a bucket: the request and the object name. -/
inductive kv_obj_op where
  | create (req : http_request) (name : String)
  | update (req : http_request) (name : String)
  | delete (req : http_request) (name : String)

/-- The calls `kv_create_object`, `kv_update_object`, `kv_delete_object` of a list, run in
order on the bucket of the given name. -/
def kv_obj_run (env : KvEnv) (bucket : String) : List kv_obj_op → Sheep → Sheep
  | [], st => st
  | kv_obj_op.create req name :: ops, st =>
    kv_obj_run env bucket ops (kv_create_object env st req bucket name 0).st
  | kv_obj_op.update req name :: ops, st =>
    kv_obj_run env bucket ops (kv_update_object env st req bucket name 0).st
  | kv_obj_op.delete req name :: ops, st =>
    kv_obj_run env bucket ops (kv_delete_object env st req bucket name 0).st

/-- The bucket "b1" after "k1" and "k2", which hash alike, have been created (slots 2 and 3)
and "k1" has been deleted again, leaving a tombstone in slot 2. -/
def kv_st_tomb : Sheep :=
  kv_obj_run kv_env0 "b1"
    [kv_obj_op.create (kv_req [97]) "k1", kv_obj_op.create (kv_req [98, 98]) "k2",
     kv_obj_op.delete (kv_req []) "k1"] kv_st_bucket

/-- The bucket "b1" with all four slots taken, by "k1", "k2", "k3" and "k4". -/
def kv_st_bucket_full : Sheep :=
  kv_obj_run kv_env0 "b1"
    [kv_obj_op.create (kv_req [1]) "k1", kv_obj_op.create (kv_req [2]) "k2",
     kv_obj_op.create (kv_req [3]) "k3", kv_obj_op.create (kv_req [4]) "k4"] kv_st_bucket

/-- Every data object of the bucket `vid` with a non-empty stored name sits on the probe
sequence of that name, and every earlier slot of the sequence is taken by another object. -/
def probe_inv (env : KvEnv) (st : Sheep) (vid : Nat) : Prop :=
  ∀ s o, st.onodes vid s = some o → o.hdr.name ≠ "" →
    ∃ i, i < env.MAX_DATA_OBJS ∧ onode_idx env (env.sd_hash o.hdr.name) i = s ∧
      ∀ j, j < i →
        slot_taken st vid (onode_idx env (env.sd_hash o.hdr.name) j) o.hdr.name = true

/-- The clusters `st` and `st1` have the same VDI namespace and inodes, and their data
objects of bucket VDIs carry the same stored names slot by slot. -/
def same_names (st st1 : Sheep) : Prop :=
  st1.vdis = st.vdis ∧ st1.inodes = st.inodes ∧
  ∀ v d, (st1.onodes v d).map (fun o => o.hdr.name)
    = (st.onodes v d).map (fun o => o.hdr.name)

/-- The call is a `kv_create_object` of a name shorter than `SD_MAX_OBJECT_NAME` or a
`kv_update_object`. -/
def create_or_update (env : KvEnv) : kv_obj_op → Prop
  | kv_obj_op.create _ name => name.length < env.SD_MAX_OBJECT_NAME
  | kv_obj_op.update _ _ => True
  | kv_obj_op.delete _ _ => False
/-! ## Part III. Properties of `farm.c` -/

theorem strcmp_eq_zero_iff (s t : List Char) : strcmp s t = 0 ↔ s = t := by
  induction s generalizing t with
  | nil => cases t <;> simp [strcmp]
  | cons a s ih =>
    cases t with
    | nil => simp [strcmp]
    | cons b t =>
      simp only [strcmp]
      split_ifs with h1 h2
      · simp; intro h; subst h; omega
      · simp; intro h; subst h; omega
      · have hab : a = b := by
          apply Char.ext; apply UInt32.ext; simp [Char.toNat] at h1 h2; omega
        subst hab; simp [ih]

theorem strcmp_string_eq_zero_iff (s t : String) : strcmp s.toList t.toList = 0 ↔ s = t := by
  rw [strcmp_eq_zero_iff]
  constructor
  · intro h; exact String.ext h
  · intro h; rw [h]

theorem get_trunk_sha1_loop_none (env : FarmEnv) (st : FarmState) (idx : Nat) (tag : String)
    (log : List snap_log) (h : ∀ e ∈ log, e.idx ≠ idx ∧ e.tag ≠ tag) :
    get_trunk_sha1_loop env st idx tag log = none := by
  induction log with
  | nil => rfl
  | cons e rest ih =>
    have he := h e (List.mem_cons_self _ _)
    have hs : strcmp e.tag.toList tag.toList ≠ 0 := by
      rw [Ne, strcmp_string_eq_zero_iff]; exact he.2
    simp only [get_trunk_sha1_loop, he.1, hs, ne_eq, not_false_eq_true, and_self, if_true]
    exact ih (fun x hx => h x (List.mem_cons_of_mem _ hx))

theorem get_trunk_sha1_loop_first (env : FarmEnv) (st : FarmState) (idx : Nat) (tag : String)
    (pre : List snap_log) (e : snap_log) (post : List snap_log)
    (hpre : ∀ x ∈ pre, x.idx ≠ idx ∧ x.tag ≠ tag) (he : e.idx = idx ∨ e.tag = tag) :
    get_trunk_sha1_loop env st idx tag (pre ++ e :: post)
      = (snap_file_read env st e.sha1).map (fun f => f.trunk_sha1) := by
  induction pre with
  | nil =>
    have hc : ¬ (e.idx ≠ idx ∧ strcmp e.tag.toList tag.toList ≠ 0) := by
      rw [Ne, Ne, strcmp_string_eq_zero_iff]; tauto
    simp only [List.nil_append, get_trunk_sha1_loop, hc, if_false]
    cases snap_file_read env st e.sha1 <;> rfl
  | cons x rest ih =>
    have hx := hpre x (List.mem_cons_self _ _)
    have hs : strcmp x.tag.toList tag.toList ≠ 0 := by
      rw [Ne, strcmp_string_eq_zero_iff]; exact hx.2
    simp only [List.cons_append, get_trunk_sha1_loop, hx.1, hs, ne_eq, not_false_eq_true,
      and_self, if_true]
    exact ih (fun y hy => hpre y (List.mem_cons_of_mem _ hy))

theorem get_trunk_sha1_none (env : FarmEnv) (st : FarmState) (log : List snap_log) (idx : Nat)
    (tag : String) (hlog : st.snap_log = some log)
    (h : ∀ e ∈ log, e.idx ≠ idx ∧ e.tag ≠ tag) : get_trunk_sha1 env st idx tag = none := by
  simp only [get_trunk_sha1, snap_log_read, hlog]
  exact get_trunk_sha1_loop_none env st idx tag log h

/-- C1: `get_trunk_sha1` resolves (idx, tag) through the first log entry, in log order, whose
idx equals idx or whose tag equals tag, and yields the trunk digest of that entry's snap file
(failing when that snap file cannot be read); it reports not-found when no entry matches
either key; `farm_contain_snapshot` is true exactly when the resolution succeeds. -/
theorem C1_get_trunk_sha1_first_match (env : FarmEnv) (st : FarmState) (log : List snap_log)
    (idx : Nat) (tag : String) (hlog : snap_log_read st = some log) :
    ((∀ e ∈ log, e.idx ≠ idx ∧ e.tag ≠ tag) → get_trunk_sha1 env st idx tag = none) ∧
    (∀ pre e post, log = pre ++ e :: post → (∀ x ∈ pre, x.idx ≠ idx ∧ x.tag ≠ tag) →
      (e.idx = idx ∨ e.tag = tag) →
      get_trunk_sha1 env st idx tag
        = (snap_file_read env st e.sha1).map (fun f => f.trunk_sha1)) ∧
    (farm_contain_snapshot env st idx tag = true ↔ ∃ d, get_trunk_sha1 env st idx tag = some d) := by
  refine ⟨?_, ?_, ?_⟩
  · intro h
    simp only [get_trunk_sha1, hlog]
    exact get_trunk_sha1_loop_none env st idx tag log h
  · intro pre e post hsplit hpre he
    simp only [get_trunk_sha1, hlog, hsplit]
    exact get_trunk_sha1_loop_first env st idx tag pre e post hpre he
  · simp [farm_contain_snapshot, Option.isSome_iff_exists]

theorem C1_get_trunk_sha1_first_match_witness :
    snap_log_read farm_st1 = some [⟨1, "v0", 7⟩, ⟨2, "v1", 8⟩] ∧
    get_trunk_sha1 farm_env0 farm_st1 2 "v0" = some 42 ∧
    get_trunk_sha1 farm_env0 farm_st1 3 "v2" = none :=
  ⟨rfl,
    ((C1_get_trunk_sha1_first_match farm_env0 farm_st1 _ 2 "v0" rfl).2.1 [] ⟨1, "v0", 7⟩
      [⟨2, "v1", 8⟩] rfl (by simp) (Or.inr rfl)).trans (by decide),
    (C1_get_trunk_sha1_first_match farm_env0 farm_st1 _ 3 "v2" rfl).1 (by decide)⟩

theorem vdi_cmp_eq_zero_iff (a b : vdi_entry) : vdi_cmp a b = 0 ↔ a.name = b.name := by
  unfold vdi_cmp; exact strcmp_string_eq_zero_iff _ _

theorem rb_search_none (t : List vdi_entry) (key : vdi_entry) (h : rb_search t key = none) :
    ∀ e ∈ t, e.name ≠ key.name := by
  induction t with
  | nil => simp
  | cons e rest ih =>
    simp only [rb_search] at h
    split_ifs at h with hc
    simp only [Option.map_eq_none'] at h
    intro x hx
    rcases List.mem_cons.mp hx with rfl | hx
    · intro hn; exact hc ((vdi_cmp_eq_zero_iff _ _).mpr hn.symm)
    · exact ih h x hx

theorem rb_search_some (t : List vdi_entry) (key : vdi_entry) (i : Nat)
    (h : rb_search t key = some i) :
    ∃ l1 vdi l2, t = l1 ++ vdi :: l2 ∧ vdi.name = key.name ∧ t[i]? = some vdi ∧
      ∀ v, t.set i v = l1 ++ v :: l2 := by
  induction t generalizing i with
  | nil => simp [rb_search] at h
  | cons e rest ih =>
    simp only [rb_search] at h
    split_ifs at h with hc
    · simp only [Option.some.injEq] at h
      subst h
      exact ⟨[], e, rest, rfl, ((vdi_cmp_eq_zero_iff _ _).mp hc).symm, by simp, fun v => rfl⟩
    · simp only [Option.map_eq_some'] at h
      obtain ⟨j, hj, rfl⟩ := h
      obtain ⟨l1, vdi, l2, ht, hn, hg, hs⟩ := ih j hj
      refine ⟨e :: l1, vdi, l2, by rw [ht]; rfl, hn, by simpa using hg, ?_⟩
      intro v
      simp only [List.set_cons_succ, hs v, List.cons_append]

theorem rb_insert_perm (t : List vdi_entry) (v : vdi_entry) (h : ∀ e ∈ t, e.name ≠ v.name) :
    (rb_insert t v).Perm (v :: t) := by
  induction t with
  | nil => exact List.Perm.refl _
  | cons e rest ih =>
    simp only [rb_insert]
    split_ifs with h1 h2
    · exact List.Perm.refl _
    · exact absurd ((vdi_cmp_eq_zero_iff _ _).mp h2).symm (h e (List.mem_cons_self _ _))
    · exact ((ih (fun x hx => h x (List.mem_cons_of_mem _ hx))).cons e).trans (List.Perm.swap _ _ _)

theorem registry_inv_step (t : List vdi_entry) (seen : List sd_inode) (x : sd_inode)
    (h : registry_inv t seen) : registry_inv (insert_vdi_tree t x) (seen ++ [x]) := by
  obtain ⟨hnd, hmax, hcov⟩ := h
  unfold insert_vdi_tree
  cases hf : find_vdi t x.name with
  | none =>
    change registry_inv (rb_insert t (entry_of_inode x)) _
    have habs : ∀ e ∈ t, e.name ≠ x.name := by
      have := rb_search_none t _ hf
      simpa using this
    have hperm := rb_insert_perm t (entry_of_inode x) (by simpa [entry_of_inode, new_vdi] using habs)
    refine ⟨?_, ?_, ?_⟩
    · have hp := hperm.map (fun e : vdi_entry => e.name)
      rw [hp.nodup_iff]
      simp only [List.map_cons, List.nodup_cons, List.mem_map, not_exists, not_and]
      exact ⟨fun e he hn => habs e he hn, hnd⟩
    · intro e he
      rcases List.mem_cons.mp (hperm.mem_iff.mp he) with rfl | het
      · refine ⟨x, by simp, rfl, rfl, ?_⟩
        intro j hj hjn
        rcases List.mem_append.mp hj with hj | hj
        · obtain ⟨e2, he2, hn2⟩ := hcov j hj
          exact absurd (hn2.trans hjn) (habs e2 he2)
        · simp only [List.mem_singleton] at hj; subst hj; exact le_refl _
      · obtain ⟨i, hi, hin, hie, hle⟩ := hmax e het
        refine ⟨i, List.mem_append_left _ hi, hin, hie, ?_⟩
        intro j hj hjn
        rcases List.mem_append.mp hj with hj | hj
        · exact hle j hj hjn
        · simp only [List.mem_singleton] at hj; subst hj
          exact absurd hjn.symm (habs e het)
    · intro i hi
      rcases List.mem_append.mp hi with hi | hi
      · obtain ⟨e, he, hn⟩ := hcov i hi
        exact ⟨e, hperm.mem_iff.mpr (List.mem_cons_of_mem _ he), hn⟩
      · simp only [List.mem_singleton] at hi; subst hi
        exact ⟨entry_of_inode i, hperm.mem_iff.mpr (List.mem_cons_self _ _), rfl⟩
  | some k =>
    obtain ⟨l1, vdi, l2, ht, hn, hg, hs⟩ := rb_search_some t _ k hf
    simp only [hg]
    have hvn : vdi.name = x.name := hn
    have hvd_mem : vdi ∈ t := by rw [ht]; simp
    split_ifs with hlt
    · -- the found node is overwritten
      rw [hs]
      have hnew : (⟨vdi.name, x.vdi_size, x.vdi_id, x.snap_id, x.nr_copies, x.copy_policy,
            x.store_policy⟩ : vdi_entry) = entry_of_inode x := by
        simp [entry_of_inode, new_vdi, hvn]
      rw [hnew]
      have hnames : (l1 ++ entry_of_inode x :: l2).map (fun e => e.name)
          = t.map (fun e => e.name) := by
        rw [ht]; simp [entry_of_inode, new_vdi, hvn]
      have hnd2 : (t.map (fun e : vdi_entry => e.name)).Nodup := hnd
      rw [ht] at hnd2
      simp only [List.map_append, List.map_cons] at hnd2
      have hnd3 := List.nodup_append.mp hnd2
      have hl2 : ∀ e ∈ l2, e.name ≠ vdi.name := by
        intro e he hne
        have := (List.nodup_cons.mp hnd3.2.1).1
        exact this (List.mem_map.mpr ⟨e, he, hne⟩)
      have hl1 : ∀ e ∈ l1, e.name ≠ vdi.name := by
        intro e he hne
        exact hnd3.2.2 (List.mem_map.mpr ⟨e, he, rfl⟩) (by rw [hne]; simp)
      refine ⟨by rw [hnames]; exact hnd, ?_, ?_⟩
      · intro e he
        have hcase : e = entry_of_inode x ∨ (e ∈ t ∧ e.name ≠ x.name) := by
          rcases List.mem_append.mp he with he | he
          · exact Or.inr ⟨by rw [ht]; simp [he], hvn ▸ hl1 e he⟩
          · rcases List.mem_cons.mp he with he | he
            · exact Or.inl he
            · exact Or.inr ⟨by rw [ht]; simp [he], hvn ▸ hl2 e he⟩
        rcases hcase with rfl | ⟨het, hen⟩
        · refine ⟨x, by simp, rfl, rfl, ?_⟩
          intro j hj hjn
          rcases List.mem_append.mp hj with hj | hj
          · obtain ⟨i, hi, hin, hie, hle⟩ := hmax vdi hvd_mem
            have h1 := hle j hj (by rw [hjn]; exact hvn.symm)
            have h2 : vdi.snap_id = i.snap_id := by rw [hie]; rfl
            omega
          · simp only [List.mem_singleton] at hj; subst hj; exact le_refl _
        · obtain ⟨i, hi, hin, hie, hle⟩ := hmax e het
          refine ⟨i, List.mem_append_left _ hi, hin, hie, ?_⟩
          intro j hj hjn
          rcases List.mem_append.mp hj with hj | hj
          · exact hle j hj hjn
          · simp only [List.mem_singleton] at hj; subst hj
            exact absurd hjn.symm hen
      · intro i hi
        have hnm : ∀ n, (∃ e ∈ t, e.name = n) → ∃ e ∈ l1 ++ entry_of_inode x :: l2, e.name = n := by
          intro n ⟨e, he, hen⟩
          have : n ∈ (l1 ++ entry_of_inode x :: l2).map (fun e => e.name) := by
            rw [hnames]; exact List.mem_map.mpr ⟨e, he, hen⟩
          obtain ⟨e2, he2, hn2⟩ := List.mem_map.mp this
          exact ⟨e2, he2, hn2⟩
        rcases List.mem_append.mp hi with hi | hi
        · exact hnm _ (hcov i hi)
        · simp only [List.mem_singleton] at hi; subst hi
          exact hnm _ ⟨vdi, hvd_mem, hvn⟩
    · -- the found node is kept
      refine ⟨hnd, ?_, ?_⟩
      · intro e he
        obtain ⟨i, hi, hin, hie, hle⟩ := hmax e he
        refine ⟨i, List.mem_append_left _ hi, hin, hie, ?_⟩
        intro j hj hjn
        rcases List.mem_append.mp hj with hj | hj
        · exact hle j hj hjn
        · simp only [List.mem_singleton] at hj; subst hj
          have hev : e = vdi := by
            have hinj := List.inj_on_of_nodup_map hnd
            exact hinj he hvd_mem (hjn.symm.trans hvn.symm)
          have h2 : e.snap_id = i.snap_id := by rw [hie]; rfl
          rw [hev] at h2
          omega
      · intro i hi
        rcases List.mem_append.mp hi with hi | hi
        · exact hcov i hi
        · simp only [List.mem_singleton] at hi; subst hi
          exact ⟨vdi, hvd_mem, hvn⟩

theorem registry_inv_foldl (ins : List sd_inode) (t : List vdi_entry) (seen : List sd_inode)
    (h : registry_inv t seen) : registry_inv (ins.foldl insert_vdi_tree t) (seen ++ ins) := by
  induction ins generalizing t seen with
  | nil => simpa using h
  | cons x rest ih =>
    have := ih _ _ (registry_inv_step t seen x h)
    simpa using this

theorem foldl_insert_vdi_tree (ins : List sd_inode) (st : FarmState) :
    (ins.foldl insert_vdi st) =
      { st with last_vdi_tree := ins.foldl insert_vdi_tree st.last_vdi_tree } := by
  induction ins generalizing st with
  | nil => rfl
  | cons x rest ih => simp only [List.foldl_cons, ih]; rfl

theorem create_active_vdis_loop_ok (env : FarmEnv) (hok : ∀ n, env.vdi_create_fails n = false)
    (l : List vdi_entry) (st : FarmState) :
    create_active_vdis_loop env st l =
      (0, { st with calls := st.calls ++ l.map (fun e => FarmCall.vdi_create e.name e.vdi_size
        e.vdi_id false e.nr_copies e.copy_policy e.store_policy) }) := by
  induction l generalizing st with
  | nil => simp [create_active_vdis_loop]
  | cons e rest ih =>
    simp only [create_active_vdis_loop, do_vdi_create, hok]
    simp [ih]

/-- C2: after any sequence of `insert_vdi` calls on an empty registry the registry holds
exactly one node per inserted VDI name, carrying the fields of an inserted inode of that name
whose snap_id is the largest inserted for the name; `create_active_vdis`, when no creation
fails, returns 0 and issues exactly one `vdi_create` per node, in tree order, with
snapshot = false and the node's name, size, vdi_id, nr_copies, copy_policy, store_policy. -/
theorem C2_registry_keeps_latest_snap_id (env : FarmEnv) (st : FarmState) (ins : List sd_inode)
    (hempty : st.last_vdi_tree = []) (hok : ∀ n, env.vdi_create_fails n = false) :
    ((ins.foldl insert_vdi st).last_vdi_tree.map (fun e => e.name)).Nodup ∧
    (∀ n, (∃ e ∈ (ins.foldl insert_vdi st).last_vdi_tree, e.name = n) ↔ ∃ i ∈ ins, i.name = n) ∧
    (∀ e ∈ (ins.foldl insert_vdi st).last_vdi_tree, ∃ i ∈ ins, i.name = e.name ∧
      e = new_vdi i.name i.vdi_size i.vdi_id i.snap_id i.nr_copies i.copy_policy i.store_policy ∧
      ∀ j ∈ ins, j.name = e.name → j.snap_id ≤ i.snap_id) ∧
    (create_active_vdis env (ins.foldl insert_vdi st)).1 = 0 ∧
    (create_active_vdis env (ins.foldl insert_vdi st)).2.calls = st.calls ++
      (ins.foldl insert_vdi st).last_vdi_tree.map (fun e => FarmCall.vdi_create e.name
        e.vdi_size e.vdi_id false e.nr_copies e.copy_policy e.store_policy) := by
  have hinv : registry_inv (ins.foldl insert_vdi_tree []) ([] ++ ins) :=
    registry_inv_foldl ins [] [] ⟨by simp, by simp, by simp⟩
  simp only [List.nil_append] at hinv
  obtain ⟨hnd, hmax, hcov⟩ := hinv
  rw [foldl_insert_vdi_tree, hempty]
  refine ⟨hnd, ?_, hmax, ?_, ?_⟩
  · intro n
    constructor
    · rintro ⟨e, he, hn⟩
      obtain ⟨i, hi, hin, _, _⟩ := hmax e he
      exact ⟨i, hi, hin.trans hn⟩
    · rintro ⟨i, hi, hn⟩
      obtain ⟨e, he, hen⟩ := hcov i hi
      exact ⟨e, he, hen.trans hn⟩
  · simp [create_active_vdis, create_active_vdis_loop_ok env hok]
  · simp [create_active_vdis, create_active_vdis_loop_ok env hok]

theorem C2_registry_keeps_latest_snap_id_witness :
    farm_st0.last_vdi_tree = [] ∧ (∀ n, farm_env0.vdi_create_fails n = false) ∧
    (create_active_vdis farm_env0 (inodes_a35.foldl insert_vdi farm_st0)).2.calls
      = [FarmCall.vdi_create "a" 50 15 false 2 0 1] :=
  ⟨rfl, fun _ => rfl,
    (C2_registry_keeps_latest_snap_id farm_env0 farm_st0 inodes_a35 rfl (fun _ => rfl)).2.2.2.2.trans
      (by decide)⟩

/-! ### Saving -/

theorem save_frame_refl (st : FarmState) : save_frame st st := ⟨rfl, rfl, rfl, rfl, rfl⟩

theorem save_frame_trans (a b c : FarmState) (h1 : save_frame a b) (h2 : save_frame b c) :
    save_frame a c :=
  ⟨h2.1.trans h1.1, h2.2.1.trans h1.2.1, h2.2.2.1.trans h1.2.2.1, h2.2.2.2.1.trans h1.2.2.2.1,
    h2.2.2.2.2.trans h1.2.2.2.2⟩

theorem slice_write_frame (env : FarmEnv) (st st1 : FarmState) (buf : List Nat) (d : Nat)
    (h : slice_write env st buf = some (st1, d)) :
    save_frame st st1 ∧ st1.work_error = st.work_error ∧ d = env.sha1 buf := by
  unfold slice_write at h
  split_ifs at h
  simp only [] at h
  split at h <;> simp only [Option.some.injEq, Prod.mk.injEq] at h <;> obtain ⟨rfl, rfl⟩ := h <;>
    exact ⟨⟨rfl, rfl, rfl, rfl, rfl⟩, rfl, rfl⟩

theorem dog_read_object_frame (env : FarmEnv) (st st1 : FarmState) (h : save_frame st st1)
    (oid size : Nat) : dog_read_object env st1 oid size = dog_read_object env st oid size := by
  simp only [dog_read_object, h.2.1]

theorem slice_write_ok (env : FarmEnv) (st : FarmState) (buf : List Nat)
    (h : env.slice_write_fails buf = false) :
    ∃ st1, slice_write env st buf = some (st1, env.sha1 buf) ∧ save_frame st st1 ∧
      st1.work_error = st.work_error := by
  unfold slice_write
  simp only [h, Bool.false_eq_true, if_false]
  cases st.slices (env.sha1 buf) with
  | none => exact ⟨_, rfl, ⟨rfl, rfl, rfl, rfl, rfl⟩, rfl⟩
  | some b => exact ⟨_, rfl, ⟨rfl, rfl, rfl, rfl, rfl⟩, rfl⟩

theorem do_save_object_frame (env : FarmEnv) (st : FarmState) (sw : snapshot_work) :
    save_frame st (do_save_object env st sw).1 ∧
    (st.work_error = true → (do_save_object env st sw).1.work_error = true) := by
  unfold do_save_object
  split_ifs with hw
  · exact ⟨save_frame_refl st, fun _ => hw⟩
  · simp only []
    cases hr : dog_read_object env st sw.entry.oid (env.get_objsize sw.entry.oid) with
    | none => exact ⟨⟨rfl, rfl, rfl, rfl, rfl⟩, fun _ => rfl⟩
    | some buf =>
      simp only []
      cases hs : slice_write env st buf with
      | none => exact ⟨⟨rfl, rfl, rfl, rfl, rfl⟩, fun _ => rfl⟩
      | some r =>
        obtain ⟨st1, sha⟩ := r
        have := slice_write_frame env st st1 buf sha hs
        exact ⟨this.1, fun h => absurd h hw⟩

theorem run_save_works_frame (env : FarmEnv) (works : List snapshot_work) (st : FarmState) :
    save_frame st (run_save_works env st works).1 ∧
    (st.work_error = true → (run_save_works env st works).1.work_error = true) := by
  induction works generalizing st with
  | nil => exact ⟨save_frame_refl st, fun h => h⟩
  | cons sw rest ih =>
    simp only [run_save_works]
    have h1 := do_save_object_frame env st sw
    have h2 := ih (do_save_object env st sw).1
    exact ⟨save_frame_trans _ _ _ h1.1 h2.1, fun h => h2.2 (h1.2 h)⟩

theorem do_save_object_fails (env : FarmEnv) (st : FarmState) (sw : snapshot_work)
    (h : (match dog_read_object env st sw.entry.oid (env.get_objsize sw.entry.oid) with
      | none => true
      | some buf => env.slice_write_fails buf) = true) :
    (do_save_object env st sw).1.work_error = true := by
  unfold do_save_object
  split_ifs with hw
  · exact hw
  · simp only []
    cases hr : dog_read_object env st sw.entry.oid (env.get_objsize sw.entry.oid) with
    | none => rfl
    | some buf =>
      rw [hr] at h
      simp only [] at h
      simp only [slice_write, h, if_true]

theorem run_save_works_fails (env : FarmEnv) (works : List snapshot_work) (st : FarmState)
    (h : ∃ sw ∈ works,
      (match dog_read_object env st sw.entry.oid (env.get_objsize sw.entry.oid) with
      | none => true
      | some buf => env.slice_write_fails buf) = true) :
    (run_save_works env st works).1.work_error = true := by
  induction works generalizing st with
  | nil => simp at h
  | cons sw rest ih =>
    simp only [run_save_works]
    obtain ⟨x, hx, hf⟩ := h
    rcases List.mem_cons.mp hx with rfl | hx
    · exact (run_save_works_frame env rest _).2 (do_save_object_fails env st x hf)
    · apply ih
      refine ⟨x, hx, ?_⟩
      rw [dog_read_object_frame env st _ (do_save_object_frame env st sw).1]
      exact hf

theorem run_save_works_ok (env : FarmEnv) (works : List snapshot_work) (st : FarmState)
    (hw : st.work_error = false)
    (h : ∀ sw ∈ works, ∃ buf,
      dog_read_object env st sw.entry.oid (env.get_objsize sw.entry.oid) = some buf ∧
      env.slice_write_fails buf = false) :
    (run_save_works env st works).1.work_error = false ∧
    (run_save_works env st works).2 = works.map (fun sw =>
      { entry := { sw.entry with sha1 := env.sha1 (saved_bytes env st sw.entry.oid) } }) := by
  induction works generalizing st with
  | nil => exact ⟨hw, rfl⟩
  | cons sw rest ih =>
    obtain ⟨buf, hr, hs⟩ := h sw (List.mem_cons_self _ _)
    have hstep : ∃ st1, do_save_object env st sw =
        (st1, { entry := { sw.entry with sha1 := env.sha1 buf } }) ∧ save_frame st st1 ∧
        st1.work_error = false := by
      obtain ⟨st1, hsw, hfr, hwe⟩ := slice_write_ok env st buf hs
      refine ⟨st1, ?_, hfr, hwe.trans hw⟩
      unfold do_save_object
      simp only [hw, hr, hsw, Bool.false_eq_true, if_false]
    obtain ⟨st1, hd, hfr, hw1⟩ := hstep
    have hrest := ih st1 hw1 (by
      intro x hx
      obtain ⟨b, hb, hsb⟩ := h x (List.mem_cons_of_mem _ hx)
      exact ⟨b, by rw [dog_read_object_frame env st st1 hfr]; exact hb, hsb⟩)
    simp only [run_save_works, hd, List.map_cons]
    refine ⟨hrest.1, ?_⟩
    rw [hrest.2]
    congr 1
    · simp [saved_bytes, hr]
    · apply List.map_congr_left
      intro x hx
      simp only [saved_bytes, dog_read_object_frame env st st1 hfr]

theorem foldl_save_object_done_ok (st : FarmState) (hw : st.work_error = false)
    (works : List snapshot_work) (buf : List trunk_entry) :
    works.foldl (save_object_done st) buf = buf ++ works.map (fun sw => sw.entry) := by
  induction works generalizing buf with
  | nil => simp
  | cons sw rest ih => simp [save_object_done, hw, ih]

theorem trunk_file_write_frame (env : FarmEnv) (st : FarmState) (nr : Nat)
    (es : List trunk_entry) :
    (trunk_file_write env st nr es).2.snap_log = st.snap_log ∧
    (trunk_file_write env st nr es).2.calls = st.calls ++ [FarmCall.trunk_file_write nr es] ∧
    (trunk_file_write env st nr es).2.objects = st.objects ∧
    (trunk_file_write env st nr es).2.last_vdi_tree = st.last_vdi_tree ∧
    (trunk_file_write env st nr es).2.work_error = st.work_error := by
  unfold trunk_file_write
  simp only []
  split_ifs
  · exact ⟨rfl, rfl, rfl, rfl, rfl⟩
  · cases hs : slice_write env { st with calls := st.calls ++ [FarmCall.trunk_file_write nr es] }
        (env.trunk_enc nr es) with
    | none => exact ⟨rfl, rfl, rfl, rfl, rfl⟩
    | some r =>
      obtain ⟨st2, d⟩ := r
      obtain ⟨hf, hw, _⟩ := slice_write_frame env _ st2 _ d hs
      exact ⟨hf.1, hf.2.2.2.2, hf.2.1, hf.2.2.2.1, hw⟩

theorem snap_file_write_frame (env : FarmEnv) (st st1 : FarmState) (idx t d : Nat)
    (h : snap_file_write env st idx t = some (st1, d)) :
    save_frame st st1 ∧ st1.work_error = st.work_error := by
  unfold snap_file_write at h
  split_ifs at h
  have := slice_write_frame env st st1 _ d h
  exact ⟨this.1, this.2.1⟩

theorem snap_log_write_some (env : FarmEnv) (st st1 : FarmState) (idx : Nat) (tag : String)
    (sha : Nat) (log : List snap_log) (hlog : st.snap_log = some log)
    (h : snap_log_write env st idx tag sha = some st1) :
    st1.snap_log = some (log ++ [⟨idx, tag, sha⟩]) ∧ st1.calls = st.calls ∧
    st1.slices = st.slices ∧ st1.objects = st.objects ∧
    st1.last_vdi_tree = st.last_vdi_tree ∧ st1.work_error = st.work_error := by
  unfold snap_log_write at h
  split_ifs at h
  rw [hlog] at h
  simp only [Option.some.injEq] at h
  subst h
  exact ⟨rfl, rfl, rfl, rfl, rfl, rfl⟩

/-- Every run of `farm_save_snapshot` on a readable log ends in one of two ways: it returns
-1 and the log is what it was, or it returns 0 and the log has grown by the one entry
(length + 1, tag, digest of the snap file). -/
theorem farm_save_snapshot_outcome (env : FarmEnv) (st : FarmState) (tag : String)
    (log : List snap_log) (hlog : snap_log_read st = some log) :
    ((farm_save_snapshot env st tag).1 = -1 ∧
      (farm_save_snapshot env st tag).2.snap_log = some log) ∨
    ((farm_save_snapshot env st tag).1 = 0 ∧ ∃ sha,
      (farm_save_snapshot env st tag).2.snap_log
        = some (log ++ [⟨log.length + 1, tag, sha⟩])) := by
  have hl : st.snap_log = some log := hlog
  unfold farm_save_snapshot
  simp only [hlog]
  have hfr := (run_save_works_frame env (st.object_tree.map
    (fun o => queue_save_snapshot_work o.oid o.nr_copies o.copy_policy)) st).1
  generalize run_save_works env st (st.object_tree.map
    (fun o => queue_save_snapshot_work o.oid o.nr_copies o.copy_policy)) = ran at hfr ⊢
  split_ifs with hw
  · exact Or.inl ⟨rfl, hfr.1.trans hl⟩
  · have htf := trunk_file_write_frame env ran.1 (object_tree_size st)
      (ran.2.foldl (save_object_done ran.1) [])
    generalize trunk_file_write env ran.1 (object_tree_size st)
      (ran.2.foldl (save_object_done ran.1) []) = tw at htf ⊢
    obtain ⟨r, st2⟩ := tw
    cases r with
    | none => exact Or.inl ⟨rfl, htf.1.trans (hfr.1.trans hl)⟩
    | some trunk_sha1 =>
      simp only []
      have hl2 : st2.snap_log = some log := htf.1.trans (hfr.1.trans hl)
      cases hsf : snap_file_write env st2 (log.length + 1) trunk_sha1 with
      | none => exact Or.inl ⟨rfl, hl2⟩
      | some p =>
        obtain ⟨st3, snap_sha1⟩ := p
        have hl3 : st3.snap_log = some log :=
          (snap_file_write_frame env st2 st3 _ _ _ hsf).1.1.trans hl2
        simp only []
        cases hlw : snap_log_write env st3 (log.length + 1) tag snap_sha1 with
        | none => exact Or.inl ⟨rfl, hl3⟩
        | some st4 =>
          exact Or.inr ⟨rfl, snap_sha1, (snap_log_write_some env st3 st4 _ _ _ log hl3 hlw).1⟩

theorem snap_log_ordered_append (log : List snap_log) (tag : String) (sha : Nat)
    (h : snap_log_ordered log) : snap_log_ordered (log ++ [⟨log.length + 1, tag, sha⟩]) := by
  intro i e he
  by_cases hi : i < log.length
  · rw [List.getElem?_append_left hi] at he
    exact h i e he
  · have hi2 : log.length ≤ i := Nat.le_of_not_lt hi
    rw [List.getElem?_append_right hi2] at he
    cases hk : i - log.length with
    | zero =>
      rw [hk] at he
      simp only [List.getElem?_cons_zero, Option.some.injEq] at he
      subst he
      simp only
      omega
    | succ k => rw [hk] at he; simp at he

theorem farm_save_snapshot_latched (env : FarmEnv) (st : FarmState) (tag : String)
    (h : (run_save_works env st (st.object_tree.map
      (fun o => queue_save_snapshot_work o.oid o.nr_copies o.copy_policy))).1.work_error = true) :
    (farm_save_snapshot env st tag).1 = -1 := by
  unfold farm_save_snapshot
  cases hl : snap_log_read st with
  | none => rfl
  | some log => simp only [h, if_true]

theorem farm_save_snapshot_calls (env : FarmEnv) (st : FarmState) (tag : String)
    (log : List snap_log) (hlog : snap_log_read st = some log)
    (h : (run_save_works env st (st.object_tree.map
      (fun o => queue_save_snapshot_work o.oid o.nr_copies o.copy_policy))).1.work_error = false) :
    (farm_save_snapshot env st tag).2.calls = st.calls ++
      [FarmCall.trunk_file_write st.object_tree.length
        ((run_save_works env st (st.object_tree.map
          (fun o => queue_save_snapshot_work o.oid o.nr_copies o.copy_policy))).2.foldl
          (save_object_done (run_save_works env st (st.object_tree.map
            (fun o => queue_save_snapshot_work o.oid o.nr_copies o.copy_policy))).1) [])] := by
  unfold farm_save_snapshot
  simp only [hlog, h, Bool.false_eq_true, if_false, object_tree_size]
  have hfr := (run_save_works_frame env (st.object_tree.map
    (fun o => queue_save_snapshot_work o.oid o.nr_copies o.copy_policy)) st).1
  generalize run_save_works env st (st.object_tree.map
    (fun o => queue_save_snapshot_work o.oid o.nr_copies o.copy_policy)) = ran at hfr ⊢
  have htf := trunk_file_write_frame env ran.1 st.object_tree.length
    (ran.2.foldl (save_object_done ran.1) [])
  rw [hfr.2.2.2.2] at htf
  generalize trunk_file_write env ran.1 st.object_tree.length
    (ran.2.foldl (save_object_done ran.1) []) = tw at htf ⊢
  obtain ⟨r, st2⟩ := tw
  cases r with
  | none => exact htf.2.1
  | some trunk_sha1 =>
    simp only []
    cases hsf : snap_file_write env st2 (log.length + 1) trunk_sha1 with
    | none => exact htf.2.1
    | some p =>
      obtain ⟨st3, snap_sha1⟩ := p
      have hc3 : st3.calls = st2.calls := (snap_file_write_frame env st2 st3 _ _ _ hsf).1.2.2.2.2
      simp only []
      cases hlw : snap_log_write env st3 (log.length + 1) tag snap_sha1 with
      | none => exact hc3.trans htf.2.1
      | some st4 =>
        have hl3 : st3.snap_log = some log := by
          rw [(snap_file_write_frame env st2 st3 _ _ _ hsf).1.1, htf.1, hfr.1]; exact hlog
        exact ((snap_log_write_some env st3 st4 _ _ _ log hl3 hlw).2.1.trans hc3).trans htf.2.1

theorem farm_save_snapshot_write_fails (env : FarmEnv) (st : FarmState) (tag : String)
    (h : env.trunk_write_fails = true ∨ env.snap_write_fails = true) :
    (farm_save_snapshot env st tag).1 = -1 := by
  unfold farm_save_snapshot
  cases hl : snap_log_read st with
  | none => rfl
  | some log =>
    simp only []
    split_ifs with hw
    · rfl
    · rcases h with h | h
      · simp only [trunk_file_write, h, if_true]
      · generalize trunk_file_write env _ _ _ = tw
        obtain ⟨r, st2⟩ := tw
        cases r with
        | none => rfl
        | some d => simp only [snap_file_write, h, if_true]

/-- C3 (amended): a save that fails (an object read, a slice write, `trunk_file_write` or
`snap_file_write` failing makes it fail) returns -1 and leaves the snap log exactly as it
was; `farm_contain_snapshot` is then false for idx = old log length + 1 and the tag,
provided no entry already in the log carries that idx or that tag. -/
theorem C3_failed_save_keeps_log (env : FarmEnv) (st : FarmState) (tag : String)
    (log : List snap_log) (hlog : snap_log_read st = some log)
    (hfresh : ∀ e ∈ log, e.idx ≠ log.length + 1 ∧ e.tag ≠ tag) :
    (((∃ o ∈ st.object_tree, save_task_fails env st o = true) ∨ env.trunk_write_fails = true ∨
        env.snap_write_fails = true) → (farm_save_snapshot env st tag).1 = -1) ∧
    ((farm_save_snapshot env st tag).1 ≠ 0 →
      (farm_save_snapshot env st tag).1 = -1 ∧
      (farm_save_snapshot env st tag).2.snap_log = some log ∧
      farm_contain_snapshot env (farm_save_snapshot env st tag).2 (log.length + 1) tag
        = false) := by
  constructor
  · rintro (⟨o, ho, hf⟩ | h)
    · apply farm_save_snapshot_latched
      apply run_save_works_fails
      exact ⟨queue_save_snapshot_work o.oid o.nr_copies o.copy_policy,
        List.mem_map.mpr ⟨o, ho, rfl⟩, hf⟩
    · exact farm_save_snapshot_write_fails env st tag h
  · intro hne
    rcases farm_save_snapshot_outcome env st tag log hlog with ⟨h1, h2⟩ | ⟨h1, _⟩
    · refine ⟨h1, h2, ?_⟩
      have := (get_trunk_sha1_none env (farm_save_snapshot env st tag).2 log (log.length + 1) tag h2
        hfresh)
      simp [farm_contain_snapshot, this]
    · exact absurd h1 hne

/-- C4: on a log with entries[i].idx = i + 1, a successful save appends exactly one entry,
(old length + 1, tag, snap digest), after the unchanged old entries, so the ordering
invariant still holds; with an empty log and no objects it hands `trunk_file_write` the
count 0 with no entries and the log becomes the single entry with idx 1. -/
theorem C4_successful_save_appends_one_entry (env : FarmEnv) (st : FarmState) (tag : String)
    (log : List snap_log) (hlog : snap_log_read st = some log) (hord : snap_log_ordered log)
    (hsucc : (farm_save_snapshot env st tag).1 = 0) :
    (∃ sha, (farm_save_snapshot env st tag).2.snap_log
        = some (log ++ [⟨log.length + 1, tag, sha⟩]) ∧
      snap_log_ordered (log ++ [⟨log.length + 1, tag, sha⟩])) ∧
    (log = [] → st.object_tree = [] →
      (farm_save_snapshot env st tag).2.calls = st.calls ++ [FarmCall.trunk_file_write 0 []] ∧
      ∃ sha, (farm_save_snapshot env st tag).2.snap_log = some [⟨1, tag, sha⟩]) := by
  have hout := farm_save_snapshot_outcome env st tag log hlog
  have hsha : ∃ sha, (farm_save_snapshot env st tag).2.snap_log
      = some (log ++ [⟨log.length + 1, tag, sha⟩]) := by
    rcases hout with ⟨h1, _⟩ | ⟨_, h2⟩
    · rw [hsucc] at h1; exact absurd h1 (by decide)
    · exact h2
  refine ⟨?_, ?_⟩
  · obtain ⟨sha, h⟩ := hsha
    exact ⟨sha, h, snap_log_ordered_append log tag sha hord⟩
  · intro hnil htree
    have hw : (run_save_works env st (st.object_tree.map
        (fun o => queue_save_snapshot_work o.oid o.nr_copies o.copy_policy))).1.work_error
        = false := by
      by_contra hc
      have := farm_save_snapshot_latched env st tag (by simpa using hc)
      rw [hsucc] at this; exact absurd this (by decide)
    have hc := farm_save_snapshot_calls env st tag log hlog hw
    refine ⟨?_, ?_⟩
    · rw [hc, htree]; simp [run_save_works]
    · obtain ⟨sha, h⟩ := hsha
      exact ⟨sha, by rw [h, hnil]; rfl⟩

/-- C5: when no save task fails, `farm_save_snapshot` hands `trunk_file_write` one entry per
object of the object tree, in iteration order, each with the object's oid, nr_copies,
copy_policy and the digest `slice_write` returns for the `get_objsize(oid)` bytes read, and
the count passed is the number of those entries. -/
theorem C5_trunk_lists_every_object (env : FarmEnv) (st : FarmState) (tag : String)
    (log : List snap_log) (hlog : snap_log_read st = some log)
    (hlatch : st.work_error = false)
    (hok : ∀ o ∈ st.object_tree, save_task_fails env st o = false)
    (hu8 : ∀ o ∈ st.object_tree, o.nr_copies < 256 ∧ o.copy_policy < 256) :
    (farm_save_snapshot env st tag).2.calls = st.calls ++
      [FarmCall.trunk_file_write
        (st.object_tree.map (fun o => (⟨o.oid, o.nr_copies, o.copy_policy,
          env.sha1 (saved_bytes env st o.oid)⟩ : trunk_entry))).length
        (st.object_tree.map (fun o => ⟨o.oid, o.nr_copies, o.copy_policy,
          env.sha1 (saved_bytes env st o.oid)⟩))] ∧
    ∀ o ∈ st.object_tree, ∃ buf st1 st2,
      dog_read_object env st o.oid (env.get_objsize o.oid) = some buf ∧
      slice_write env st1 buf = some (st2, env.sha1 (saved_bytes env st o.oid)) := by
  have hrun := run_save_works_ok env (st.object_tree.map
    (fun o => queue_save_snapshot_work o.oid o.nr_copies o.copy_policy)) st hlatch (by
      intro sw hsw
      obtain ⟨o, ho, rfl⟩ := List.mem_map.mp hsw
      have := hok o ho
      unfold save_task_fails at this
      simp only [queue_save_snapshot_work]
      cases hr : dog_read_object env st o.oid (env.get_objsize o.oid) with
      | none => rw [hr] at this; simp at this
      | some buf => rw [hr] at this; exact ⟨buf, rfl, this⟩)
  constructor
  · rw [farm_save_snapshot_calls env st tag log hlog hrun.1, hrun.2,
      foldl_save_object_done_ok _ hrun.1]
    simp only [List.nil_append, List.map_map, List.length_map]
    congr 3
    apply List.map_congr_left
    intro o ho
    have := hu8 o ho
    simp [queue_save_snapshot_work, Nat.mod_eq_of_lt this.1, Nat.mod_eq_of_lt this.2]
  · intro o ho
    have := hok o ho
    unfold save_task_fails at this
    cases hr : dog_read_object env st o.oid (env.get_objsize o.oid) with
    | none => rw [hr] at this; simp at this
    | some buf =>
      rw [hr] at this
      obtain ⟨st2, hs, _⟩ := slice_write_ok env st buf this
      exact ⟨buf, st, st2, rfl, by simpa [saved_bytes, hr] using hs⟩

theorem C3_failed_save_keeps_log_witness :
    snap_log_read farm_st3 = some [⟨1, "v0", 7⟩] ∧
    (∀ e ∈ [(⟨1, "v0", 7⟩ : snap_log)], e.idx ≠ 2 ∧ e.tag ≠ "v1") ∧
    (∃ o ∈ farm_st3.object_tree, save_task_fails farm_env_rf farm_st3 o = true) ∧
    (farm_save_snapshot farm_env_rf farm_st3 "v1").1 = -1 ∧
    (farm_save_snapshot farm_env_rf farm_st3 "v1").2.snap_log = some [⟨1, "v0", 7⟩] ∧
    farm_contain_snapshot farm_env_rf (farm_save_snapshot farm_env_rf farm_st3 "v1").2 2 "v1"
      = false :=
  ⟨rfl, by decide, by decide,
    (C3_failed_save_keeps_log farm_env_rf farm_st3 "v1" [⟨1, "v0", 7⟩] rfl (by decide)).2
      (by decide)⟩

/-- C3 as stated fails when the tag is already in the log: the save of tag "v0" fails before
the append, the log still has its one entry (1, "v0"), and `farm_contain_snapshot(2, "v0")`
is true because that entry matches by tag. -/
theorem C3_counterexample_tag_reused :
    (farm_save_snapshot farm_env_rf farm_st3 "v0").1 = -1 ∧
    (farm_save_snapshot farm_env_rf farm_st3 "v0").2.snap_log = some [⟨1, "v0", 7⟩] ∧
    farm_contain_snapshot farm_env_rf (farm_save_snapshot farm_env_rf farm_st3 "v0").2 2 "v0"
      = true := by
  decide

theorem C4_successful_save_appends_one_entry_witness :
    snap_log_read farm_st0 = some [] ∧ snap_log_ordered [] ∧
    (farm_save_snapshot farm_env0 farm_st0 "v0").1 = 0 ∧
    (farm_save_snapshot farm_env0 farm_st0 "v0").2.calls = [FarmCall.trunk_file_write 0 []] ∧
    ∃ sha, (farm_save_snapshot farm_env0 farm_st0 "v0").2.snap_log = some [⟨1, "v0", sha⟩] :=
  ⟨rfl, fun i e h => by simp at h, by decide,
    (C4_successful_save_appends_one_entry farm_env0 farm_st0 "v0" [] rfl
      (fun i e h => by simp at h) (by decide)).2 rfl rfl⟩

theorem C5_trunk_lists_every_object_witness :
    snap_log_read farm_st2 = some [] ∧ farm_st2.work_error = false ∧
    (∀ o ∈ farm_st2.object_tree, save_task_fails farm_env0 farm_st2 o = false) ∧
    (∀ o ∈ farm_st2.object_tree, o.nr_copies < 256 ∧ o.copy_policy < 256) ∧
    (farm_save_snapshot farm_env0 farm_st2 "v0").2.calls =
      [FarmCall.trunk_file_write 2
        [⟨1, 2, 0, farm_env0.sha1 [5, 6, 7, 8]⟩, ⟨100, 2, 0, farm_env0.sha1 [1, 30, 13, 3]⟩]] :=
  ⟨rfl, rfl, by decide, by decide,
    (C5_trunk_lists_every_object farm_env0 farm_st2 "v0" [] rfl rfl (by decide) (by decide)).1⟩

/-! ### Loading -/

theorem foldl_erase_self (l : List vdi_entry) : l.foldl rb_erase l = [] := by
  induction l with
  | nil => rfl
  | cons a rest ih =>
    simp only [List.foldl_cons, rb_erase, List.erase_cons_head]
    exact ih

theorem free_vdi_list_empty (st : FarmState) : (free_vdi_list st).last_vdi_tree = [] :=
  foldl_erase_self st.last_vdi_tree

theorem free_vdi_list_frame (st : FarmState) :
    (free_vdi_list st).calls = st.calls ∧ (free_vdi_list st).objects = st.objects ∧
    (free_vdi_list st).snap_log = st.snap_log ∧ (free_vdi_list st).slices = st.slices :=
  ⟨rfl, rfl, rfl, rfl⟩

theorem notify_vdi_add_snd (env : FarmEnv) (st : FarmState) (v n c : Nat) :
    (notify_vdi_add env st v n c).2 =
      { st with calls := st.calls ++ [FarmCall.notify_vdi_add v n c true] } := by
  unfold notify_vdi_add dog_exec_req_notify
  cases env.notify_fails v <;> rfl

theorem notify_vdi_add_fst (env : FarmEnv) (st : FarmState) (v n c : Nat) :
    (notify_vdi_add env st v n c).1 = if env.notify_fails v = true then -1 else 0 := by
  unfold notify_vdi_add dog_exec_req_notify
  cases env.notify_fails v <;> rfl

theorem do_load_object_frame (env : FarmEnv) (st : FarmState) (sw : snapshot_work) :
    load_frame st (do_load_object env st sw) := by
  have hneg : (-1 : Int) < 0 := by decide
  have hzero : ¬ (0 : Int) < 0 := by decide
  unfold do_load_object
  by_cases hw : st.work_error = true
  · simp only [hw, if_true]; exact ⟨rfl, rfl, rfl, fun h => h⟩
  · simp only [hw, if_false]
    cases hr : slice_read env st sw.entry.sha1 with
    | none => exact ⟨rfl, rfl, rfl, fun _ => rfl⟩
    | some buffer =>
      simp only [dog_write_object]
      by_cases hwf : env.write_object_fails sw.entry.oid = true
      · simp only [hwf, if_true]; exact ⟨rfl, rfl, rfl, fun _ => rfl⟩
      · simp only [hwf, if_false]
        by_cases hv : env.is_vdi_obj sw.entry.oid = true
        · simp only [hv, if_true, notify_vdi_add_fst, notify_vdi_add_snd]
          by_cases hn : env.notify_fails (env.oid_to_vid sw.entry.oid) = true
          · simp only [hn, if_true, hneg]
            exact ⟨rfl, rfl, by simp [List.filter_append, is_vdi_create], fun _ => rfl⟩
          · simp only [hn, if_false, hzero, insert_vdi]
            exact ⟨rfl, rfl, by simp [List.filter_append, is_vdi_create],
              fun h => absurd h hw⟩
        · simp only [hv, if_false]
          exact ⟨rfl, rfl, rfl, fun h => absurd h hw⟩

theorem do_load_object_ok (env : FarmEnv) (st : FarmState) (sw : snapshot_work)
    (buffer : List Nat) (hw : st.work_error = false)
    (hr : slice_read env st sw.entry.sha1 = some buffer)
    (hwf : env.write_object_fails sw.entry.oid = false)
    (hn : env.notify_fails (env.oid_to_vid sw.entry.oid) = false) :
    do_load_object env st sw =
      if env.is_vdi_obj sw.entry.oid = true then
        { st with
          objects := fun k =>
            if k = sw.entry.oid then some ⟨buffer, sw.entry.nr_copies, sw.entry.copy_policy⟩
            else st.objects k
          calls := st.calls ++ [FarmCall.notify_vdi_add (env.oid_to_vid sw.entry.oid)
            sw.entry.nr_copies sw.entry.copy_policy true]
          last_vdi_tree := insert_vdi_tree st.last_vdi_tree (env.as_inode buffer) }
      else
        { st with
          objects := fun k =>
            if k = sw.entry.oid then some ⟨buffer, sw.entry.nr_copies, sw.entry.copy_policy⟩
            else st.objects k } := by
  have hzero : ¬ (0 : Int) < 0 := by decide
  unfold do_load_object
  simp only [hw, hr, dog_write_object, hwf, Bool.false_eq_true, if_false, notify_vdi_add_fst,
    notify_vdi_add_snd, hn, hzero, insert_vdi]

theorem load_frame_trans (a b c : FarmState) (h1 : load_frame a b) (h2 : load_frame b c) :
    load_frame a c :=
  ⟨h2.1.trans h1.1, h2.2.1.trans h1.2.1, h2.2.2.1.trans h1.2.2.1, fun h => h2.2.2.2 (h1.2.2.2 h)⟩

theorem foldl_do_load_object_frame (env : FarmEnv) (works : List snapshot_work)
    (st : FarmState) : load_frame st (works.foldl (do_load_object env) st) := by
  induction works generalizing st with
  | nil => exact ⟨rfl, rfl, rfl, fun h => h⟩
  | cons sw rest ih =>
    exact load_frame_trans _ _ _ (do_load_object_frame env st sw) (ih _)

theorem slice_read_frame (env : FarmEnv) (st st1 : FarmState) (h : st1.slices = st.slices)
    (sha : Nat) : slice_read env st1 sha = slice_read env st sha := by
  simp only [slice_read, h]

theorem do_load_object_fails (env : FarmEnv) (st : FarmState) (sw : snapshot_work)
    (h : load_task_fails env st sw.entry = true) :
    (do_load_object env st sw).work_error = true := by
  have hneg : (-1 : Int) < 0 := by decide
  unfold do_load_object
  by_cases hw : st.work_error = true
  · simp only [hw, if_true]
  · have hw2 : st.work_error = false := by simpa using hw
    simp only [hw2, Bool.false_eq_true, if_false]
    cases hr : slice_read env st sw.entry.sha1 with
    | none => rfl
    | some buffer =>
      simp only [dog_write_object]
      by_cases hwf : env.write_object_fails sw.entry.oid = true
      · simp only [hwf, if_true]
      · have hwf2 : env.write_object_fails sw.entry.oid = false := by simpa using hwf
        simp only [load_task_fails, hr, Option.isNone_some, hwf2, Bool.false_or,
          Bool.and_eq_true] at h
        simp only [hwf2, Bool.false_eq_true, if_false, h.1, if_true, notify_vdi_add_fst,
          notify_vdi_add_snd, h.2, hneg]

theorem foldl_do_load_object_fails (env : FarmEnv) (works : List snapshot_work)
    (st : FarmState) (h : ∃ sw ∈ works, load_task_fails env st sw.entry = true) :
    (works.foldl (do_load_object env) st).work_error = true := by
  induction works generalizing st with
  | nil => simp at h
  | cons sw rest ih =>
    obtain ⟨x, hx, hf⟩ := h
    simp only [List.foldl_cons]
    rcases List.mem_cons.mp hx with rfl | hx
    · exact (foldl_do_load_object_frame env rest _).2.2.2 (do_load_object_fails env st x hf)
    · apply ih
      refine ⟨x, hx, ?_⟩
      have hfr := do_load_object_frame env st sw
      simp only [load_task_fails, slice_read_frame env st _ hfr.2.1] at hf ⊢
      exact hf

/-- C7: on every return path of `farm_load_snapshot` the VDI registry is empty afterwards;
and when a load task fails (its `slice_read`, `dog_write_object` or `notify_vdi_add` fails),
whatever the order in which the work queue runs the tasks, `farm_load_snapshot` returns -1
and has issued no `vdi_create`. -/
theorem C7_failed_load_creates_nothing (env : FarmEnv) (st : FarmState) (idx : Nat)
    (tag : String) :
    (farm_load_snapshot env st idx tag).2.last_vdi_tree = [] ∧
    ∀ d es, (∀ l, (env.load_order l).Perm l) → get_trunk_sha1 env st idx tag = some d →
      trunk_entries env st d = some es → (∃ e ∈ es, load_task_fails env st e = true) →
      (farm_load_snapshot env st idx tag).1 = -1 ∧
      (farm_load_snapshot env st idx tag).2.calls.filter is_vdi_create
        = st.calls.filter is_vdi_create := by
  constructor
  · unfold farm_load_snapshot
    cases get_trunk_sha1 env st idx tag with
    | none => exact free_vdi_list_empty _
    | some d =>
      simp only []
      cases trunk_entries env st d with
      | none => exact free_vdi_list_empty _
      | some es =>
        simp only []
        split_ifs <;> exact free_vdi_list_empty _
  · intro d es hperm hd hes ⟨e, he, hf⟩
    have hlatch : ((env.load_order (es.map queue_load_snapshot_work)).foldl
        (do_load_object env) st).work_error = true := by
      apply foldl_do_load_object_fails
      refine ⟨queue_load_snapshot_work e, ?_, hf⟩
      exact (hperm _).mem_iff.mpr (List.mem_map.mpr ⟨e, he, rfl⟩)
    have hfr := foldl_do_load_object_frame env (env.load_order (es.map queue_load_snapshot_work))
      st
    unfold farm_load_snapshot
    simp only [hd, hes, hlatch, if_true]
    exact ⟨trivial, hfr.2.2.1⟩

/-! ### Save then load -/

theorem slice_write_store (env : FarmEnv) (st : FarmState) (buf : List Nat)
    (hinj : Function.Injective env.sha1) (hok : slices_ok env st)
    (hf : env.slice_write_fails buf = false) :
    ∃ st1, slice_write env st buf = some (st1, env.sha1 buf) ∧ save_frame st st1 ∧
      st1.work_error = st.work_error ∧ slices_ok env st1 ∧
      st1.slices (env.sha1 buf) = some buf ∧
      (∀ d b, st.slices d = some b → st1.slices d = some b) := by
  unfold slice_write
  simp only [hf, Bool.false_eq_true, if_false]
  cases hs : st.slices (env.sha1 buf) with
  | some b0 =>
    have : b0 = buf := hinj (hok _ _ hs)
    subst this
    exact ⟨st, rfl, save_frame_refl st, rfl, hok, hs, fun d b h => h⟩
  | none =>
    refine ⟨_, rfl, ⟨rfl, rfl, rfl, rfl, rfl⟩, rfl, ?_, by simp, ?_⟩
    · intro d b h
      simp only at h
      split_ifs at h with hd
      · simp only [Option.some.injEq] at h; subst h; exact hd.symm
      · exact hok d b h
    · intro d b h
      simp only
      split_ifs with hd
      · rw [hd, hs] at h; exact absurd h (by simp)
      · exact h

theorem run_save_works_store (env : FarmEnv) (hinj : Function.Injective env.sha1)
    (works : List snapshot_work) (st : FarmState) (hok : slices_ok env st)
    (hw : st.work_error = false)
    (h : ∀ sw ∈ works, ∃ buf,
      dog_read_object env st sw.entry.oid (env.get_objsize sw.entry.oid) = some buf ∧
      env.slice_write_fails buf = false) :
    slices_ok env (run_save_works env st works).1 ∧
    (∀ d b, st.slices d = some b → (run_save_works env st works).1.slices d = some b) ∧
    ∀ sw ∈ works, (run_save_works env st works).1.slices
      (env.sha1 (saved_bytes env st sw.entry.oid)) = some (saved_bytes env st sw.entry.oid) := by
  induction works generalizing st with
  | nil => exact ⟨hok, fun d b h => h, by simp⟩
  | cons sw rest ih =>
    obtain ⟨buf, hr, hs⟩ := h sw (List.mem_cons_self _ _)
    obtain ⟨st1, hsw, hfr, hwe, hok1, hst, hmono⟩ := slice_write_store env st buf hinj hok hs
    have hd : do_save_object env st sw
        = (st1, { entry := { sw.entry with sha1 := env.sha1 buf } }) := by
      unfold do_save_object
      simp only [hw, hr, hsw, Bool.false_eq_true, if_false]
    have hrest := ih st1 hok1 (hwe.trans hw) (by
      intro x hx
      obtain ⟨b, hb, hsb⟩ := h x (List.mem_cons_of_mem _ hx)
      exact ⟨b, by rw [dog_read_object_frame env st st1 hfr]; exact hb, hsb⟩)
    have hsb : ∀ oid, saved_bytes env st1 oid = saved_bytes env st oid := by
      intro oid; simp only [saved_bytes, dog_read_object_frame env st st1 hfr]
    simp only [run_save_works, hd]
    refine ⟨hrest.1, fun d b hdb => hrest.2.1 d b (hmono d b hdb), ?_⟩
    intro x hx
    rcases List.mem_cons.mp hx with rfl | hx
    · apply hrest.2.1
      have : saved_bytes env st x.entry.oid = buf := by simp [saved_bytes, hr]
      rw [this]; exact hst
    · have := hrest.2.2 x hx
      rw [hsb] at this
      exact this

theorem trunk_file_write_ok (env : FarmEnv) (st : FarmState) (nr : Nat) (es : List trunk_entry)
    (hinj : Function.Injective env.sha1) (hok : slices_ok env st)
    (hf : env.slice_write_fails (env.trunk_enc nr es) = false)
    (htw : env.trunk_write_fails = false) :
    ∃ st2, trunk_file_write env st nr es = (some (env.sha1 (env.trunk_enc nr es)), st2) ∧
      st2.snap_log = st.snap_log ∧ st2.objects = st.objects ∧
      st2.work_error = st.work_error ∧ slices_ok env st2 ∧
      st2.slices (env.sha1 (env.trunk_enc nr es)) = some (env.trunk_enc nr es) ∧
      (∀ d b, st.slices d = some b → st2.slices d = some b) := by
  obtain ⟨st2, hsw, hfr, hwe, hok2, hst, hmono⟩ := slice_write_store env
    { st with calls := st.calls ++ [FarmCall.trunk_file_write nr es] } _ hinj hok hf
  refine ⟨st2, ?_, hfr.1, hfr.2.1, hwe, hok2, hst, hmono⟩
  unfold trunk_file_write
  simp only [htw, Bool.false_eq_true, if_false, hsw]

theorem snap_file_write_ok (env : FarmEnv) (st : FarmState) (idx t : Nat)
    (hinj : Function.Injective env.sha1) (hok : slices_ok env st)
    (hf : env.slice_write_fails (env.snap_enc ⟨idx, t⟩) = false)
    (hsn : env.snap_write_fails = false) :
    ∃ st2, snap_file_write env st idx t = some (st2, env.sha1 (env.snap_enc ⟨idx, t⟩)) ∧
      st2.snap_log = st.snap_log ∧ st2.objects = st.objects ∧
      st2.work_error = st.work_error ∧ slices_ok env st2 ∧
      st2.slices (env.sha1 (env.snap_enc ⟨idx, t⟩)) = some (env.snap_enc ⟨idx, t⟩) ∧
      (∀ d b, st.slices d = some b → st2.slices d = some b) := by
  obtain ⟨st2, hsw, hfr, hwe, hok2, hst, hmono⟩ := slice_write_store env st _ hinj hok hf
  refine ⟨st2, ?_, hfr.1, hfr.2.1, hwe, hok2, hst, hmono⟩
  unfold snap_file_write
  simp only [hsn, Bool.false_eq_true, if_false, hsw]

theorem farm_save_snapshot_returns (env : FarmEnv) (st : FarmState) (tag : String)
    (log : List snap_log) (hlog : snap_log_read st = some log)
    (hlatch : st.work_error = false)
    (htasks : ∀ o ∈ st.object_tree, save_task_fails env st o = false)
    (hsw : ∀ b, env.slice_write_fails b = false) (htw : env.trunk_write_fails = false)
    (hsn : env.snap_write_fails = false) (hlw : env.log_write_fails = false) :
    (farm_save_snapshot env st tag).1 = 0 ∧
    (farm_save_snapshot env st tag).2.snap_log
      = some (log ++ [⟨log.length + 1, tag, saved_snap_sha1 env st (log.length + 1)⟩]) ∧
    (farm_save_snapshot env st tag).2.objects = st.objects := by
  have hl : st.snap_log = some log := hlog
  have htk : ∀ sw ∈ st.object_tree.map
      (fun o => queue_save_snapshot_work o.oid o.nr_copies o.copy_policy), ∃ buf,
      dog_read_object env st sw.entry.oid (env.get_objsize sw.entry.oid) = some buf ∧
      env.slice_write_fails buf = false := by
    intro sw hsw2
    obtain ⟨o, ho, rfl⟩ := List.mem_map.mp hsw2
    simp only [queue_save_snapshot_work]
    cases hr : dog_read_object env st o.oid (env.get_objsize o.oid) with
    | none => have := htasks o ho; simp [save_task_fails, hr] at this
    | some buf => exact ⟨buf, rfl, hsw buf⟩
  have hrun := run_save_works_ok env _ st hlatch htk
  have hfr := (run_save_works_frame env (st.object_tree.map
    (fun o => queue_save_snapshot_work o.oid o.nr_copies o.copy_policy)) st).1
  have hbuf : (run_save_works env st (st.object_tree.map
      (fun o => queue_save_snapshot_work o.oid o.nr_copies o.copy_policy))).2.foldl
      (save_object_done (run_save_works env st (st.object_tree.map
      (fun o => queue_save_snapshot_work o.oid o.nr_copies o.copy_policy))).1) []
      = saved_entries env st := by
    rw [foldl_save_object_done_ok _ hrun.1, hrun.2]
    simp [saved_entries, queue_save_snapshot_work]
  unfold farm_save_snapshot
  simp only [hlog, hrun.1, Bool.false_eq_true, if_false, object_tree_size, hbuf]
  generalize run_save_works env st (st.object_tree.map
    (fun o => queue_save_snapshot_work o.oid o.nr_copies o.copy_policy)) = ran at hrun hfr
  obtain ⟨st2, hsw2, hfr2, hwe2⟩ := slice_write_ok env
    { ran.1 with calls := ran.1.calls ++ [FarmCall.trunk_file_write st.object_tree.length
      (saved_entries env st)] }
    (env.trunk_enc st.object_tree.length (saved_entries env st)) (hsw _)
  have htf : trunk_file_write env ran.1 st.object_tree.length (saved_entries env st)
      = (some (env.sha1 (env.trunk_enc st.object_tree.length (saved_entries env st))), st2) := by
    unfold trunk_file_write
    simp only [htw, Bool.false_eq_true, if_false, hsw2]
  obtain ⟨st3, hsw3, hfr3, hwe3⟩ := slice_write_ok env st2
    (env.snap_enc ⟨log.length + 1,
      env.sha1 (env.trunk_enc st.object_tree.length (saved_entries env st))⟩) (hsw _)
  have hsf : snap_file_write env st2 (log.length + 1)
      (env.sha1 (env.trunk_enc st.object_tree.length (saved_entries env st)))
      = some (st3, env.sha1 (env.snap_enc ⟨log.length + 1,
          env.sha1 (env.trunk_enc st.object_tree.length (saved_entries env st))⟩)) := by
    unfold snap_file_write
    simp only [hsn, Bool.false_eq_true, if_false, hsw3]
  have hl3b : st3.snap_log = some log := by rw [hfr3.1, hfr2.1, hfr.1]; exact hl
  simp only [htf, hsf, snap_log_write, hlw, Bool.false_eq_true, if_false, hl3b]
  refine ⟨trivial, rfl, ?_⟩
  show st3.objects = st.objects
  rw [hfr3.2.1, hfr2.2.1, hfr.2.1]

theorem farm_save_snapshot_success (env : FarmEnv) (st : FarmState) (tag : String)
    (log : List snap_log) (hlog : snap_log_read st = some log)
    (hlatch : st.work_error = false) (hinj : Function.Injective env.sha1)
    (hok : slices_ok env st)
    (htasks : ∀ o ∈ st.object_tree, save_task_fails env st o = false)
    (hsw : ∀ b, env.slice_write_fails b = false) (htw : env.trunk_write_fails = false)
    (hsn : env.snap_write_fails = false) (hlw : env.log_write_fails = false) :
    (farm_save_snapshot env st tag).1 = 0 ∧
    (farm_save_snapshot env st tag).2.snap_log
      = some (log ++ [⟨log.length + 1, tag, saved_snap_sha1 env st (log.length + 1)⟩]) ∧
    (farm_save_snapshot env st tag).2.slices (saved_snap_sha1 env st (log.length + 1))
      = some (env.snap_enc ⟨log.length + 1, saved_trunk_sha1 env st⟩) ∧
    (farm_save_snapshot env st tag).2.slices (saved_trunk_sha1 env st)
      = some (env.trunk_enc st.object_tree.length (saved_entries env st)) ∧
    (∀ o ∈ st.object_tree, (farm_save_snapshot env st tag).2.slices
      (env.sha1 (saved_bytes env st o.oid)) = some (saved_bytes env st o.oid)) ∧
    (farm_save_snapshot env st tag).2.objects = st.objects := by
  have hl : st.snap_log = some log := hlog
  have htk : ∀ sw ∈ st.object_tree.map
      (fun o => queue_save_snapshot_work o.oid o.nr_copies o.copy_policy), ∃ buf,
      dog_read_object env st sw.entry.oid (env.get_objsize sw.entry.oid) = some buf ∧
      env.slice_write_fails buf = false := by
    intro sw hsw2
    obtain ⟨o, ho, rfl⟩ := List.mem_map.mp hsw2
    simp only [queue_save_snapshot_work]
    cases hr : dog_read_object env st o.oid (env.get_objsize o.oid) with
    | none => have := htasks o ho; simp [save_task_fails, hr] at this
    | some buf => exact ⟨buf, rfl, hsw buf⟩
  have hrun := run_save_works_ok env _ st hlatch htk
  have hstore := run_save_works_store env hinj _ st hok hlatch htk
  have hfr := (run_save_works_frame env (st.object_tree.map
    (fun o => queue_save_snapshot_work o.oid o.nr_copies o.copy_policy)) st).1
  have hbuf : (run_save_works env st (st.object_tree.map
      (fun o => queue_save_snapshot_work o.oid o.nr_copies o.copy_policy))).2.foldl
      (save_object_done (run_save_works env st (st.object_tree.map
      (fun o => queue_save_snapshot_work o.oid o.nr_copies o.copy_policy))).1) []
      = saved_entries env st := by
    rw [foldl_save_object_done_ok _ hrun.1, hrun.2]
    simp [saved_entries, queue_save_snapshot_work]
  unfold farm_save_snapshot
  simp only [hlog, hrun.1, Bool.false_eq_true, if_false, object_tree_size, hbuf]
  generalize run_save_works env st (st.object_tree.map
    (fun o => queue_save_snapshot_work o.oid o.nr_copies o.copy_policy)) = ran at hrun hstore hfr
  obtain ⟨st2, htf, hl2, ho2, hw2, hok2, hs2, hm2⟩ := trunk_file_write_ok env ran.1
    st.object_tree.length (saved_entries env st) hinj hstore.1 (hsw _) htw
  obtain ⟨st3, hsf, hl3, ho3, hw3, hok3, hs3, hm3⟩ := snap_file_write_ok env st2
    (log.length + 1) (env.sha1 (env.trunk_enc st.object_tree.length (saved_entries env st)))
    hinj hok2 (hsw _) hsn
  have hl3b : st3.snap_log = some log := by rw [hl3, hl2, hfr.1]; exact hl
  simp only [htf, hsf, snap_log_write, hlw, Bool.false_eq_true, if_false, hl3b]
  refine ⟨trivial, rfl, hs3, hm3 _ _ hs2, ?_, ?_⟩
  · intro o ho
    apply hm3; apply hm2
    exact hstore.2.2 (queue_save_snapshot_work o.oid o.nr_copies o.copy_policy)
      (List.mem_map.mpr ⟨o, ho, rfl⟩)
  · show st3.objects = st.objects
    rw [ho3, ho2, hfr.2.1]

theorem insert_vdi_tree_names (t : List vdi_entry) (x : sd_inode) :
    (∃ e ∈ insert_vdi_tree t x, e.name = x.name) ∧
    (∀ e ∈ t, ∃ e2 ∈ insert_vdi_tree t x, e2.name = e.name) := by
  unfold insert_vdi_tree
  cases hf : find_vdi t x.name with
  | none =>
    have habs : ∀ e ∈ t, e.name ≠ x.name := by
      have := rb_search_none t _ hf
      simpa using this
    have hperm := rb_insert_perm t (entry_of_inode x)
      (by simpa [entry_of_inode, new_vdi] using habs)
    change (∃ e ∈ rb_insert t (entry_of_inode x), e.name = x.name) ∧
      (∀ e ∈ t, ∃ e2 ∈ rb_insert t (entry_of_inode x), e2.name = e.name)
    exact ⟨⟨entry_of_inode x, hperm.mem_iff.mpr (List.mem_cons_self _ _), rfl⟩,
      fun e he => ⟨e, hperm.mem_iff.mpr (List.mem_cons_of_mem _ he), rfl⟩⟩
  | some k =>
    obtain ⟨l1, vdi, l2, ht, hn, hg, hs⟩ := rb_search_some t _ k hf
    have hvn : vdi.name = x.name := hn
    have hvd_mem : vdi ∈ t := by rw [ht]; simp
    simp only [hg]
    split_ifs with hlt
    · rw [hs]
      refine ⟨⟨(⟨vdi.name, x.vdi_size, x.vdi_id, x.snap_id, x.nr_copies, x.copy_policy,
        x.store_policy⟩ : vdi_entry), by simp, hvn⟩, ?_⟩
      intro e he
      rw [ht] at he
      rcases List.mem_append.mp he with he | he
      · exact ⟨e, by simp [he], rfl⟩
      · rcases List.mem_cons.mp he with rfl | he
        · exact ⟨_, List.mem_append_right _ (List.mem_cons_self _ _), rfl⟩
        · exact ⟨e, by simp [he], rfl⟩
    · exact ⟨⟨vdi, hvd_mem, hvn⟩, fun e he => ⟨e, he, rfl⟩⟩

theorem foldl_do_load_object_ok (env : FarmEnv) (hrf : ∀ s, env.slice_read_fails s = false)
    (hwf : ∀ o, env.write_object_fails o = false) (hnf : ∀ v, env.notify_fails v = false)
    (works : List snapshot_work) (st0 st : FarmState) (hsl0 : st.slices = st0.slices)
    (hw : st.work_error = false)
    (hsl : ∀ sw ∈ works, ∃ buf, st0.slices sw.entry.sha1 = some buf)
    (hcons : ∀ a ∈ works, ∀ b ∈ works, a.entry.oid = b.entry.oid →
      loaded_object st0 a.entry = loaded_object st0 b.entry) :
    (works.foldl (do_load_object env) st).work_error = false ∧
    (∀ sw ∈ works, (works.foldl (do_load_object env) st).objects sw.entry.oid
      = some (loaded_object st0 sw.entry)) ∧
    (∀ oid, (∀ sw ∈ works, sw.entry.oid ≠ oid) →
      (works.foldl (do_load_object env) st).objects oid = st.objects oid) ∧
    (∀ sw ∈ works, env.is_vdi_obj sw.entry.oid = true →
      ∃ node ∈ (works.foldl (do_load_object env) st).last_vdi_tree,
        node.name = (env.as_inode ((st0.slices sw.entry.sha1).getD [])).name) ∧
    (∀ node ∈ st.last_vdi_tree,
      ∃ node2 ∈ (works.foldl (do_load_object env) st).last_vdi_tree, node2.name = node.name) ∧
    (∃ ns, (works.foldl (do_load_object env) st).calls = st.calls ++ ns) := by
  induction works generalizing st with
  | nil =>
    exact ⟨hw, by simp, fun _ _ => rfl, by simp, fun n hn => ⟨n, hn, rfl⟩, ⟨[], by simp⟩⟩
  | cons sw rest ih =>
    obtain ⟨buf, hb⟩ := hsl sw (List.mem_cons_self _ _)
    have hr : slice_read env st sw.entry.sha1 = some buf := by
      simp only [slice_read, hrf, Bool.false_eq_true, if_false, hsl0, hb]
    have hstep := do_load_object_ok env st sw buf hw hr (hwf _) (hnf _)
    have hlo : loaded_object st0 sw.entry = ⟨buf, sw.entry.nr_copies, sw.entry.copy_policy⟩ := by
      simp [loaded_object, hb]
    have hw1 : (do_load_object env st sw).work_error = false := by
      rw [hstep]; split_ifs <;> exact hw
    have hs1 : (do_load_object env st sw).slices = st0.slices := by
      rw [hstep]; split_ifs <;> exact hsl0
    have hobj1 : (do_load_object env st sw).objects = fun k =>
        if k = sw.entry.oid then some (loaded_object st0 sw.entry) else st.objects k := by
      rw [hstep, hlo]; split_ifs <;> rfl
    have hcalls1 : ∃ ns, (do_load_object env st sw).calls = st.calls ++ ns := by
      rw [hstep]; split_ifs
      · exact ⟨_, rfl⟩
      · exact ⟨[], by simp⟩
    have htree1 : (env.is_vdi_obj sw.entry.oid = true →
          ∃ node ∈ (do_load_object env st sw).last_vdi_tree,
            node.name = (env.as_inode buf).name) ∧
        (∀ node ∈ st.last_vdi_tree,
          ∃ node2 ∈ (do_load_object env st sw).last_vdi_tree, node2.name = node.name) := by
      rw [hstep]
      split_ifs with hv
      · exact ⟨fun _ => (insert_vdi_tree_names _ _).1, (insert_vdi_tree_names _ _).2⟩
      · exact ⟨fun h => absurd h hv, fun n hn => ⟨n, hn, rfl⟩⟩
    obtain ⟨i1, i2, i3, i4, i5, i6⟩ := ih (do_load_object env st sw) hs1 hw1
      (fun x hx => hsl x (List.mem_cons_of_mem _ hx))
      (fun a ha b hb2 => hcons a (List.mem_cons_of_mem _ ha) b (List.mem_cons_of_mem _ hb2))
    simp only [List.foldl_cons]
    refine ⟨i1, ?_, ?_, ?_, ?_, ?_⟩
    · intro x hx
      rcases List.mem_cons.mp hx with rfl | hx
      · by_cases hex : ∃ y ∈ rest, y.entry.oid = x.entry.oid
        · obtain ⟨y, hy, hyo⟩ := hex
          rw [← hyo, i2 y hy]
          exact congrArg some (hcons y (List.mem_cons_of_mem _ hy) x (List.mem_cons_self _ _) hyo)
        · rw [i3 x.entry.oid (fun y hy hyo => hex ⟨y, hy, hyo⟩), hobj1]
          simp
      · exact i2 x hx
    · intro oid hoid
      rw [i3 oid (fun y hy => hoid y (List.mem_cons_of_mem _ hy)), hobj1]
      have := hoid sw (List.mem_cons_self _ _)
      simp [Ne.symm this]
    · intro x hx hv
      rcases List.mem_cons.mp hx with rfl | hx
      · obtain ⟨n1, hn1, hnn⟩ := htree1.1 hv
        obtain ⟨n2, hn2, hnn2⟩ := i5 n1 hn1
        exact ⟨n2, hn2, by rw [hnn2, hnn, hb]; rfl⟩
      · exact i4 x hx hv
    · intro n hn
      obtain ⟨n1, hn1, hnn⟩ := htree1.2 n hn
      obtain ⟨n2, hn2, hnn2⟩ := i5 n1 hn1
      exact ⟨n2, hn2, hnn2.trans hnn⟩
    · obtain ⟨ns1, h1⟩ := hcalls1
      obtain ⟨ns2, h2⟩ := i6
      exact ⟨ns1 ++ ns2, by rw [h2, h1, List.append_assoc]⟩

theorem farm_load_snapshot_success (env : FarmEnv) (st : FarmState) (idx : Nat) (tag : String)
    (d : Nat) (es : List trunk_entry)
    (hrf : ∀ s, env.slice_read_fails s = false) (hwf : ∀ o, env.write_object_fails o = false)
    (hnf : ∀ v, env.notify_fails v = false) (hcf : ∀ n, env.vdi_create_fails n = false)
    (hperm : ∀ l, (env.load_order l).Perm l) (hw : st.work_error = false)
    (hd : get_trunk_sha1 env st idx tag = some d) (hes : trunk_entries env st d = some es)
    (hsl : ∀ e ∈ es, ∃ buf, st.slices e.sha1 = some buf)
    (hcons : ∀ a ∈ es, ∀ b ∈ es, a.oid = b.oid → loaded_object st a = loaded_object st b) :
    (farm_load_snapshot env st idx tag).1 = 0 ∧
    (∀ e ∈ es, (farm_load_snapshot env st idx tag).2.objects e.oid
      = some (loaded_object st e)) ∧
    ∃ news, (farm_load_snapshot env st idx tag).2.calls = st.calls ++ news ∧
      ∀ e ∈ es, env.is_vdi_obj e.oid = true → ∃ sz bv nc cp sp,
        FarmCall.vdi_create (env.as_inode ((st.slices e.sha1).getD [])).name sz bv false nc cp sp
          ∈ news := by
  have hmem : ∀ sw, sw ∈ env.load_order (es.map queue_load_snapshot_work) ↔
      ∃ e ∈ es, queue_load_snapshot_work e = sw := by
    intro sw; rw [(hperm _).mem_iff, List.mem_map]
  obtain ⟨f1, f2, f3, f4, f5, ns, f6⟩ := foldl_do_load_object_ok env hrf hwf hnf
    (env.load_order (es.map queue_load_snapshot_work)) st st rfl hw
    (by
      intro sw hsw
      obtain ⟨e, he, rfl⟩ := (hmem sw).mp hsw
      exact hsl e he)
    (by
      intro a ha b hb hab
      obtain ⟨ea, hea, rfl⟩ := (hmem a).mp ha
      obtain ⟨eb, heb, rfl⟩ := (hmem b).mp hb
      exact hcons ea hea eb heb hab)
  have hzero : ¬ (0 : Int) < 0 := by decide
  unfold farm_load_snapshot
  simp only [hd, hes, f1, Bool.false_eq_true, if_false, create_active_vdis,
    create_active_vdis_loop_ok env hcf, hzero]
  refine ⟨trivial, ?_, ?_⟩
  · intro e he
    exact f2 (queue_load_snapshot_work e) ((hmem _).mpr ⟨e, he, rfl⟩)
  · refine ⟨ns ++ ((env.load_order (es.map queue_load_snapshot_work)).foldl
      (do_load_object env) st).last_vdi_tree.map (fun e => FarmCall.vdi_create e.name
        e.vdi_size e.vdi_id false e.nr_copies e.copy_policy e.store_policy), ?_, ?_⟩
    · show _ ++ _ = _
      rw [f6, List.append_assoc]
    · intro e he hv
      obtain ⟨node, hnode, hname⟩ := f4 (queue_load_snapshot_work e)
        ((hmem _).mpr ⟨e, he, rfl⟩) hv
      refine ⟨node.vdi_size, node.vdi_id, node.nr_copies, node.copy_policy,
        node.store_policy, ?_⟩
      apply List.mem_append_right
      rw [List.mem_map]
      exact ⟨node, hnode, by rw [hname]; rfl⟩

theorem save_round_trips_of_injective (env : FarmEnv) (st : FarmState) (tag : String)
    (log : List snap_log) (hlog : snap_log_read st = some log)
    (hlatch : st.work_error = false) (hinj : Function.Injective env.sha1)
    (hok : slices_ok env st)
    (htasks : ∀ o ∈ st.object_tree, save_task_fails env st o = false)
    (hnf : no_farm_faults env) :
    save_round_trips env st tag (log.length + 1) := by
  obtain ⟨hrd, hwr, hsw, hsr, htw, htr, hsn, hno, hcf, hlw⟩ := hnf
  obtain ⟨-, -, s3, s4, s5, -⟩ := farm_save_snapshot_success env st tag log hlog hlatch hinj
    hok htasks hsw htw hsn hlw
  refine ⟨?_, ?_, ?_⟩
  · intro o ho
    simp only [slice_read, hsr, Bool.false_eq_true, if_false]
    exact s5 o ho
  · simp only [slice_read, hsr, Bool.false_eq_true, if_false]
    exact s4
  · simp only [slice_read, hsr, Bool.false_eq_true, if_false]
    exact s3

/-- C6 (amended): assume the slice store round-trips for this save (`slice_read` of the
digest `slice_write` returned for each slice the save writes gives back the bytes written;
the codecs decode what they encode), no I/O fails, and no entry
already in the log carries the tag or the index the save assigns.  Then after
`farm_save_snapshot(tag)` on S, any change of the cluster objects, and
`farm_load_snapshot(old length + 1, tag)`, whatever the order of the load tasks, both calls
return 0, every object of S has again the content, nr_copies and copy_policy it had in S, and
a `vdi_create` with snapshot = false is issued for the name of every captured inode. -/
theorem C6_save_then_load_restores (env : FarmEnv) (st st_mod : FarmState) (tag : String)
    (log : List snap_log) (hlog : snap_log_read st = some log)
    (hfresh : ∀ e ∈ log, e.idx ≠ log.length + 1 ∧ e.tag ≠ tag)
    (hnf : no_farm_faults env) (hperm : ∀ l, (env.load_order l).Perm l)
    (hrt : save_round_trips env st tag (log.length + 1))
    (hsnap : ∀ f, env.snap_dec (env.snap_enc f) = f)
    (htrunk : ∀ es, env.trunk_dec (env.trunk_enc es.length es) = es)
    (hlatch : st.work_error = false)
    (hS : ∀ o ∈ st.object_tree, ∃ obj, st.objects o.oid = some obj ∧
      obj.data.length ≤ env.get_objsize o.oid ∧ obj.nr_copies = o.nr_copies ∧
      obj.copy_policy = o.copy_policy ∧ o.nr_copies < 256 ∧ o.copy_policy < 256)
    (hmod : st_mod.snap_log = (farm_save_snapshot env st tag).2.snap_log ∧
      st_mod.slices = (farm_save_snapshot env st tag).2.slices ∧ st_mod.work_error = false) :
    (farm_save_snapshot env st tag).1 = 0 ∧
    (farm_load_snapshot env st_mod (log.length + 1) tag).1 = 0 ∧
    (∀ o ∈ st.object_tree,
      (farm_load_snapshot env st_mod (log.length + 1) tag).2.objects o.oid
        = st.objects o.oid) ∧
    ∃ news, (farm_load_snapshot env st_mod (log.length + 1) tag).2.calls
        = st_mod.calls ++ news ∧
      ∀ o ∈ st.object_tree, env.is_vdi_obj o.oid = true → ∀ obj, st.objects o.oid = some obj →
        ∃ sz bv nc cp sp,
          FarmCall.vdi_create (env.as_inode obj.data).name sz bv false nc cp sp ∈ news := by
  obtain ⟨hrd, hwr, hsw, hsr, htw, htr, hsn, hno, hcf, hlw⟩ := hnf
  -- what the save task reads of each object
  have hbytes : ∀ o ∈ st.object_tree, ∀ obj, st.objects o.oid = some obj →
      saved_bytes env st o.oid = obj.data := by
    intro o ho obj hobj
    obtain ⟨obj2, h2, hlen, _⟩ := hS o ho
    rw [hobj] at h2
    simp only [Option.some.injEq] at h2
    subst h2
    simp [saved_bytes, dog_read_object, hrd, hobj, List.take_of_length_le hlen]
  have htasks : ∀ o ∈ st.object_tree, save_task_fails env st o = false := by
    intro o ho
    obtain ⟨obj, h1, _⟩ := hS o ho
    simp [save_task_fails, dog_read_object, hrd, h1, hsw]
  obtain ⟨s1, s2, s6⟩ := farm_save_snapshot_returns env st tag log hlog hlatch htasks hsw htw
    hsn hlw
  obtain ⟨s5, s4, s3⟩ := hrt
  simp only [slice_read, hsr, Bool.false_eq_true, if_false] at s5 s4 s3
  obtain ⟨m1, m2, m3⟩ := hmod
  -- resolution of (idx, tag) in the log after the save
  have hres : get_trunk_sha1 env st_mod (log.length + 1) tag
      = some (saved_trunk_sha1 env st) := by
    simp only [get_trunk_sha1, snap_log_read, m1, s2]
    rw [get_trunk_sha1_loop_first env st_mod (log.length + 1) tag log _ [] hfresh (Or.inl rfl)]
    simp [snap_file_read, slice_read, hsr, m2, s3, hsnap]
  have hlen : (saved_entries env st).length = st.object_tree.length := by
    simp [saved_entries]
  have hes : trunk_entries env st_mod (saved_trunk_sha1 env st)
      = some (saved_entries env st) := by
    simp only [trunk_entries, htr, Bool.false_eq_true, if_false, slice_read, hsr, m2, s4,
      Option.map_some']
    rw [← hlen, htrunk]
  have hsl : ∀ e ∈ saved_entries env st, ∃ buf, st_mod.slices e.sha1 = some buf := by
    intro e he
    obtain ⟨o, ho, rfl⟩ := List.mem_map.mp he
    exact ⟨_, by rw [m2]; exact s5 o ho⟩
  have hentry : ∀ o ∈ st.object_tree, ∀ obj, st.objects o.oid = some obj →
      loaded_object st_mod ⟨o.oid, o.nr_copies % 256, o.copy_policy % 256,
        env.sha1 (saved_bytes env st o.oid)⟩ = obj := by
    intro o ho obj hobj
    obtain ⟨obj2, h2, _, hnc, hcp, hn8, hc8⟩ := hS o ho
    rw [hobj] at h2
    simp only [Option.some.injEq] at h2
    subst h2
    have hb := hbytes o ho obj hobj
    have h5 := s5 o ho
    rw [hb] at h5
    rw [← hnc] at hn8
    rw [← hcp] at hc8
    simp only [loaded_object, m2, hb, h5, Option.getD_some, ← hnc, ← hcp,
      Nat.mod_eq_of_lt hn8, Nat.mod_eq_of_lt hc8]
  have hcons : ∀ a ∈ saved_entries env st, ∀ b ∈ saved_entries env st, a.oid = b.oid →
      loaded_object st_mod a = loaded_object st_mod b := by
    intro a ha b hb hab
    obtain ⟨oa, hoa, rfl⟩ := List.mem_map.mp ha
    obtain ⟨ob, hob, rfl⟩ := List.mem_map.mp hb
    simp only at hab
    obtain ⟨obj, h1, _⟩ := hS oa hoa
    rw [hentry oa hoa obj h1, hentry ob hob obj (by rw [← hab]; exact h1)]
  obtain ⟨l1, l2, news, l3, l4⟩ := farm_load_snapshot_success env st_mod (log.length + 1) tag
    _ _ hsr hwr hno hcf hperm m3 hres hes hsl hcons
  refine ⟨s1, l1, ?_, news, l3, ?_⟩
  · intro o ho
    obtain ⟨obj, h1, _⟩ := hS o ho
    have := l2 _ (List.mem_map.mpr ⟨o, ho, rfl⟩)
    simp only at this
    rw [this, hentry o ho obj h1, h1]
  · intro o ho hv obj hobj
    have := l4 _ (List.mem_map.mpr ⟨o, ho, rfl⟩) hv
    have hb := hbytes o ho obj hobj
    have h5 := s5 o ho
    rw [hb] at h5
    simp only [m2, hb, h5, Option.getD_some] at this
    exact this

theorem trunk_codec4 (es : List trunk_entry) : trunk_dec4 (trunk_enc4 es) = es := by
  induction es with
  | nil => rfl
  | cons e rest ih => simp [trunk_enc4, trunk_dec4, ih]

theorem farm_env0_no_faults : no_farm_faults farm_env0 :=
  ⟨fun _ => rfl, fun _ => rfl, fun _ => rfl, fun _ => rfl, rfl, rfl, rfl, fun _ => rfl,
    fun _ => rfl, rfl⟩

theorem farm_st2_objects (o : object_tree_entry) (ho : o ∈ farm_st2.object_tree) :
    ∃ obj, farm_st2.objects o.oid = some obj ∧ obj.data.length ≤ 4 ∧
      obj.nr_copies = o.nr_copies ∧ obj.copy_policy = o.copy_policy ∧ o.nr_copies < 256 ∧
      o.copy_policy < 256 := by
  simp only [farm_st2, farm_st0, List.mem_cons, List.mem_singleton, List.not_mem_nil,
    or_false] at ho
  rcases ho with rfl | rfl
  · exact ⟨⟨[5, 6, 7, 8], 2, 0⟩, rfl, by decide, rfl, rfl, by decide, by decide⟩
  · exact ⟨⟨[1, 30, 13, 3], 2, 0⟩, rfl, by decide, rfl, rfl, by decide, by decide⟩

theorem farm_env_160_round_trips : save_round_trips farm_env_160 farm_st2 "v0" 1 :=
  ⟨by decide, by decide, by decide⟩

theorem farm_env_160_not_injective : ¬ Function.Injective farm_env_160.sha1 := by
  intro h
  obtain ⟨l, hl⟩ : ∃ l : List Nat, Encodable.encode l = 2 ^ 160 :=
    ⟨_, Denumerable.encode_ofNat _⟩
  have h1 : farm_env_160.sha1 l = farm_env_160.sha1 [] := by
    show Encodable.encode l % 2 ^ 160 = Encodable.encode ([] : List Nat) % 2 ^ 160
    rw [hl, Encodable.encode_list_nil, Nat.mod_self, Nat.zero_mod]
  have h2 := h h1
  rw [h2, Encodable.encode_list_nil] at hl
  exact absurd hl (Nat.ne_of_lt (Nat.pow_pos (by decide)))

theorem C6_save_then_load_restores_witness :
    save_round_trips farm_env0 farm_st2 "v0" 1 ∧
    save_round_trips farm_env_160 farm_st2 "v0" 1 ∧
    ((farm_save_snapshot farm_env0 farm_st2 "v0").1 = 0 ∧
    (farm_load_snapshot farm_env0 farm_st5 1 "v0").1 = 0 ∧
    (∀ o ∈ farm_st2.object_tree,
      (farm_load_snapshot farm_env0 farm_st5 1 "v0").2.objects o.oid = farm_st2.objects o.oid) ∧
    ∃ news, (farm_load_snapshot farm_env0 farm_st5 1 "v0").2.calls = farm_st5.calls ++ news ∧
      ∀ o ∈ farm_st2.object_tree, farm_env0.is_vdi_obj o.oid = true →
        ∀ obj, farm_st2.objects o.oid = some obj → ∃ sz bv nc cp sp,
          FarmCall.vdi_create (farm_env0.as_inode obj.data).name sz bv false nc cp sp ∈ news) ∧
    ((farm_load_snapshot farm_env_160 farm_st7 1 "v0").1 = 0 ∧
    ∀ o ∈ farm_st2.object_tree,
      (farm_load_snapshot farm_env_160 farm_st7 1 "v0").2.objects o.oid
        = farm_st2.objects o.oid) :=
  ⟨save_round_trips_of_injective farm_env0 farm_st2 "v0" [] rfl rfl
      Encodable.encode_injective (fun d b h => by simp [farm_st2, farm_st0] at h) (by decide)
      farm_env0_no_faults,
    farm_env_160_round_trips,
    C6_save_then_load_restores farm_env0 farm_st2 farm_st5 "v0" [] rfl (by simp)
      farm_env0_no_faults (fun l => List.reverse_perm l)
      (save_round_trips_of_injective farm_env0 farm_st2 "v0" [] rfl rfl
        Encodable.encode_injective (fun d b h => by simp [farm_st2, farm_st0] at h) (by decide)
        farm_env0_no_faults)
      (fun f => rfl) (fun es => trunk_codec4 es) rfl farm_st2_objects ⟨rfl, rfl, rfl⟩,
    ⟨(C6_save_then_load_restores farm_env_160 farm_st2 farm_st7 "v0" [] rfl (by simp)
        farm_env0_no_faults (fun l => List.reverse_perm l) farm_env_160_round_trips
        (fun f => rfl) (fun es => trunk_codec4 es) rfl farm_st2_objects ⟨rfl, rfl, rfl⟩).2.1,
      (C6_save_then_load_restores farm_env_160 farm_st2 farm_st7 "v0" [] rfl (by simp)
        farm_env0_no_faults (fun l => List.reverse_perm l) farm_env_160_round_trips
        (fun f => rfl) (fun es => trunk_codec4 es) rfl farm_st2_objects ⟨rfl, rfl, rfl⟩).2.2.1⟩⟩

/-- C6 as stated fails when the tag was used before: snapshot "v0" is saved with object 1
holding 5,6,7,8; the object is rewritten to 9,9,9,9 and saved again under the tag "v0",
which gets idx 2; `farm_load_snapshot(2, "v0")` resolves to the first entry, by tag, and
puts 5,6,7,8 back. -/
theorem C6_counterexample_tag_reused :
    farm_st6.objects 1 = some ⟨[9, 9, 9, 9], 2, 0⟩ ∧
    (farm_save_snapshot farm_env0 farm_st6 "v0").1 = 0 ∧
    (farm_load_snapshot farm_env0 (farm_save_snapshot farm_env0 farm_st6 "v0").2 2 "v0").1 = 0 ∧
    (farm_load_snapshot farm_env0 (farm_save_snapshot farm_env0 farm_st6 "v0").2 2 "v0").2.objects
      1 = some ⟨[5, 6, 7, 8], 2, 0⟩ := by
  decide

theorem C7_failed_load_creates_nothing_witness :
    (∃ e ∈ saved_entries farm_env0 farm_st2, load_task_fails farm_env_nf farm_st4 e = true) ∧
    (farm_load_snapshot farm_env_nf farm_st4 1 "v0").1 = -1 ∧
    (farm_load_snapshot farm_env_nf farm_st4 1 "v0").2.calls.filter is_vdi_create = [] ∧
    (farm_load_snapshot farm_env_nf farm_st4 1 "v0").2.last_vdi_tree = [] :=
  ⟨by decide,
    ((C7_failed_load_creates_nothing farm_env_nf farm_st4 1 "v0").2
      (saved_trunk_sha1 farm_env0 farm_st2) (saved_entries farm_env0 farm_st2)
      (fun l => List.reverse_perm l) (by decide) (by decide) (by decide)).1,
    ((C7_failed_load_creates_nothing farm_env_nf farm_st4 1 "v0").2
      (saved_trunk_sha1 farm_env0 farm_st2) (saved_entries farm_env0 farm_st2)
      (fun l => List.reverse_perm l) (by decide) (by decide) (by decide)).2.trans (by decide),
    (C7_failed_load_creates_nothing farm_env_nf farm_st4 1 "v0").1⟩

/-! ## Part IV. Properties of `kv.c` -/

theorem kv_create_hyper_volume_new (env : KvEnv) (st : Sheep) (name : String)
    (h : st.vdis name = none) :
    (kv_create_hyper_volume env st name).1 = SD_RES_SUCCESS ∧
    (kv_create_hyper_volume env st name).2.2.data = st.data ∧
    (∀ v, st.inodes v ≠ none → (kv_create_hyper_volume env st name).2.2.inodes v ≠ none) := by
  have heq : kv_create_hyper_volume env st name = (SD_RES_SUCCESS, st.next_vid,
      { st with
        vdis := fun n => if n = name then some st.next_vid else st.vdis n
        inodes := fun v =>
          if v = st.next_vid then
            some ⟨name, env.SD_MAX_VDI_SIZE, st.next_vid, 0, env.nr_copies, env.copy_policy, 1,
              fun _ => 0⟩
          else st.inodes v
        next_vid := st.next_vid + 1 }) := by
    unfold kv_create_hyper_volume exec_local_req_new_vdi
    simp only [h]
  rw [heq]
  refine ⟨rfl, rfl, ?_⟩
  intro v hv
  show (if v = st.next_vid then _ else st.inodes v) ≠ none
  split_ifs
  · simp
  · exact hv

theorem add_bucket_loop_free (env : KvEnv) (inode : sd_inode) (bucket : String) (n i : Nat)
    (buf : Nat → bucket_inode) (st : Sheep)
    (hnew : st.vdis (snprintf_vdi_name env inode.name bucket) = none)
    (hfree : ∃ s, i ≤ s ∧ s < i + n ∧ (buf s).onode_vid = 0) :
    ∃ p buf1, add_bucket_loop env inode bucket n i buf st = add_loop_result.finished p buf1
        (kv_create_hyper_volume env st (snprintf_vdi_name env inode.name bucket)).2.2 ∧
      i ≤ p ∧ p < i + n := by
  induction n generalizing i with
  | zero => obtain ⟨s, h1, h2, _⟩ := hfree; omega
  | succ n ih =>
    by_cases hi : (buf i).onode_vid = 0
    · have hc := (kv_create_hyper_volume_new env st _ hnew).1
      refine ⟨i, (fun k => if k = i then ⟨strncpy bucket env.SD_MAX_BUCKET_NAME, 0, 0,
        (kv_create_hyper_volume env st (snprintf_vdi_name env inode.name bucket)).2.1⟩
        else buf k), ?_, le_refl _, by omega⟩
      simp only [add_bucket_loop, hi, ne_eq, not_true_eq_false, if_false, hc]
    · obtain ⟨s, h1, h2, h3⟩ := hfree
      have hs : s ≠ i := fun h => hi (h ▸ h3)
      obtain ⟨p, buf1, hp, hp1, hp2⟩ := ih (i + 1) ⟨s, by omega, by omega, h3⟩
      refine ⟨p, buf1, ?_, by omega, by omega⟩
      simp only [add_bucket_loop, hi, ne_eq, not_false_eq_true, if_true, hp]

theorem add_bucket_places (env : KvEnv) (st : Sheep) (inode : sd_inode) (idx : Nat)
    (bucket : String) (hB : 0 < BUCKETS_PER_SD_OBJ env)
    (hino : st.inodes inode.vdi_id ≠ none)
    (hnew : st.vdis (snprintf_vdi_name env inode.name bucket) = none)
    (hfree : inode.data_vdi_id (idx / BUCKETS_PER_SD_OBJ env) = 0 ∨
      ∃ obj, st.data inode.vdi_id (idx / BUCKETS_PER_SD_OBJ env) = some obj ∧
        ∃ s, idx % BUCKETS_PER_SD_OBJ env ≤ s ∧ s < BUCKETS_PER_SD_OBJ env ∧
          (obj s).onode_vid = 0) :
    ∃ p : Nat, (add_bucket env st inode idx bucket).1 = (p : Int) ∧
      p < BUCKETS_PER_SD_OBJ env := by
  have hoff : idx % BUCKETS_PER_SD_OBJ env < BUCKETS_PER_SD_OBJ env := Nat.mod_lt _ hB
  have hsum : idx % BUCKETS_PER_SD_OBJ env
      + (BUCKETS_PER_SD_OBJ env - idx % BUCKETS_PER_SD_OBJ env) = BUCKETS_PER_SD_OBJ env := by
    omega
  obtain ⟨hc1, hc2, hc3⟩ := kv_create_hyper_volume_new env st _ hnew
  by_cases hext : inode.data_vdi_id (idx / BUCKETS_PER_SD_OBJ env) = 0
  · -- the data object is created
    obtain ⟨p, buf1, hloop, hp1, hp2⟩ := add_bucket_loop_free env inode bucket
      (BUCKETS_PER_SD_OBJ env - idx % BUCKETS_PER_SD_OBJ env) (idx % BUCKETS_PER_SD_OBJ env)
      (fun _ => bucket_inode_zero) st hnew ⟨idx % BUCKETS_PER_SD_OBJ env, le_refl _, by omega, rfl⟩
    have hp : ¬ p ≥ BUCKETS_PER_SD_OBJ env := by omega
    refine ⟨p, ?_, by omega⟩
    unfold add_bucket
    simp only [INODE_GET_VID, hext, ne_eq, not_true_eq_false, if_false, hloop, hp,
      decide_True, if_true, sd_write_object, INODE_SET_VID, sd_inode_write_vid]
    have := hc3 inode.vdi_id hino
    cases hst : (kv_create_hyper_volume env st
        (snprintf_vdi_name env inode.name bucket)).2.2.inodes inode.vdi_id with
    | none => exact absurd hst this
    | some stored => simp only [not_true_eq_false, if_false]
  · -- the data object exists
    rcases hfree with h0 | ⟨obj, hobj, s, hs1, hs2, hs3⟩
    · exact absurd h0 hext
    · obtain ⟨p, buf1, hloop, hp1, hp2⟩ := add_bucket_loop_free env inode bucket
        (BUCKETS_PER_SD_OBJ env - idx % BUCKETS_PER_SD_OBJ env) (idx % BUCKETS_PER_SD_OBJ env)
        (fun i => if i < BUCKETS_PER_SD_OBJ env then obj i else bucket_inode_zero) st hnew
        ⟨s, hs1, by omega, by simp only [hs2, if_true]; exact hs3⟩
      have hp : ¬ p ≥ BUCKETS_PER_SD_OBJ env := by omega
      refine ⟨p, ?_, by omega⟩
      unfold add_bucket
      simp only [INODE_GET_VID, hext, ne_eq, not_false_eq_true, if_true, sd_read_object, hobj,
        not_true_eq_false, if_false, hloop, hp, decide_False, Bool.false_eq_true,
        sd_write_object, hc2]

theorem kv_env0_geometry : BUCKETS_PER_SD_OBJ kv_env0 = 2 ∧ MAX_BUCKETS kv_env0 = 8 := by
  decide

/-- C9 at a failing input: "a" sits in slot 0 and "b" in slot 1 of the same data object;
`kv_delete_bucket("acct", "b")` returns `SD_RES_SUCCESS` and deletes the VDI "acct/b", but
the stored slot 1 keeps onode_vid 6 (the write-back puts the buffer's first record at record
`BUCKETS_PER_SD_OBJ`, the value of `i` after the loop) and `kv_list_buckets` still emits
"b". -/
theorem C9_delete_leaves_stored_slot_live :
    (delete_outcome (kv_delete_bucket kv_env0 kv_st_two "acct" "b")).map
      (fun r => (r.ret, r.probes)) = some (SD_RES_SUCCESS, [1]) ∧
    (delete_outcome (kv_delete_bucket kv_env0 kv_st_two "acct" "b")).map
      (fun r => r.st.vdis "acct/b") = some none ∧
    (delete_outcome (kv_delete_bucket kv_env0 kv_st_two "acct" "b")).map
      (fun r => (r.st.data 1 0).map (fun o => ((o 0).onode_vid, (o 1).onode_vid)))
      = some (some (5, 6)) ∧
    (delete_outcome (kv_delete_bucket kv_env0 kv_st_two "acct" "b")).map
      (fun r => (r.st.data 1 0).map (fun o => (o 2).bucket_name)) = some (some "a") ∧
    (delete_outcome (kv_delete_bucket kv_env0 kv_st_two "acct" "b")).map
      (fun r => kv_list_buckets kv_env0 r.st "acct") = some (SD_RES_SUCCESS, ["a", "b"]) := by
  decide

/-- C10 at a failing input: the data object holds the single live bucket "a" in slot 0;
`kv_delete_bucket("acct", "a")` deletes the VDI "acct/a" but takes position 0 for "not
found", probes on and returns -1: the data object is still stored and the extent is still
set.  With the single bucket in slot 1 the same call discards the object and clears the
extent. -/
theorem C10_last_bucket_in_slot_zero_not_discarded :
    (delete_outcome (kv_delete_bucket kv_env0 kv_st_one_a "acct" "a")).map
      (fun r => (r.ret, r.probes)) = some (-1, [0, 3]) ∧
    (delete_outcome (kv_delete_bucket kv_env0 kv_st_one_a "acct" "a")).map
      (fun r => (r.st.vdis "acct/a", (r.st.data 1 0).isSome)) = some (none, true) ∧
    (delete_outcome (kv_delete_bucket kv_env0 kv_st_one_a "acct" "a")).map
      (fun r => (r.st.inodes 1).map (fun inode => INODE_GET_VID inode 0)) = some (some 1) ∧
    (delete_outcome (kv_delete_bucket kv_env0 kv_st_one_b "acct" "b")).map
      (fun r => (r.ret, r.probes)) = some (SD_RES_SUCCESS, [1]) ∧
    (delete_outcome (kv_delete_bucket kv_env0 kv_st_one_b "acct" "b")).map
      (fun r => (r.st.vdis "acct/b", (r.st.data 1 0).isSome)) = some (none, false) ∧
    (delete_outcome (kv_delete_bucket kv_env0 kv_st_one_b "acct" "b")).map
      (fun r => (r.st.inodes 1).map (fun inode => INODE_GET_VID inode 0)) = some (some 0) := by
  decide

theorem kv_delete_vdi_data (st : Sheep) (name : String) :
    (kv_delete_vdi st name).2.data = st.data := by
  unfold kv_delete_vdi lookup_vdi vdi_lookup exec_local_req_del_vdi
  cases st.vdis name <;> simp

theorem delete_bucket_loop_data (env : KvEnv) (inode : sd_inode) (bucket : String)
    (offset n i : Nat) (buf : Nat → bucket_inode) (e f : Nat) (st : Sheep) :
    match delete_bucket_loop env inode bucket offset n i buf e f st with
    | delete_loop_result.panicked => True
    | delete_loop_result.failed st1 => st1.data = st.data
    | delete_loop_result.finished i1 _ _ _ st1 => i1 = i + n ∧ st1.data = st.data := by
  induction n generalizing i buf e f st with
  | zero => exact ⟨rfl, rfl⟩
  | succ n ih =>
    simp only [delete_bucket_loop]
    split_ifs with h1 h2 h3 h4
    · have := ih (i + 1) buf (e + 1) f st
      split at this <;> simp_all
      omega
    · have := ih (i + 1) buf e f st
      split at this <;> simp_all
      omega
    · trivial
    · exact kv_delete_vdi_data st _
    · have := ih (i + 1) (fun k => if k = i then { buf i with onode_vid := 0 } else buf k) e i
        (kv_delete_vdi st (snprintf_vdi_name env inode.name bucket)).2
      have hd := kv_delete_vdi_data st (snprintf_vdi_name env inode.name bucket)
      split at this <;> simp_all
      omega

/-- Whatever `delete_bucket` returns, each stored data object is afterwards either what it
was, or discarded, or equal to what it was on all its `BUCKETS_PER_SD_OBJ` slots: no stored
slot is ever zeroed by the write-back. -/
theorem delete_bucket_never_clears_stored_slot (env : KvEnv) (st : Sheep) (inode : sd_inode)
    (idx : Nat) (bucket : String) (r : Int × sd_inode × Sheep)
    (h : delete_bucket env st inode idx bucket = some r) (v d : Nat) :
    r.2.2.data v d = none ∨ r.2.2.data v d = st.data v d ∨
    ∃ old new, st.data v d = some old ∧ r.2.2.data v d = some new ∧
      ∀ s, s < BUCKETS_PER_SD_OBJ env → new s = old s := by
  unfold delete_bucket at h
  simp only [] at h
  split_ifs at h with h1 h2
  · simp only [Option.some.injEq] at h; subst h; exact Or.inr (Or.inl rfl)
  · simp only [Option.some.injEq] at h; subst h; exact Or.inr (Or.inl rfl)
  · have hl := delete_bucket_loop_data env inode bucket (idx % BUCKETS_PER_SD_OBJ env)
      (BUCKETS_PER_SD_OBJ env) 0
      (sd_read_object env st inode.vdi_id (idx / BUCKETS_PER_SD_OBJ env)
        (fun _ => bucket_inode_zero)).2 0 0 st
    split at h
    · exact absurd h (by simp)
    · rename_i st1 heq
      rw [heq] at hl
      simp only [Option.some.injEq] at h; subst h
      exact Or.inr (Or.inl (by rw [hl]))
    · rename_i i buf eb found st1 heq
      rw [heq] at hl
      obtain ⟨hi, hdata⟩ := hl
      split_ifs at h with h3 h4 h5 h6 h7
      · simp only [Option.some.injEq] at h; subst h
        exact Or.inr (Or.inl (by rw [hdata]))
      · simp only [Option.some.injEq] at h; subst h
        simp only [discard_data_obj, exec_local_req_discard]
        cases hs : st1.data inode.vdi_id (idx / BUCKETS_PER_SD_OBJ env) with
        | none => exact Or.inr (Or.inl (by rw [hdata]))
        | some o =>
          simp only
          split_ifs with hv
          · exact Or.inl rfl
          · exact Or.inr (Or.inl (by rw [hdata]))
      · simp only [Option.some.injEq] at h; subst h
        simp only [sd_inode_write_vid, discard_data_obj, exec_local_req_discard]
        cases hs : st1.data inode.vdi_id (idx / BUCKETS_PER_SD_OBJ env) with
        | none =>
          simp only
          split <;> exact Or.inr (Or.inl (by simp [hdata]))
        | some o =>
          simp only
          split
          · simp only
            split_ifs with hv
            · exact Or.inl rfl
            · exact Or.inr (Or.inl (by rw [hdata]))
          · simp only
            split_ifs with hv
            · exact Or.inl rfl
            · exact Or.inr (Or.inl (by rw [hdata]))
      · simp only [Option.some.injEq] at h; subst h
        simp only [sd_inode_write_vid, discard_data_obj, exec_local_req_discard]
        cases hs : st1.data inode.vdi_id (idx / BUCKETS_PER_SD_OBJ env) with
        | none =>
          simp only
          split <;> exact Or.inr (Or.inl (by simp [hdata]))
        | some o =>
          simp only
          split
          · simp only
            split_ifs with hv
            · exact Or.inl rfl
            · exact Or.inr (Or.inl (by rw [hdata]))
          · simp only
            split_ifs with hv
            · exact Or.inl rfl
            · exact Or.inr (Or.inl (by rw [hdata]))
      · simp only [Option.some.injEq] at h; subst h
        simp only [sd_write_object, Bool.false_eq_true, if_false]
        cases hs : st1.data inode.vdi_id (idx / BUCKETS_PER_SD_OBJ env) with
        | none => exact Or.inr (Or.inl (by rw [hdata]))
        | some o =>
          simp only
          split_ifs with hv
          · refine Or.inr (Or.inr ⟨o, _, by rw [← hdata, hv.1, hv.2]; exact hs, rfl, ?_⟩)
            intro s hs2
            have : ¬ (i ≤ s ∧ s < i + 1) := by omega
            simp only [this, if_false]
          · exact Or.inr (Or.inl (by rw [hdata]))
      · simp only [Option.some.injEq] at h; subst h
        simp only [sd_write_object, Bool.false_eq_true, if_false]
        cases hs : st1.data inode.vdi_id (idx / BUCKETS_PER_SD_OBJ env) with
        | none => exact Or.inr (Or.inl (by rw [hdata]))
        | some o =>
          simp only
          split_ifs with hv
          · refine Or.inr (Or.inr ⟨o, _, by rw [← hdata, hv.1, hv.2]; exact hs, rfl, ?_⟩)
            intro s hs2
            have : ¬ (i ≤ s ∧ s < i + 1) := by omega
            simp only [this, if_false]
          · exact Or.inr (Or.inl (by rw [hdata]))

/-! ### Bucket slots: `add_bucket`, the skip of the probe loops, slot uniqueness -/

theorem kv_create_bucket_exists (env : KvEnv) (st : Sheep) (account bucket : String)
    (vid v : Nat) (inode : sd_inode) (hacc : st.vdis account = some vid)
    (hino : st.inodes vid = some inode)
    (hex : st.vdis (snprintf_vdi_name env inode.name bucket) = some v) :
    kv_create_bucket env st account bucket = some ⟨SD_RES_VDI_EXIST, st, []⟩ := by
  unfold kv_create_bucket
  simp only [lookup_vdi, vdi_lookup, hacc, kv_get_bucket, sd_read_object_inode, hino, hex,
    ne_eq, not_true_eq_false, if_false, if_true]

/-- C11 at a failing input: on the empty account, `kv_create_bucket("acct", "a")` and then
`kv_create_bucket("acct", "b")` both return 0, yet the second write-back copies the buffer's
first record into slot 1: slots 0 and 1 of the stored data object are both live with
bucket_name "a", no slot carries "b", and `kv_list_buckets` emits "a" twice.  Creating "a"
once more returns `SD_RES_VDI_EXIST`. -/
theorem C11_two_live_slots_same_name :
    (kv_create_bucket kv_env0 kv_st_empty "acct" "a").map (fun r => r.ret) = some 0 ∧
    ((kv_create_bucket kv_env0 kv_st_empty "acct" "a").bind
      (fun r => (kv_create_bucket kv_env0 r.st "acct" "b").map (fun r2 => r2.ret))) = some 0 ∧
    kv_st_after_a_b.map (fun s => (s.data 1 0).map
      (fun o => ((o 0).bucket_name, (o 0).onode_vid, (o 1).bucket_name, (o 1).onode_vid)))
      = some (some ("a", 10, "a", 10)) ∧
    kv_st_after_a_b.map (fun s => (s.vdis "acct/a", s.vdis "acct/b"))
      = some (some 10, some 11) ∧
    kv_st_after_a_b.map (fun s => kv_list_buckets kv_env0 s "acct")
      = some (SD_RES_SUCCESS, ["a", "a"]) ∧
    kv_st_after_a_b.map
      (fun s => (kv_create_bucket kv_env0 s "acct" "a").map (fun r => r.ret))
      = some (some SD_RES_VDI_EXIST) := by
  decide

/-- C16 at a failing input: with `BUCKETS_PER_SD_OBJ = 2`, `MAX_BUCKETS = 8` and hash value 1,
every probe reports the skip sentinel; `kv_create_bucket` and `kv_delete_bucket` then probe
the indexes 1, 4, 7, that is i advances by `BUCKETS_PER_SD_OBJ + 1` (the `i +=
BUCKETS_PER_SD_OBJ` of the skip is followed by the loop's own `i++`), where an advance by
exactly `BUCKETS_PER_SD_OBJ` would probe 1, 3, 5, 7. -/
theorem C16_skip_advances_by_one_more :
    (kv_create_bucket kv_env0 kv_st_full "acct" "x").map (fun r => (r.ret, r.probes))
      = some (-1, [1, 4, 7]) ∧
    (delete_outcome (kv_delete_bucket kv_env0 kv_st_full_x "acct" "x")).map
      (fun r => (r.ret, r.probes)) = some (SD_RES_NO_VDI, [1, 4, 7]) ∧
    (add_bucket kv_env0 kv_st_full kv_inode_full 1 "x").1 = (BUCKETS_PER_SD_OBJ kv_env0 : Int) ∧
    ((delete_bucket kv_env0 kv_st_full_x kv_inode_full 1 "x").map (fun r => r.1))
      = some (BUCKETS_PER_SD_OBJ kv_env0 : Int) := by
  decide

/-- The step of the probe loop of `kv_create_bucket` on a skip: after the sentinel at
counter i the loop continues at counter i + `BUCKETS_PER_SD_OBJ` + 1. -/
theorem kv_create_bucket_loop_skip (env : KvEnv) (bucket : String) (hval fuel i : Nat)
    (inode : sd_inode) (st : Sheep) (probes : List Nat) (hi : i < MAX_BUCKETS env)
    (hskip : (add_bucket env st inode ((hval + i) % 2 ^ 64 % MAX_BUCKETS env) bucket).1
      = (BUCKETS_PER_SD_OBJ env : Int)) :
    kv_create_bucket_loop env bucket hval (fuel + 1) i inode st probes =
      kv_create_bucket_loop env bucket hval fuel (i + BUCKETS_PER_SD_OBJ env + 1)
        (add_bucket env st inode ((hval + i) % 2 ^ 64 % MAX_BUCKETS env) bucket).2.1
        (add_bucket env st inode ((hval + i) % 2 ^ 64 % MAX_BUCKETS env) bucket).2.2
        (probes ++ [(hval + i) % 2 ^ 64 % MAX_BUCKETS env]) := by
  simp only [kv_create_bucket_loop, hi, if_true, hskip]

/-- C17 at a failing input: data object 0 exists with bucket "a" (VDI 5) in slot 0 and slot 1
free; `add_bucket(inode, 1, "b")` returns position 1 and creates the VDI "acct/b" with vid
10, but the stored slot 1 then holds a copy of slot 0, ("a", 0, 0, 5), not ("b", 0, 0, 10):
the write-back hands `buf`, the start of the buffer, to `sd_write_object`. -/
theorem C17_write_back_stores_first_record :
    (add_bucket kv_env0 kv_st_one_a kv_inode_one 1 "b").1 = 1 ∧
    (add_bucket kv_env0 kv_st_one_a kv_inode_one 1 "b").2.2.vdis "acct/b" = some 10 ∧
    ((add_bucket kv_env0 kv_st_one_a kv_inode_one 1 "b").2.2.data 1 0).map (fun o => o 1)
      = some ⟨"a", 0, 0, 5⟩ ∧
    ((add_bucket kv_env0 kv_st_one_a kv_inode_one 1 "b").2.2.data 1 0).map (fun o => o 0)
      = some ⟨"a", 0, 0, 5⟩ := by
  decide

/-! ## Part V. Properties of `kv.c` : objects -/

theorem buf_bytes_self (d : List Nat) : buf_bytes d d.length = d := by
  unfold buf_bytes
  apply List.ext_getElem
  · simp
  · intro i h1 h2
    simp at h1
    simp [List.getD_eq_getElem?_getD, List.getElem?_eq_getElem h1]

theorem buf_bytes_length (d : List Nat) (n : Nat) : (buf_bytes d n).length = n := by
  simp [buf_bytes]

theorem buf_bytes_append (a b : List Nat) (n : Nat) (h : n ≤ a.length) :
    buf_bytes (a ++ b) n = buf_bytes a n := by
  unfold buf_bytes
  apply List.map_congr_left
  intro i hi
  have hi2 : i < a.length := lt_of_lt_of_le (List.mem_range.mp hi) h
  simp [List.getD_eq_getElem?_getD, List.getElem?_append_left hi2]

theorem slot_taken_iff (st : Sheep) (vid idx : Nat) (name : String) :
    slot_taken st vid idx name = true ↔
      ∃ inode o, st.inodes vid = some inode ∧ st.onodes vid idx = some o ∧
        inode.data_vdi_id idx ≠ 0 ∧ o.hdr.name ≠ "" ∧ o.hdr.name ≠ name := by
  unfold slot_taken
  cases hi : st.inodes vid with
  | none => simp
  | some inode =>
    cases ho : st.onodes vid idx with
    | none => simp
    | some o => simp

theorem do_kv_create_object_taken (st : Sheep) (onode : kv_onode) (vid idx : Nat)
    (h : slot_taken st vid idx onode.hdr.name = true) :
    do_kv_create_object st onode vid idx = (SD_RES_OBJ_TAKEN, st) := by
  obtain ⟨inode, o, hi, ho, h0, h1, h2⟩ := (slot_taken_iff _ _ _ _).mp h
  have hs : ¬ strcmp o.hdr.name.toList onode.hdr.name.toList = 0 := by
    rw [strcmp_string_eq_zero_iff]; exact h2
  have hc : (o.hdr.name ≠ "" ∧ strcmp o.hdr.name.toList onode.hdr.name.toList ≠ 0) :=
    ⟨h1, hs⟩
  simp only [do_kv_create_object, sd_read_object_inode, hi, INODE_GET_VID, h0,
    sd_read_object_hdr, ho, hc, ne_eq, not_true_eq_false, not_false_eq_true, if_true,
    if_false, and_self]

theorem do_kv_create_object_empty (st : Sheep) (onode : kv_onode) (vid idx : Nat)
    (inode : sd_inode) (hi : st.inodes vid = some inode) (hv : inode.vdi_id = vid)
    (h0 : inode.data_vdi_id idx = 0) (hin : onode.hdr.inlined = true) :
    do_kv_create_object st onode vid idx
      = (SD_RES_SUCCESS, onode_created st inode vid idx onode) := by
  simp [do_kv_create_object, sd_read_object_inode, hi, INODE_GET_VID, h0, hin,
    kv_create_inlined_object, sd_write_object_onode, sd_inode_write_vid, INODE_SET_VID, hv,
    onode_created, SD_RES_SUCCESS]

theorem do_kv_create_object_overwrite (st : Sheep) (onode old : kv_onode) (vid idx : Nat)
    (inode : sd_inode) (hi : st.inodes vid = some inode)
    (h0 : inode.data_vdi_id idx ≠ 0) (ho : st.onodes vid idx = some old)
    (hn : old.hdr.name = "" ∨ old.hdr.name = onode.hdr.name)
    (hin : onode.hdr.inlined = true) :
    do_kv_create_object st onode vid idx
      = (SD_RES_SUCCESS, onode_overwritten st vid idx onode old) := by
  have hs : ¬ (old.hdr.name ≠ "" ∧ strcmp old.hdr.name.toList onode.hdr.name.toList ≠ 0) := by
    simp only [ne_eq, strcmp_string_eq_zero_iff]
    rcases hn with h | h
    · exact fun hh => hh.1 h
    · exact fun hh => hh.2 h
  simp only [do_kv_create_object, sd_read_object_inode, hi, INODE_GET_VID, h0, hin,
    kv_create_inlined_object, sd_write_object_onode, sd_read_object_hdr, ho, hs,
    onode_overwritten, ne_eq, not_true_eq_false, not_false_eq_true, if_true, if_false,
    decide_True, decide_False, Bool.false_eq_true]

theorem slot_taken_false_iff (st : Sheep) (vid idx : Nat) (name : String) (inode : sd_inode)
    (o : kv_onode) (hi : st.inodes vid = some inode) (ho : st.onodes vid idx = some o) :
    slot_taken st vid idx name = false ↔
      (inode.data_vdi_id idx = 0 ∨ o.hdr.name = "" ∨ o.hdr.name = name) := by
  unfold slot_taken
  rw [hi, ho]
  simp only [decide_eq_false_iff_not, ne_eq]
  tauto

theorem do_kv_create_object_free (st : Sheep) (onode : kv_onode) (vid idx : Nat)
    (hok : bucket_ok st vid) (hin : onode.hdr.inlined = true)
    (hfree : slot_taken st vid idx onode.hdr.name = false) :
    (do_kv_create_object st onode vid idx).1 = SD_RES_SUCCESS ∧
    slot_written st (do_kv_create_object st onode vid idx).2 vid idx onode.hdr
      (buf_bytes onode.data onode.hdr.size) := by
  obtain ⟨hv0, inode, hi, hv, hobj⟩ := hok
  by_cases h0 : inode.data_vdi_id idx = 0
  · rw [do_kv_create_object_empty st onode vid idx inode hi hv h0 hin]
    refine ⟨rfl, ⟨[], by simp [onode_created]⟩, ?_, rfl, ?_, ?_⟩
    · intro v d hvd
      simp [onode_created, hvd]
    · intro v hne
      simp [onode_created, hne]
    · have hi1 : (onode_created st inode vid idx onode).inodes vid
          = some (INODE_SET_VID inode idx vid) := by
        simp [onode_created, INODE_SET_VID]
      exact ⟨inode, INODE_SET_VID inode idx vid, hi, hi1, rfl,
        by simpa [INODE_SET_VID] using hv0, fun d hd => by simp [INODE_SET_VID, hd]⟩
  · obtain ⟨old, ho⟩ := hobj idx h0
    have hn : old.hdr.name = "" ∨ old.hdr.name = onode.hdr.name := by
      rcases (slot_taken_false_iff st vid idx _ inode old hi ho).mp hfree with h | h
      · exact absurd h h0
      · exact h
    rw [do_kv_create_object_overwrite st onode old vid idx inode hi h0 ho hn hin]
    refine ⟨rfl, ⟨old.data.drop onode.hdr.size, by simp [onode_overwritten]⟩, ?_, rfl, ?_, ?_⟩
    · intro v d hvd
      simp [onode_overwritten, hvd]
    · intro v hne
      simp [onode_overwritten]
    · exact ⟨inode, inode, hi, by simpa [onode_overwritten] using hi, rfl, h0, fun _ _ => rfl⟩

theorem slot_written_ok (st st1 : Sheep) (vid idx : Nat) (hdr : kv_onode_hdr)
    (bytes : List Nat) (hw : slot_written st st1 vid idx hdr bytes) (hok : bucket_ok st vid) :
    bucket_ok st1 vid := by
  obtain ⟨⟨tail, h1⟩, h2, -, -, inode, inode1, hi, hi1, hv, hs, hrest⟩ := hw
  obtain ⟨hv0, inode0, hi0, hv1, hobj⟩ := hok
  rw [hi] at hi0
  cases hi0
  refine ⟨hv0, inode1, hi1, hv.trans hv1, ?_⟩
  intro d hd
  by_cases hdi : d = idx
  · subst hdi; exact ⟨_, h1⟩
  · rw [h2 vid d (fun h => hdi h.2)]
    exact hobj d (by rw [← hrest d hdi]; exact hd)

theorem slot_written_taken_other (st st1 : Sheep) (vid idx : Nat) (hdr : kv_onode_hdr)
    (bytes : List Nat) (hw : slot_written st st1 vid idx hdr bytes) (d : Nat) (hd : d ≠ idx)
    (name : String) : slot_taken st1 vid d name = slot_taken st vid d name := by
  obtain ⟨-, h2, -, -, inode, inode1, hi, hi1, -, -, hrest⟩ := hw
  unfold slot_taken
  rw [hi, hi1, h2 vid d (fun h => hd h.2)]
  cases st.onodes vid d with
  | none => rfl
  | some o => simp only [hrest d hd]

theorem slot_written_taken_self (st st1 : Sheep) (vid idx : Nat) (hdr : kv_onode_hdr)
    (bytes : List Nat) (hw : slot_written st st1 vid idx hdr bytes) (name : String) :
    slot_taken st1 vid idx name = decide (hdr.name ≠ "" ∧ hdr.name ≠ name) := by
  obtain ⟨⟨tail, h1⟩, -, -, -, inode, inode1, hi, hi1, -, hs, -⟩ := hw
  unfold slot_taken
  rw [hi1, h1]
  simp [hs]

theorem kv_create_object_loop_full (env : KvEnv) (onode : kv_onode) (vid hval : Nat) :
    ∀ (n i : Nat) (req : http_request) (st : Sheep),
      (∀ j, j < n → slot_taken st vid (onode_idx env hval (i + j)) onode.hdr.name = true) →
      kv_create_object_loop env onode vid hval n i req st
        = ⟨-1, http_response_header req http_status.SERVICE_UNAVAILABLE, st⟩ := by
  intro n
  induction n with
  | zero => intro i req st _; rfl
  | succ n ih =>
    intro i req st h
    have h0 := do_kv_create_object_taken st onode vid _ (h 0 (Nat.succ_pos n))
    rw [Nat.add_zero] at h0
    have hne : ¬ SD_RES_OBJ_TAKEN = SD_RES_SUCCESS := by decide
    simp only [kv_create_object_loop, h0, hne, if_false, if_true]
    apply ih
    intro j hj
    have := h (j + 1) (Nat.succ_lt_succ hj)
    rwa [show i + (j + 1) = i + 1 + j by omega] at this

theorem kv_create_object_loop_first (env : KvEnv) (onode : kv_onode) (vid hval : Nat)
    (hin : onode.hdr.inlined = true) :
    ∀ (m n i : Nat) (req : http_request) (st : Sheep), bucket_ok st vid → m < n →
      (∀ j, j < m → slot_taken st vid (onode_idx env hval (i + j)) onode.hdr.name = true) →
      slot_taken st vid (onode_idx env hval (i + m)) onode.hdr.name = false →
      kv_create_object_loop env onode vid hval n i req st
        = ⟨0, http_response_header req http_status.CREATED,
            (do_kv_create_object st onode vid (onode_idx env hval (i + m))).2⟩ := by
  intro m
  induction m with
  | zero =>
    intro n i req st hok hmn _ hfree
    obtain ⟨n, rfl⟩ : ∃ k, n = k + 1 := ⟨n - 1, by omega⟩
    have h1 := (do_kv_create_object_free st onode vid _ hok hin hfree).1
    rw [Nat.add_zero] at h1
    simp only [kv_create_object_loop, h1, if_true, Nat.add_zero]
  | succ m ih =>
    intro n i req st hok hmn htaken hfree
    obtain ⟨n, rfl⟩ : ∃ k, n = k + 1 := ⟨n - 1, by omega⟩
    have h0 := do_kv_create_object_taken st onode vid _ (htaken 0 (Nat.succ_pos m))
    rw [Nat.add_zero] at h0
    have hne : ¬ SD_RES_OBJ_TAKEN = SD_RES_SUCCESS := by decide
    simp only [kv_create_object_loop, h0, hne, if_false, if_true]
    rw [ih n (i + 1) req st hok (by omega) ?_ ?_]
    · rw [show i + 1 + m = i + (m + 1) by omega]
    · intro j hj
      have := htaken (j + 1) (Nat.succ_lt_succ hj)
      rwa [show i + (j + 1) = i + 1 + j by omega] at this
    · rwa [show i + 1 + m = i + (m + 1) by omega]

theorem lookup_bucket_hit (st : Sheep) (req : http_request) (bucket : String) (vid v0 : Nat)
    (hb : st.vdis bucket = some vid) :
    lookup_bucket st req bucket v0 = (SD_RES_SUCCESS, vid, req) := by
  simp [lookup_bucket, vdi_lookup, hb]

theorem lookup_bucket_miss (st : Sheep) (req : http_request) (bucket : String) (v0 : Nat)
    (hb : st.vdis bucket = none) :
    lookup_bucket st req bucket v0
      = (SD_RES_NO_VDI, v0, http_response_header req http_status.NOT_FOUND) := by
  have hne : ¬ SD_RES_NO_VDI = SD_RES_SUCCESS := by decide
  simp [lookup_bucket, vdi_lookup, hb, hne]

theorem kv_create_object_eq (env : KvEnv) (st : Sheep) (req : http_request)
    (bucket name : String) (vid v0 : Nat) (hb : st.vdis bucket = some vid)
    (hr : req.read_fails = false) :
    kv_create_object env st req bucket name v0 =
      kv_create_object_loop env (created_onode env req name) vid (env.sd_hash name)
        env.MAX_DATA_OBJS 0 (req_after_read req (KV_ONODE_INLINE_SIZE env)) st := by
  have h0 : ¬ (SD_RES_SUCCESS < 0) := by decide
  have h1 : ¬ (((min req.body.length (KV_ONODE_INLINE_SIZE env) : Nat) : Int) < 0) := by omega
  have h2 : min req.body.length (KV_ONODE_INLINE_SIZE env) ≤ KV_ONODE_INLINE_SIZE env :=
    Nat.min_le_right _ _
  simp only [kv_create_object, lookup_bucket_hit st req bucket vid v0 hb, h0, if_false,
    http_request_read, hr, Bool.false_eq_true, h1, Int.toNat_ofNat, h2, decide_True,
    created_onode, req_after_read]

theorem kv_st_bucket_ok : bucket_ok kv_st_bucket 6 :=
  ⟨by decide, kv_inode_bucket, rfl, rfl, fun _ h => absurd rfl h⟩

theorem kv_st_bucket_one_ok : bucket_ok kv_st_bucket_one 6 := by
  refine ⟨by decide, ⟨"b1", 1024, 6, 0, 3, 0, 1, fun d => if d = 2 then 6 else 0⟩, rfl, rfl, ?_⟩
  intro idx h
  have h2 : idx = 2 := by
    by_contra hc
    simp [hc] at h
  subst h2
  exact ⟨_, rfl⟩

theorem kv_st_bucket_first_free (name : String) (h : 0 < kv_env0.MAX_DATA_OBJS) :
    first_free kv_env0 kv_st_bucket 6 name 0 :=
  ⟨h, fun j hj => absurd hj (Nat.not_lt_zero j), rfl⟩

theorem pstrcpy_short (n : Nat) (name : String) (h : name.length < n) :
    pstrcpy n name = name := by
  unfold pstrcpy
  have hl : name.toList.length ≤ n - 1 := by
    have : name.toList.length = name.length := rfl
    omega
  rw [List.take_of_length_le hl]
  rfl

theorem kv_read_object_loop_miss (env : KvEnv) (st : Sheep) (object : String)
    (vid hval : Nat) (hno : name_absent st vid object) :
    ∀ (n i : Nat) (req : http_request) (obj : kv_onode),
      req.status = http_status.UNKNOWN →
      (kv_read_object_loop env st object vid hval n i req obj).req
          = http_response_header req http_status.NOT_FOUND ∧
        (kv_read_object_loop env st object vid hval n i req obj).st = st := by
  intro n
  induction n with
  | zero => intro i req obj _; exact ⟨rfl, rfl⟩
  | succ n ih =>
    intro i req obj hreq
    cases ho : st.onodes vid (onode_idx env hval i) with
    | none =>
      have hne : ¬ SD_RES_NO_OBJ = SD_RES_SUCCESS := by decide
      simp [kv_read_object_loop, do_kv_read_object, sd_read_object_onode, ho, hne,
        http_response_header]
    | some o =>
      have hs : ¬ strcmp o.hdr.name.toList object.toList = 0 := by
        rw [strcmp_string_eq_zero_iff]; exact hno _ _ ho
      simp only [kv_read_object_loop, do_kv_read_object, sd_read_object_onode, ho, hs,
        if_true, if_false, hreq, ne_eq, not_true_eq_false]
      exact ih (i + 1) req o hreq

theorem kv_read_object_loop_hit (env : KvEnv) (st : Sheep) (object : String)
    (vid hval : Nat) (o : kv_onode) (hname : o.hdr.name = object) :
    ∀ (m n i : Nat) (req : http_request) (obj : kv_onode),
      req.status = http_status.UNKNOWN → m < n →
      (∀ j, j < m → ∃ o2, st.onodes vid (onode_idx env hval (i + j)) = some o2 ∧
        o2.hdr.name ≠ object) →
      st.onodes vid (onode_idx env hval (i + m)) = some o →
      kv_read_object_loop env st object vid hval n i req obj
        = ⟨0, http_request_write (http_response_header req http_status.OK) o.data o.hdr.size,
            st⟩ := by
  intro m
  induction m with
  | zero =>
    intro n i req obj hreq hmn _ ho
    obtain ⟨n, rfl⟩ : ∃ k, n = k + 1 := ⟨n - 1, by omega⟩
    rw [Nat.add_zero] at ho
    have hs : strcmp o.hdr.name.toList object.toList = 0 := by
      rw [strcmp_string_eq_zero_iff]; exact hname
    simp only [kv_read_object_loop, do_kv_read_object, sd_read_object_onode, ho, hs,
      if_true]
    simp [http_response_header, http_request_write]
  | succ m ih =>
    intro n i req obj hreq hmn hother ho
    obtain ⟨n, rfl⟩ : ∃ k, n = k + 1 := ⟨n - 1, by omega⟩
    obtain ⟨o2, ho2, hn2⟩ := hother 0 (Nat.succ_pos m)
    rw [Nat.add_zero] at ho2
    have hs : ¬ strcmp o2.hdr.name.toList object.toList = 0 := by
      rw [strcmp_string_eq_zero_iff]; exact hn2
    simp only [kv_read_object_loop, do_kv_read_object, sd_read_object_onode, ho2, hs,
      if_true, if_false, hreq, ne_eq, not_true_eq_false]
    apply ih n (i + 1) req o2 hreq (by omega)
    · intro j hj
      have := hother (j + 1) (Nat.succ_lt_succ hj)
      rwa [show i + (j + 1) = i + 1 + j by omega] at this
    · rwa [show i + 1 + m = i + (m + 1) by omega]

theorem kv_delete_object_loop_miss (env : KvEnv) (object : String) (vid hval : Nat) :
    ∀ (n i : Nat) (req : http_request) (st : Sheep), name_absent st vid object →
      req.status = http_status.UNKNOWN →
      (kv_delete_object_loop env object vid hval n i req st).req
          = http_response_header req http_status.NOT_FOUND ∧
        (kv_delete_object_loop env object vid hval n i req st).st = st := by
  intro n
  induction n with
  | zero => intro i req st _ _; exact ⟨rfl, rfl⟩
  | succ n ih =>
    intro i req st hno hreq
    cases ho : st.onodes vid (onode_idx env hval i) with
    | none =>
      have hne : ¬ SD_RES_NO_OBJ = SD_RES_SUCCESS := by decide
      simp [kv_delete_object_loop, do_kv_delete_object, sd_read_object_name, ho, hne,
        http_response_header]
    | some o =>
      have hs : ¬ strcmp o.hdr.name.toList object.toList = 0 := by
        rw [strcmp_string_eq_zero_iff]; exact hno _ _ ho
      simp only [kv_delete_object_loop, do_kv_delete_object, sd_read_object_name, ho, hs,
        if_true, if_false, hreq, ne_eq, not_true_eq_false]
      exact ih (i + 1) req st hno hreq

theorem kv_delete_object_loop_hit (env : KvEnv) (object : String) (vid hval : Nat)
    (st : Sheep) (o : kv_onode) (hname : o.hdr.name = object) :
    ∀ (m n i : Nat) (req : http_request),
      req.status = http_status.UNKNOWN → m < n →
      (∀ j, j < m → ∃ o2, st.onodes vid (onode_idx env hval (i + j)) = some o2 ∧
        o2.hdr.name ≠ object) →
      st.onodes vid (onode_idx env hval (i + m)) = some o →
      kv_delete_object_loop env object vid hval n i req st
        = ⟨0, http_response_header req http_status.NO_CONTENT,
            onode_deleted st vid (onode_idx env hval (i + m)) o⟩ := by
  intro m
  induction m with
  | zero =>
    intro n i req hreq hmn _ ho
    obtain ⟨n, rfl⟩ : ∃ k, n = k + 1 := ⟨n - 1, by omega⟩
    rw [Nat.add_zero] at ho
    have hs : strcmp o.hdr.name.toList object.toList = 0 := by
      rw [strcmp_string_eq_zero_iff]; exact hname
    simp only [kv_delete_object_loop, do_kv_delete_object, sd_read_object_name, ho, hs,
      if_true, sd_write_object_name]
    simp [http_response_header, onode_deleted]
  | succ m ih =>
    intro n i req hreq hmn hother ho
    obtain ⟨n, rfl⟩ : ∃ k, n = k + 1 := ⟨n - 1, by omega⟩
    obtain ⟨o2, ho2, hn2⟩ := hother 0 (Nat.succ_pos m)
    rw [Nat.add_zero] at ho2
    have hs : ¬ strcmp o2.hdr.name.toList object.toList = 0 := by
      rw [strcmp_string_eq_zero_iff]; exact hn2
    simp only [kv_delete_object_loop, do_kv_delete_object, sd_read_object_name, ho2, hs,
      if_true, if_false, hreq, ne_eq, not_true_eq_false]
    rw [ih n (i + 1) req hreq (by omega) ?_ ?_]
    · rw [show i + 1 + m = i + (m + 1) by omega]
    · intro j hj
      have := hother (j + 1) (Nat.succ_lt_succ hj)
      rwa [show i + (j + 1) = i + 1 + j by omega] at this
    · rwa [show i + 1 + m = i + (m + 1) by omega]

theorem created_onode_bytes (env : KvEnv) (req : http_request) (name : String)
    (hd : req.body.length ≤ KV_ONODE_INLINE_SIZE env) :
    (created_onode env req name).hdr.size = req.body.length ∧
    buf_bytes (created_onode env req name).data (created_onode env req name).hdr.size
      = req.body := by
  have h1 : min req.body.length (KV_ONODE_INLINE_SIZE env) = req.body.length :=
    Nat.min_eq_left hd
  have h2 : req.body.take (KV_ONODE_INLINE_SIZE env) = req.body :=
    List.take_of_length_le hd
  simp only [created_onode, h1, h2, buf_bytes_self, and_self]

theorem first_free_others (env : KvEnv) (st : Sheep) (vid : Nat) (name : String) (m : Nat)
    (hff : first_free env st vid name m) (j : Nat) (hj : j < m) :
    onode_idx env (env.sd_hash name) j ≠ onode_idx env (env.sd_hash name) m ∧
    ∃ o, st.onodes vid (onode_idx env (env.sd_hash name) j) = some o ∧
      o.hdr.name ≠ "" ∧ o.hdr.name ≠ pstrcpy env.SD_MAX_OBJECT_NAME name := by
  obtain ⟨-, htaken, hfree⟩ := hff
  have ht := htaken j hj
  constructor
  · intro heq
    rw [heq, hfree] at ht
    exact absurd ht (by decide)
  · obtain ⟨inode, o, -, ho, -, h1, h2⟩ := (slot_taken_iff _ _ _ _).mp ht
    exact ⟨o, ho, h1, h2⟩

theorem kv_create_object_first_free (env : KvEnv) (st : Sheep) (req : http_request)
    (bucket name : String) (vid v0 m : Nat) (hok : bucket_ok st vid)
    (hb : st.vdis bucket = some vid) (hr : req.read_fails = false)
    (hff : first_free env st vid name m) :
    (kv_create_object env st req bucket name v0).ret = 0 ∧
    (kv_create_object env st req bucket name v0).req.status = http_status.CREATED ∧
    slot_written st (kv_create_object env st req bucket name v0).st vid
      (onode_idx env (env.sd_hash name) m) (created_onode env req name).hdr
      (buf_bytes (created_onode env req name).data (created_onode env req name).hdr.size) := by
  obtain ⟨hm, htaken, hfree⟩ := hff
  rw [kv_create_object_eq env st req bucket name vid v0 hb hr,
    kv_create_object_loop_first env (created_onode env req name) vid (env.sd_hash name) rfl m
      env.MAX_DATA_OBJS 0 (req_after_read req (KV_ONODE_INLINE_SIZE env)) st hok hm
      (by simpa [created_onode] using htaken) (by simpa [created_onode] using hfree)]
  refine ⟨rfl, rfl, ?_⟩
  have := (do_kv_create_object_free st (created_onode env req name) vid
    (onode_idx env (env.sd_hash name) m) hok rfl (by simpa [created_onode] using hfree)).2
  simpa using this

theorem slot_written_first_free (env : KvEnv) (st st1 : Sheep) (vid : Nat) (name : String)
    (m : Nat) (hdr : kv_onode_hdr) (bytes : List Nat)
    (hff : first_free env st vid name m)
    (hw : slot_written st st1 vid (onode_idx env (env.sd_hash name) m) hdr bytes)
    (hn : hdr.name = pstrcpy env.SD_MAX_OBJECT_NAME name) :
    first_free env st1 vid name m := by
  refine ⟨hff.1, ?_, ?_⟩
  · intro j hj
    rw [slot_written_taken_other st st1 vid _ hdr bytes hw _
      (first_free_others env st vid name m hff j hj).1]
    exact hff.2.1 j hj
  · rw [slot_written_taken_self st st1 vid _ hdr bytes hw, hn]
    simp

theorem kv_read_object_after_write (env : KvEnv) (st st1 : Sheep) (bucket name : String)
    (vid m : Nat) (hdr : kv_onode_hdr) (bytes : List Nat)
    (hb : st.vdis bucket = some vid) (hk : name.length < env.SD_MAX_OBJECT_NAME)
    (hff : first_free env st vid name m)
    (hw : slot_written st st1 vid (onode_idx env (env.sd_hash name) m) hdr bytes)
    (hn : hdr.name = name) (hsz : bytes.length = hdr.size)
    (req : http_request) (v1 : Nat) (hreq : req.status = http_status.UNKNOWN) :
    (kv_read_object env st1 req bucket name v1).req.status = http_status.OK ∧
    (kv_read_object env st1 req bucket name v1).req.written = req.written ++ bytes := by
  obtain ⟨⟨tail, h1⟩, h2, h3, -⟩ := hw
  have h0 : ¬ (SD_RES_SUCCESS < 0) := by decide
  have hb1 : st1.vdis bucket = some vid := by rw [h3]; exact hb
  have hloop := kv_read_object_loop_hit env st1 name vid (env.sd_hash name)
    ⟨hdr, bytes ++ tail⟩ hn m env.MAX_DATA_OBJS 0 req kv_onode_zero hreq hff.1 (by
      intro j hj
      obtain ⟨hne, o, ho, -, hon⟩ := first_free_others env st vid name m hff j hj
      rw [Nat.zero_add, h2 vid _ (fun h => hne h.2)]
      rw [pstrcpy_short _ _ hk] at hon
      exact ⟨o, ho, hon⟩) (by rw [Nat.zero_add]; exact h1)
  simp only [kv_read_object, lookup_bucket_hit st1 req bucket vid v1 hb1, h0, if_false, hloop,
    http_request_write, http_response_header]
  refine ⟨trivial, ?_⟩
  rw [← hsz, buf_bytes_append bytes tail bytes.length (le_refl _), buf_bytes_self]

/-- C13 (amended): in a geometry with `MAX_DATA_OBJS ≤ INT_MAX`, for a bucket in order, an
object name k shorter than `SD_MAX_OBJECT_NAME` and readable payloads d and e of at most
`KV_ONODE_INLINE_SIZE` bytes.  When k's probe sequence has a slot not taken by another
object, `kv_create_object(b, k, d)` responds CREATED and a following `kv_read_object(b, k)`
on a fresh request responds OK and writes exactly the bytes d; a second
`kv_create_object(b, k, e)` responds CREATED and the read after it writes exactly e.  When
all `MAX_DATA_OBJS` probes are taken by other objects, `kv_create_object(b, k, d)` responds
SERVICE_UNAVAILABLE, returns -1 and leaves the cluster unchanged. -/
theorem C13_create_then_read_returns_payload (env : KvEnv) (st : Sheep) (bucket k : String)
    (vid v0 v1 v2 v3 : Nat) (req1 req2 req3 req4 : http_request)
    (hmax : env.MAX_DATA_OBJS ≤ INT_MAX)
    (hok : bucket_ok st vid) (hb : st.vdis bucket = some vid)
    (hk : k.length < env.SD_MAX_OBJECT_NAME)
    (hr1 : req1.read_fails = false) (hd1 : req1.body.length ≤ KV_ONODE_INLINE_SIZE env)
    (hr3 : req3.read_fails = false) (hd3 : req3.body.length ≤ KV_ONODE_INLINE_SIZE env)
    (h2 : req2.status = http_status.UNKNOWN) (h4 : req4.status = http_status.UNKNOWN) :
    ((∃ m, first_free env st vid k m) →
      (kv_create_object env st req1 bucket k v0).req.status = http_status.CREATED ∧
      (kv_read_object env (kv_create_object env st req1 bucket k v0).st req2 bucket k
        v1).req.status = http_status.OK ∧
      (kv_read_object env (kv_create_object env st req1 bucket k v0).st req2 bucket k
        v1).req.written = req2.written ++ req1.body ∧
      (kv_create_object env (kv_create_object env st req1 bucket k v0).st req3 bucket k
        v2).req.status = http_status.CREATED ∧
      (kv_read_object env (kv_create_object env (kv_create_object env st req1 bucket k v0).st
        req3 bucket k v2).st req4 bucket k v3).req.status = http_status.OK ∧
      (kv_read_object env (kv_create_object env (kv_create_object env st req1 bucket k v0).st
        req3 bucket k v2).st req4 bucket k v3).req.written = req4.written ++ req3.body) ∧
    ((∀ j, j < env.MAX_DATA_OBJS →
        slot_taken st vid (onode_idx env (env.sd_hash k) j) k = true) →
      (kv_create_object env st req1 bucket k v0).req.status
        = http_status.SERVICE_UNAVAILABLE ∧
      (kv_create_object env st req1 bucket k v0).ret = -1 ∧
      (kv_create_object env st req1 bucket k v0).st = st) := by
  have hps : pstrcpy env.SD_MAX_OBJECT_NAME k = k := pstrcpy_short _ _ hk
  constructor
  · intro hff
    obtain ⟨m, hff⟩ := hff
    obtain ⟨-, hc1, hw1⟩ :=
      kv_create_object_first_free env st req1 bucket k vid v0 m hok hb hr1 hff
    have hname : ∀ req : http_request, (created_onode env req k).hdr.name = k :=
      fun req => hps
    have hname2 : ∀ req : http_request,
        (created_onode env req k).hdr.name = pstrcpy env.SD_MAX_OBJECT_NAME k := fun req => rfl
    obtain ⟨hs1, hby1⟩ := created_onode_bytes env req1 k hd1
    obtain ⟨hs3, hby3⟩ := created_onode_bytes env req3 k hd3
    have hread1 := kv_read_object_after_write env st _ bucket k vid m _ _ hb hk hff hw1
      (hname req1) (by rw [hby1, hs1]) req2 v1 h2
    rw [hby1] at hread1
    have hok1 := slot_written_ok _ _ _ _ _ _ hw1 hok
    have hb1 : (kv_create_object env st req1 bucket k v0).st.vdis bucket = some vid := by
      rw [hw1.2.2.1]; exact hb
    have hff1 := slot_written_first_free env st _ vid k m _ _ hff hw1 (hname2 req1)
    obtain ⟨-, hc3, hw3⟩ := kv_create_object_first_free env _ req3 bucket k vid v2 m hok1 hb1
      hr3 hff1
    have hread3 := kv_read_object_after_write env _ _ bucket k vid m _ _ hb1 hk hff1 hw3
      (hname req3) (by rw [hby3, hs3]) req4 v3 h4
    rw [hby3] at hread3
    exact ⟨hc1, hread1.1, hread1.2, hc3, hread3.1, hread3.2⟩
  · intro hfull
    rw [kv_create_object_eq env st req1 bucket k vid v0 hb hr1,
      kv_create_object_loop_full env (created_onode env req1 k) vid (env.sd_hash k)
        env.MAX_DATA_OBJS 0 (req_after_read req1 (KV_ONODE_INLINE_SIZE env)) st
        (by
          intro j hj
          have := hfull j hj
          simpa [created_onode, hps] using this)]
    exact ⟨rfl, rfl, rfl⟩

theorem C13_create_then_read_returns_payload_witness :
    kv_env0.MAX_DATA_OBJS ≤ INT_MAX ∧
    (kv_read_object kv_env0 (kv_create_object kv_env0 kv_st_bucket (kv_req [97]) "b1" "k"
      0).st (kv_req []) "b1" "k" 0).req.written = [] ++ [97] ∧
    (kv_read_object kv_env0 (kv_create_object kv_env0 (kv_create_object kv_env0 kv_st_bucket
      (kv_req [97]) "b1" "k" 0).st (kv_req [98, 98]) "b1" "k" 0).st (kv_req []) "b1" "k"
      0).req.written = [] ++ [98, 98] ∧
    (kv_create_object kv_env0 kv_st_bucket_one (kv_req [98]) "b1" "k1" 0).req.status
      = http_status.CREATED ∧
    (kv_read_object kv_env0 (kv_create_object kv_env0 kv_st_bucket_one (kv_req [98]) "b1" "k1"
      0).st (kv_req []) "b1" "k1" 0).req.written = [] ++ [98] :=
  ⟨by decide,
    ((C13_create_then_read_returns_payload kv_env0 kv_st_bucket "b1" "k" 6 0 0 0 0 (kv_req [97])
      (kv_req []) (kv_req [98, 98]) (kv_req []) (by decide) kv_st_bucket_ok rfl (by decide)
      rfl (by decide) rfl (by decide) rfl rfl).1
      ⟨0, kv_st_bucket_first_free "k" (by decide)⟩).2.2.1,
    ((C13_create_then_read_returns_payload kv_env0 kv_st_bucket "b1" "k" 6 0 0 0 0 (kv_req [97])
      (kv_req []) (kv_req [98, 98]) (kv_req []) (by decide) kv_st_bucket_ok rfl (by decide)
      rfl (by decide) rfl (by decide) rfl rfl).1
      ⟨0, kv_st_bucket_first_free "k" (by decide)⟩).2.2.2.2.2,
    ((C13_create_then_read_returns_payload kv_env0 kv_st_bucket_one "b1" "k1" 6 0 0 0 0
      (kv_req [98]) (kv_req []) (kv_req [98]) (kv_req []) (by decide) kv_st_bucket_one_ok rfl
      (by decide) rfl (by decide) rfl (by decide) rfl rfl).1
      ⟨0, by decide, fun j hj => absurd hj (Nat.not_lt_zero j), by decide⟩).1,
    ((C13_create_then_read_returns_payload kv_env0 kv_st_bucket_one "b1" "k1" 6 0 0 0 0
      (kv_req [98]) (kv_req []) (kv_req [98]) (kv_req []) (by decide) kv_st_bucket_one_ok rfl
      (by decide) rfl (by decide) rfl (by decide) rfl rfl).1
      ⟨0, by decide, fun j hj => absurd hj (Nat.not_lt_zero j), by decide⟩).2.2.1⟩

/-- C13 as stated fails: in the existing bucket "b1" with all four slots taken by other
names, `kv_create_object(b1, "k", [97])` responds SERVICE_UNAVAILABLE and returns -1; and
with `SD_MAX_OBJECT_NAME = 8` the name "abcdefghij" is stored cut to "abcdefg", so after a
create that responds CREATED the read of "abcdefghij" responds NOT_FOUND. -/
theorem C13_counterexample_full_bucket :
    kv_st_bucket_full.vdis "b1" = some 6 ∧
    ((kv_create_object kv_env0 kv_st_bucket_full (kv_req [97]) "b1" "k" 0).ret,
      (kv_create_object kv_env0 kv_st_bucket_full (kv_req [97]) "b1" "k" 0).req.status)
      = (-1, http_status.SERVICE_UNAVAILABLE) ∧
    (kv_create_object kv_env0 kv_st_bucket (kv_req [97]) "b1" "abcdefghij" 0).req.status
      = http_status.CREATED ∧
    (kv_read_object kv_env0 (kv_create_object kv_env0 kv_st_bucket (kv_req [97]) "b1"
      "abcdefghij" 0).st (kv_req []) "b1" "abcdefghij" 0).req.status
      = http_status.NOT_FOUND := by
  decide

theorem kv_list_objects_names_mem (env : KvEnv) (st : Sheep) (inode : sd_inode) (vid : Nat)
    (name : String) (h : name ∈ kv_list_objects_names env st inode vid) :
    ∃ idx o, st.onodes vid idx = some o ∧ o.hdr.name = name := by
  unfold kv_list_objects_names at h
  obtain ⟨idx, -, hidx⟩ := List.mem_filterMap.mp h
  by_cases h0 : inode.data_vdi_id idx = 0
  · simp [h0] at hidx
  · cases ho : st.onodes vid idx with
    | none =>
      have hne : ¬ SD_RES_NO_OBJ = SD_RES_SUCCESS := by decide
      simp [h0, sd_read_object_name, ho, hne] at hidx
    | some o =>
      simp only [h0, sd_read_object_name, ho, if_true, if_false] at hidx
      by_cases hn : o.hdr.name = ""
      · simp [hn] at hidx
      · simp only [ne_eq, hn, not_false_eq_true, if_true, Option.some.injEq] at hidx
        exact ⟨idx, o, ho, hidx⟩

theorem kv_list_objects_absent (env : KvEnv) (st : Sheep) (req : http_request)
    (bucket name : String) (vid v0 : Nat) (hb : st.vdis bucket = some vid)
    (hno : name_absent st vid name) :
    name ∉ (kv_list_objects env st req bucket v0).2.2 := by
  have h0 : ¬ (SD_RES_SUCCESS < 0) := by decide
  simp only [kv_list_objects, lookup_bucket_hit st req bucket vid v0 hb, h0, if_false]
  split_ifs
  · simp
  · intro hmem
    obtain ⟨idx, o, ho, hn⟩ := kv_list_objects_names_mem env st _ vid name hmem
    exact hno idx o ho hn

theorem kv_read_object_absent (env : KvEnv) (st : Sheep) (req : http_request)
    (bucket name : String) (vid v0 : Nat) (hb : st.vdis bucket = some vid)
    (hno : name_absent st vid name) (hreq : req.status = http_status.UNKNOWN) :
    (kv_read_object env st req bucket name v0).req
        = http_response_header req http_status.NOT_FOUND ∧
      (kv_read_object env st req bucket name v0).st = st := by
  have h0 : ¬ (SD_RES_SUCCESS < 0) := by decide
  simp only [kv_read_object, lookup_bucket_hit st req bucket vid v0 hb, h0, if_false]
  exact kv_read_object_loop_miss env st name vid _ hno _ 0 req _ hreq

theorem kv_delete_object_absent (env : KvEnv) (st : Sheep) (req : http_request)
    (bucket name : String) (vid v0 : Nat) (hb : st.vdis bucket = some vid)
    (hno : name_absent st vid name) (hreq : req.status = http_status.UNKNOWN) :
    (kv_delete_object env st req bucket name v0).req
        = http_response_header req http_status.NOT_FOUND ∧
      (kv_delete_object env st req bucket name v0).st = st := by
  have h0 : ¬ (SD_RES_SUCCESS < 0) := by decide
  simp only [kv_delete_object, lookup_bucket_hit st req bucket vid v0 hb, h0, if_false]
  exact kv_delete_object_loop_miss env name vid _ _ 0 req st hno hreq

theorem kv_delete_object_after_write (env : KvEnv) (st st1 : Sheep) (bucket name : String)
    (vid m : Nat) (hdr : kv_onode_hdr) (bytes : List Nat)
    (hb : st.vdis bucket = some vid) (hk : name.length < env.SD_MAX_OBJECT_NAME)
    (hne : name ≠ "")
    (hat : ∀ idx o, st.onodes vid idx = some o → o.hdr.name = name →
      idx = onode_idx env (env.sd_hash name) m)
    (hff : first_free env st vid name m)
    (hw : slot_written st st1 vid (onode_idx env (env.sd_hash name) m) hdr bytes)
    (hn : hdr.name = name)
    (req : http_request) (v1 : Nat) (hreq : req.status = http_status.UNKNOWN) :
    (kv_delete_object env st1 req bucket name v1).req.status = http_status.NO_CONTENT ∧
    (kv_delete_object env st1 req bucket name v1).st.vdis bucket = some vid ∧
    name_absent (kv_delete_object env st1 req bucket name v1).st vid name := by
  obtain ⟨⟨tail, h1⟩, h2, h3, -⟩ := hw
  have h0 : ¬ (SD_RES_SUCCESS < 0) := by decide
  have hb1 : st1.vdis bucket = some vid := by rw [h3]; exact hb
  have hloop := kv_delete_object_loop_hit env name vid (env.sd_hash name) st1
    ⟨hdr, bytes ++ tail⟩ hn m env.MAX_DATA_OBJS 0 req hreq hff.1 (by
      intro j hj
      obtain ⟨hne, o, ho, -, hon⟩ := first_free_others env st vid name m hff j hj
      rw [Nat.zero_add, h2 vid _ (fun h => hne h.2)]
      rw [pstrcpy_short _ _ hk] at hon
      exact ⟨o, ho, hon⟩) (by rw [Nat.zero_add]; exact h1)
  simp only [kv_delete_object, lookup_bucket_hit st1 req bucket vid v1 hb1, h0, if_false,
    hloop, http_response_header, Nat.zero_add]
  refine ⟨trivial, hb1, ?_⟩
  intro idx o ho
  by_cases hidx : idx = onode_idx env (env.sd_hash name) m
  · subst hidx
    simp only [onode_deleted, and_self, if_true, Option.some.injEq] at ho
    rw [← ho]
    exact fun h => hne h.symm
  · have : st1.onodes vid idx = some o := by
      simpa [onode_deleted, hidx] using ho
    rw [h2 vid idx (fun h => hidx h.2)] at this
    exact fun hname => hidx (hat idx o this hname)

/-- C14 (amended): in a geometry with `MAX_DATA_OBJS ≤ INT_MAX`, for a bucket in order and a
name k, non-empty and shorter than `SD_MAX_OBJECT_NAME`, such that k's probe sequence has a
first slot not taken by another object and every data object whose stored name is k sits
in that slot (so k is not stored, or stored once with no tombstone before it):
`kv_create_object(b, k, _)` with a readable payload responds CREATED, the following
`kv_delete_object(b, k)` responds NO_CONTENT, and after it `kv_read_object(b, k)` responds
NOT_FOUND and `kv_list_objects(b)` does not emit k (all on fresh requests). -/
theorem C14_delete_hides_object (env : KvEnv) (st : Sheep) (bucket k : String)
    (vid v0 v1 v2 v3 : Nat) (req1 req2 req3 req4 : http_request)
    (hmax : env.MAX_DATA_OBJS ≤ INT_MAX)
    (hok : bucket_ok st vid) (hb : st.vdis bucket = some vid)
    (hk : k.length < env.SD_MAX_OBJECT_NAME) (hne : k ≠ "")
    (hff : ∃ m, first_free env st vid k m ∧
      ∀ idx o, st.onodes vid idx = some o → o.hdr.name = k →
        idx = onode_idx env (env.sd_hash k) m)
    (hr1 : req1.read_fails = false)
    (h2 : req2.status = http_status.UNKNOWN) (h3 : req3.status = http_status.UNKNOWN) :
    (kv_create_object env st req1 bucket k v0).req.status = http_status.CREATED ∧
    (kv_delete_object env (kv_create_object env st req1 bucket k v0).st req2 bucket k
      v1).req.status = http_status.NO_CONTENT ∧
    (kv_read_object env (kv_delete_object env (kv_create_object env st req1 bucket k v0).st
      req2 bucket k v1).st req3 bucket k v2).req.status = http_status.NOT_FOUND ∧
    k ∉ (kv_list_objects env (kv_delete_object env (kv_create_object env st req1 bucket k
      v0).st req2 bucket k v1).st req4 bucket v3).2.2 := by
  obtain ⟨m, hff, hat⟩ := hff
  obtain ⟨-, hc1, hw1⟩ := kv_create_object_first_free env st req1 bucket k vid v0 m hok hb hr1 hff
  obtain ⟨hd, hb2, hno2⟩ := kv_delete_object_after_write env st _ bucket k vid m _ _ hb hk hne
    hat hff hw1 (pstrcpy_short _ _ hk) req2 v1 h2
  refine ⟨hc1, hd, ?_, kv_list_objects_absent env _ req4 bucket k vid v3 hb2 hno2⟩
  rw [(kv_read_object_absent env _ req3 bucket k vid v2 hb2 hno2 h3).1]
  rfl

theorem kv_st_bucket_one_only (idx : Nat) (o : kv_onode)
    (h : kv_st_bucket_one.onodes 6 idx = some o) : idx = 2 := by
  by_contra hc
  simp [kv_st_bucket_one, hc] at h

theorem C14_delete_hides_object_witness :
    kv_env0.MAX_DATA_OBJS ≤ INT_MAX ∧
    (kv_read_object kv_env0 (kv_delete_object kv_env0 (kv_create_object kv_env0 kv_st_bucket
      (kv_req [97]) "b1" "k" 0).st (kv_req []) "b1" "k" 0).st (kv_req []) "b1" "k"
      0).req.status = http_status.NOT_FOUND ∧
    "k" ∉ (kv_list_objects kv_env0 (kv_delete_object kv_env0 (kv_create_object kv_env0
      kv_st_bucket (kv_req [97]) "b1" "k" 0).st (kv_req []) "b1" "k" 0).st (kv_req []) "b1"
      0).2.2 ∧
    (kv_st_bucket_one.onodes 6 2).map (fun o => o.hdr.name) = some "k1" ∧
    (kv_read_object kv_env0 (kv_delete_object kv_env0 (kv_create_object kv_env0
      kv_st_bucket_one (kv_req [98]) "b1" "k1" 0).st (kv_req []) "b1" "k1" 0).st (kv_req [])
      "b1" "k1" 0).req.status = http_status.NOT_FOUND ∧
    "k1" ∉ (kv_list_objects kv_env0 (kv_delete_object kv_env0 (kv_create_object kv_env0
      kv_st_bucket_one (kv_req [98]) "b1" "k1" 0).st (kv_req []) "b1" "k1" 0).st (kv_req [])
      "b1" 0).2.2 :=
  ⟨by decide,
    (C14_delete_hides_object kv_env0 kv_st_bucket "b1" "k" 6 0 0 0 0 (kv_req [97]) (kv_req [])
      (kv_req []) (kv_req []) (by decide) kv_st_bucket_ok rfl (by decide) (by decide)
      ⟨0, kv_st_bucket_first_free "k" (by decide), fun _ _ h => Option.noConfusion h⟩ rfl rfl
      rfl).2.2.1,
    (C14_delete_hides_object kv_env0 kv_st_bucket "b1" "k" 6 0 0 0 0 (kv_req [97]) (kv_req [])
      (kv_req []) (kv_req []) (by decide) kv_st_bucket_ok rfl (by decide) (by decide)
      ⟨0, kv_st_bucket_first_free "k" (by decide), fun _ _ h => Option.noConfusion h⟩ rfl rfl
      rfl).2.2.2,
    by decide,
    (C14_delete_hides_object kv_env0 kv_st_bucket_one "b1" "k1" 6 0 0 0 0 (kv_req [98])
      (kv_req []) (kv_req []) (kv_req []) (by decide) kv_st_bucket_one_ok rfl (by decide)
      (by decide)
      ⟨0, ⟨by decide, fun j hj => absurd hj (Nat.not_lt_zero j), by decide⟩,
        fun idx o h _ => kv_st_bucket_one_only idx o h⟩ rfl rfl rfl).2.2.1,
    (C14_delete_hides_object kv_env0 kv_st_bucket_one "b1" "k1" 6 0 0 0 0 (kv_req [98])
      (kv_req []) (kv_req []) (kv_req []) (by decide) kv_st_bucket_one_ok rfl (by decide)
      (by decide)
      ⟨0, ⟨by decide, fun j hj => absurd hj (Nat.not_lt_zero j), by decide⟩,
        fun idx o h _ => kv_st_bucket_one_only idx o h⟩ rfl rfl rfl).2.2.2⟩

/-- C14 as stated fails in a bucket state reached through the object operations: after
create "k1", create "k2" (same hash, next slot) and delete "k1", the call
`kv_create_object(b1, "k2", _)` reuses the tombstone in slot 2 and responds CREATED,
`kv_delete_object(b1, "k2")` responds NO_CONTENT, but `kv_read_object(b1, "k2")` then
responds OK with the bytes of the older copy in slot 3 and `kv_list_objects` emits "k2". -/
theorem C14_counterexample_older_copy_reappears :
    (kv_create_object kv_env0 kv_st_tomb (kv_req [99]) "b1" "k2" 0).req.status
      = http_status.CREATED ∧
    (kv_delete_object kv_env0 (kv_create_object kv_env0 kv_st_tomb (kv_req [99]) "b1" "k2"
      0).st (kv_req []) "b1" "k2" 0).req.status = http_status.NO_CONTENT ∧
    ((kv_read_object kv_env0 (kv_delete_object kv_env0 (kv_create_object kv_env0 kv_st_tomb
      (kv_req [99]) "b1" "k2" 0).st (kv_req []) "b1" "k2" 0).st (kv_req []) "b1" "k2"
      0).req.status,
     (kv_read_object kv_env0 (kv_delete_object kv_env0 (kv_create_object kv_env0 kv_st_tomb
      (kv_req [99]) "b1" "k2" 0).st (kv_req []) "b1" "k2" 0).st (kv_req []) "b1" "k2"
      0).req.written) = (http_status.OK, [98, 98]) ∧
    (kv_list_objects kv_env0 (kv_delete_object kv_env0 (kv_create_object kv_env0 kv_st_tomb
      (kv_req [99]) "b1" "k2" 0).st (kv_req []) "b1" "k2" 0).st (kv_req []) "b1" 0).2.2
      = ["k2"] := by
  decide

/-! ### Stored names stay unique without deletes -/

theorem first_free_or_full (env : KvEnv) (st : Sheep) (vid : Nat) (name : String) :
    (∃ m, first_free env st vid name m) ∨
    (∀ j, j < env.MAX_DATA_OBJS → slot_taken st vid (onode_idx env (env.sd_hash name) j)
      (pstrcpy env.SD_MAX_OBJECT_NAME name) = true) := by
  by_cases hall : ∀ j, j < env.MAX_DATA_OBJS →
      slot_taken st vid (onode_idx env (env.sd_hash name) j)
        (pstrcpy env.SD_MAX_OBJECT_NAME name) = true
  · exact Or.inr hall
  · left
    have hex : ∃ j, j < env.MAX_DATA_OBJS ∧
        slot_taken st vid (onode_idx env (env.sd_hash name) j)
          (pstrcpy env.SD_MAX_OBJECT_NAME name) = false := by
      by_contra hcon
      apply hall
      intro j hj
      by_contra hj2
      exact hcon ⟨j, hj, by simpa using hj2⟩
    classical
    refine ⟨Nat.find hex, (Nat.find_spec hex).1, ?_, (Nat.find_spec hex).2⟩
    intro j hj
    have hmin := Nat.find_min hex hj
    have hjlt : j < env.MAX_DATA_OBJS := lt_trans hj (Nat.find_spec hex).1
    by_contra hj2
    exact hmin ⟨hjlt, by simpa using hj2⟩

theorem kv_create_object_read_fails (env : KvEnv) (st : Sheep) (req : http_request)
    (bucket name : String) (v0 : Nat) (hr : req.read_fails = true) :
    (kv_create_object env st req bucket name v0).st = st := by
  unfold kv_create_object
  simp only []
  split_ifs with h1 h2
  · rfl
  · rfl
  · exfalso
    apply h2
    have : (lookup_bucket st req bucket v0).2.2.read_fails = true := by
      unfold lookup_bucket
      simp only []
      split_ifs <;> simpa [http_response_header] using hr
    simp [http_request_read, this]

theorem probe_inv_unique (env : KvEnv) (st : Sheep) (vid : Nat) (hinv : probe_inv env st vid)
    (s1 s2 : Nat) (o1 o2 : kv_onode) (h1 : st.onodes vid s1 = some o1)
    (h2 : st.onodes vid s2 = some o2) (hn : o1.hdr.name = o2.hdr.name)
    (hne : o1.hdr.name ≠ "") : s1 = s2 := by
  obtain ⟨i1, -, hi1, hp1⟩ := hinv s1 o1 h1 hne
  obtain ⟨i2, -, hi2, hp2⟩ := hinv s2 o2 h2 (hn ▸ hne)
  rcases Nat.lt_trichotomy i1 i2 with h | h | h
  · exfalso
    have ht := hp2 i1 h
    rw [← hn, hi1] at ht
    obtain ⟨_, o, -, ho, -, -, hne2⟩ := (slot_taken_iff _ _ _ _).mp ht
    rw [h1] at ho
    cases ho
    exact hne2 rfl
  · rw [← hi1, ← hi2, h, hn]
  · exfalso
    have ht := hp1 i2 h
    rw [hn, hi2] at ht
    obtain ⟨_, o, -, ho, -, -, hne2⟩ := (slot_taken_iff _ _ _ _).mp ht
    rw [h2] at ho
    cases ho
    exact hne2 rfl

theorem probe_inv_create (env : KvEnv) (st st1 : Sheep) (vid : Nat) (name : String) (m : Nat)
    (hdr : kv_onode_hdr) (bytes : List Nat) (hinv : probe_inv env st vid)
    (hk : name.length < env.SD_MAX_OBJECT_NAME)
    (hff : first_free env st vid name m)
    (hw : slot_written st st1 vid (onode_idx env (env.sd_hash name) m) hdr bytes)
    (hn : hdr.name = name) : probe_inv env st1 vid := by
  have hps : pstrcpy env.SD_MAX_OBJECT_NAME name = name := pstrcpy_short _ _ hk
  intro s o ho hne
  by_cases hs : s = onode_idx env (env.sd_hash name) m
  · subst hs
    obtain ⟨tail, h1⟩ := hw.1
    rw [h1] at ho
    cases ho
    simp only [hn]
    refine ⟨m, hff.1, rfl, ?_⟩
    intro j hj
    rw [slot_written_taken_other st st1 vid _ hdr bytes hw _
      (first_free_others env st vid name m hff j hj).1]
    have := hff.2.1 j hj
    rwa [hps] at this
  · rw [hw.2.1 vid s (fun h => hs h.2)] at ho
    obtain ⟨i, hi, his, hp⟩ := hinv s o ho hne
    refine ⟨i, hi, his, ?_⟩
    intro j hj
    by_cases hjs : onode_idx env (env.sd_hash o.hdr.name) j
        = onode_idx env (env.sd_hash name) m
    · rw [hjs, slot_written_taken_self st st1 vid _ hdr bytes hw, hn]
      have ht := hp j hj
      rw [hjs] at ht
      obtain ⟨inode, o2, hi2, ho2, h0, hne2, hno2⟩ := (slot_taken_iff _ _ _ _).mp ht
      have hfree := hff.2.2
      rw [hps] at hfree
      rcases (slot_taken_false_iff st vid _ name inode o2 hi2 ho2).mp hfree with h | h | h
      · exact absurd h h0
      · exact absurd h hne2
      · rw [h] at hne2 hno2
        simp [hne2, hno2]
    · rw [slot_written_taken_other st st1 vid _ hdr bytes hw _ hjs]
      exact hp j hj

theorem same_names_refl (st : Sheep) : same_names st st :=
  ⟨rfl, rfl, fun _ _ => rfl⟩

theorem same_names_trans (a b c : Sheep) (h1 : same_names a b) (h2 : same_names b c) :
    same_names a c :=
  ⟨h2.1.trans h1.1, h2.2.1.trans h1.2.1, fun v d => (h2.2.2 v d).trans (h1.2.2 v d)⟩

theorem do_kv_update_object_same_names (st : Sheep) (req : http_request) (obj_name : String)
    (obj : kv_onode) (vid idx size : Nat) :
    same_names st (do_kv_update_object st req obj_name obj vid idx size).2.2.2 := by
  unfold do_kv_update_object
  cases ho : st.onodes vid idx with
  | none =>
    have hne : ¬ SD_RES_NO_OBJ = SD_RES_SUCCESS := by decide
    simp only [sd_read_object_hdr, ho, hne, if_false]
    split_ifs <;> exact same_names_refl st
  | some o =>
    simp only [sd_read_object_hdr, ho, if_true]
    by_cases hs : strcmp o.hdr.name.toList obj_name.toList = 0
    · simp only [hs, if_true, sd_write_object_onode, ho, Bool.false_eq_true, if_false]
      refine ⟨rfl, rfl, ?_⟩
      intro v d
      by_cases hvd : v = vid ∧ d = idx
      · obtain ⟨rfl, rfl⟩ := hvd
        simp [ho]
      · simp [hvd]
    · simp only [hs, if_false]
      exact same_names_refl st

theorem kv_update_object_loop_same_names (env : KvEnv) (object : String)
    (vid hval size : Nat) :
    ∀ (n i : Nat) (req : http_request) (obj : kv_onode) (st : Sheep),
      same_names st (kv_update_object_loop env object vid hval size n i req obj st).st := by
  intro n
  induction n with
  | zero => intro i req obj st; exact same_names_refl st
  | succ n ih =>
    intro i req obj st
    simp only [kv_update_object_loop]
    split_ifs
    · exact do_kv_update_object_same_names st req object obj vid _ size
    · exact same_names_trans _ _ _
        (do_kv_update_object_same_names st req object obj vid _ size) (ih _ _ _ _)

theorem kv_update_object_same_names (env : KvEnv) (st : Sheep) (req : http_request)
    (bucket object : String) (v0 : Nat) :
    same_names st (kv_update_object env st req bucket object v0).st := by
  unfold kv_update_object
  simp only []
  split_ifs
  · exact same_names_refl st
  · exact same_names_refl st
  · exact kv_update_object_loop_same_names env object _ _ _ _ _ _ _ st

theorem same_names_taken (st st1 : Sheep) (h : same_names st st1) (vid d : Nat)
    (name : String) : slot_taken st1 vid d name = slot_taken st vid d name := by
  obtain ⟨-, h2, h3⟩ := h
  have h4 := h3 vid d
  unfold slot_taken
  rw [h2]
  cases hi : st.inodes vid with
  | none => rfl
  | some inode =>
    cases ho : st.onodes vid d with
    | none =>
      rw [ho] at h4
      cases ho1 : st1.onodes vid d with
      | none => rfl
      | some o1 => rw [ho1] at h4; simp at h4
    | some o =>
      rw [ho] at h4
      cases ho1 : st1.onodes vid d with
      | none => rw [ho1] at h4; simp at h4
      | some o1 =>
        rw [ho1] at h4
        simp only [Option.map_some', Option.some.injEq] at h4
        simp only [h4]

theorem same_names_ok (st st1 : Sheep) (h : same_names st st1) (vid : Nat)
    (hok : bucket_ok st vid) : bucket_ok st1 vid := by
  obtain ⟨hv0, inode, hi, hv, hobj⟩ := hok
  refine ⟨hv0, inode, by rw [h.2.1]; exact hi, hv, ?_⟩
  intro d hd
  obtain ⟨o, ho⟩ := hobj d hd
  have h4 := h.2.2 vid d
  rw [ho] at h4
  cases ho1 : st1.onodes vid d with
  | none => rw [ho1] at h4; simp at h4
  | some o1 => exact ⟨o1, rfl⟩

theorem same_names_probe_inv (env : KvEnv) (st st1 : Sheep) (h : same_names st st1)
    (vid : Nat) (hinv : probe_inv env st vid) : probe_inv env st1 vid := by
  intro s o1 ho1 hne
  have h4 := h.2.2 vid s
  rw [ho1] at h4
  cases ho : st.onodes vid s with
  | none => rw [ho] at h4; simp at h4
  | some o =>
    rw [ho] at h4
    simp only [Option.map_some', Option.some.injEq] at h4
    rw [h4]
    rw [h4] at hne
    obtain ⟨i, hi, his, hp⟩ := hinv s o ho hne
    refine ⟨i, hi, his, ?_⟩
    intro j hj
    rw [same_names_taken st st1 h]
    exact hp j hj

theorem kv_obj_run_inv (env : KvEnv) (bucket : String) (vid : Nat) :
    ∀ (ops : List kv_obj_op) (st : Sheep), (∀ op, op ∈ ops → create_or_update env op) →
      bucket_ok st vid → st.vdis bucket = some vid → probe_inv env st vid →
      probe_inv env (kv_obj_run env bucket ops st) vid := by
  intro ops
  induction ops with
  | nil => intro st _ _ _ hinv; exact hinv
  | cons op ops ih =>
    intro st hops hok hb hinv
    have hrest : ∀ op2, op2 ∈ ops → create_or_update env op2 :=
      fun op2 h => hops op2 (List.mem_cons_of_mem _ h)
    have hop := hops op (List.mem_cons_self _ _)
    cases op with
    | create req name =>
      have hk : name.length < env.SD_MAX_OBJECT_NAME := hop
      simp only [kv_obj_run]
      cases hr : req.read_fails with
      | true =>
        rw [kv_create_object_read_fails env st req bucket name 0 hr]
        exact ih st hrest hok hb hinv
      | false =>
        rcases first_free_or_full env st vid name with ⟨m, hff⟩ | hfull
        · obtain ⟨-, -, hw⟩ :=
            kv_create_object_first_free env st req bucket name vid 0 m hok hb hr hff
          exact ih _ hrest (slot_written_ok _ _ _ _ _ _ hw hok) (by rw [hw.2.2.1]; exact hb)
            (probe_inv_create env st _ vid name m _ _ hinv hk hff hw (pstrcpy_short _ _ hk))
        · have hst : (kv_create_object env st req bucket name 0).st = st := by
            rw [kv_create_object_eq env st req bucket name vid 0 hb hr,
              kv_create_object_loop_full env (created_onode env req name) vid
                (env.sd_hash name) env.MAX_DATA_OBJS 0 _ st
                (by simpa [created_onode] using hfull)]
          rw [hst]
          exact ih st hrest hok hb hinv
    | update req name =>
      simp only [kv_obj_run]
      have hsn := kv_update_object_same_names env st req bucket name 0
      exact ih _ hrest (same_names_ok _ _ hsn vid hok) (by rw [hsn.1]; exact hb)
        (same_names_probe_inv env _ _ hsn vid hinv)
    | delete req name => exact absurd hop (fun h => h)

/-- C12 (amended): in every bucket state reached from an empty bucket (in order, with no data
object) by any sequence of `kv_create_object` calls with names shorter than
`SD_MAX_OBJECT_NAME` and `kv_update_object` calls, whatever their requests, at most one
data slot holds an onode whose stored name equals a given non-empty object name. -/
theorem C12_stored_names_unique_without_delete (env : KvEnv) (st : Sheep) (bucket : String)
    (vid : Nat) (ops : List kv_obj_op) (hok : bucket_ok st vid)
    (hb : st.vdis bucket = some vid) (hempty : ∀ s, st.onodes vid s = none)
    (hops : ∀ op, op ∈ ops → create_or_update env op)
    (s1 s2 : Nat) (o1 o2 : kv_onode)
    (h1 : (kv_obj_run env bucket ops st).onodes vid s1 = some o1)
    (h2 : (kv_obj_run env bucket ops st).onodes vid s2 = some o2)
    (hn : o1.hdr.name = o2.hdr.name) (hne : o1.hdr.name ≠ "") : s1 = s2 :=
  probe_inv_unique env _ vid
    (kv_obj_run_inv env bucket vid ops st hops hok hb
      (fun s o ho _ => by rw [hempty s] at ho; cases ho))
    s1 s2 o1 o2 h1 h2 hn hne

theorem C12_stored_names_unique_without_delete_witness :
    (kv_obj_run kv_env0 "b1"
      [kv_obj_op.create (kv_req [97]) "k1", kv_obj_op.create (kv_req [98]) "k2",
       kv_obj_op.update (kv_req [99]) "k1", kv_obj_op.create (kv_req [100]) "k1"]
      kv_st_bucket).onodes 6 2 = some ⟨⟨"k1", 1, 0, 0, true⟩, [100]⟩ ∧
    ¬ ((kv_obj_run kv_env0 "b1"
      [kv_obj_op.create (kv_req [97]) "k1", kv_obj_op.create (kv_req [98]) "k2",
       kv_obj_op.update (kv_req [99]) "k1", kv_obj_op.create (kv_req [100]) "k1"]
      kv_st_bucket).onodes 6 3 = some ⟨⟨"k1", 1, 0, 0, true⟩, [98]⟩) :=
  ⟨by decide, fun h =>
    absurd (C12_stored_names_unique_without_delete kv_env0 kv_st_bucket "b1" 6
      [kv_obj_op.create (kv_req [97]) "k1", kv_obj_op.create (kv_req [98]) "k2",
       kv_obj_op.update (kv_req [99]) "k1", kv_obj_op.create (kv_req [100]) "k1"]
      kv_st_bucket_ok rfl (fun _ => rfl)
      (by
        intro op hop
        simp only [List.mem_cons, List.mem_singleton, List.not_mem_nil, or_false] at hop
        rcases hop with h | h | h | h <;> subst h
        · show 2 < 8; decide
        · show 2 < 8; decide
        · trivial
        · show 2 < 8; decide)
      2 3 ⟨⟨"k1", 1, 0, 0, true⟩, [100]⟩ ⟨⟨"k1", 1, 0, 0, true⟩, [98]⟩ (by decide) h rfl
      (by decide)) (by decide)⟩

/-- C12 as stated fails: from the empty bucket "b1", with "k1" and "k2" hashing alike, the
calls create "k1", create "k2", delete "k1", create "k2" leave the stored name "k2" in two
data slots, 2 and 3: the second create of "k2" reuses the tombstone of "k1" in slot 2
without probing on to slot 3. -/
theorem C12_counterexample_tombstone_reused :
    (∀ s, s < 4 → kv_st_bucket.onodes 6 s = none) ∧
    ((kv_obj_run kv_env0 "b1"
      [kv_obj_op.create (kv_req [97]) "k1", kv_obj_op.create (kv_req [98, 98]) "k2",
       kv_obj_op.delete (kv_req []) "k1", kv_obj_op.create (kv_req [99]) "k2"]
      kv_st_bucket).onodes 6 2).map (fun o => o.hdr.name) = some "k2" ∧
    ((kv_obj_run kv_env0 "b1"
      [kv_obj_op.create (kv_req [97]) "k1", kv_obj_op.create (kv_req [98, 98]) "k2",
       kv_obj_op.delete (kv_req []) "k1", kv_obj_op.create (kv_req [99]) "k2"]
      kv_st_bucket).onodes 6 3).map (fun o => o.hdr.name) = some "k2" := by
  decide

/-! ### Misses: absent objects and absent buckets -/

/-- C15 at a failing input: in the empty bucket "b1" the first probe for "k" reaches a slot
with no data object; `kv_read_object` and `kv_delete_object` respond NOT_FOUND, but
`kv_update_object` responds INTERNAL_SERVER_ERROR, because `do_kv_update_object` tests the
read status against `SD_RES_NO_VDI` where its siblings test `SD_RES_NO_OBJ`.  In the full
bucket, where all `MAX_DATA_OBJS` probes are exhausted, all three respond NOT_FOUND. -/
theorem C15_update_of_absent_object_responds_500 :
    (kv_update_object kv_env0 kv_st_bucket (kv_req [1]) "b1" "k" 0).req.status
      = http_status.INTERNAL_SERVER_ERROR ∧
    (kv_read_object kv_env0 kv_st_bucket (kv_req []) "b1" "k" 0).req.status
      = http_status.NOT_FOUND ∧
    (kv_delete_object kv_env0 kv_st_bucket (kv_req []) "b1" "k" 0).req.status
      = http_status.NOT_FOUND ∧
    (kv_update_object kv_env0 kv_st_bucket_full (kv_req [1]) "b1" "k" 0).req.status
      = http_status.NOT_FOUND ∧
    (kv_read_object kv_env0 kv_st_bucket_full (kv_req []) "b1" "k" 0).req.status
      = http_status.NOT_FOUND ∧
    (kv_delete_object kv_env0 kv_st_bucket_full (kv_req []) "b1" "k" 0).req.status
      = http_status.NOT_FOUND ∧
    sd_read_object_hdr kv_st_bucket 6 (onode_idx kv_env0 (kv_env0.sd_hash "k") 0)
      kv_onode_zero.hdr = (SD_RES_NO_OBJ, kv_onode_zero.hdr) := by
  decide

theorem kv_create_object_loop_ret (env : KvEnv) (onode : kv_onode) (vid hval : Nat) :
    ∀ (n i : Nat) (req : http_request) (st : Sheep),
      (kv_create_object_loop env onode vid hval n i req st).ret = 0 ∨
      (kv_create_object_loop env onode vid hval n i req st).ret = -1 := by
  intro n
  induction n with
  | zero => intro i req st; exact Or.inr rfl
  | succ n ih =>
    intro i req st
    simp only [kv_create_object_loop]
    split_ifs
    · exact Or.inl rfl
    · exact ih _ _ _
    · exact Or.inr rfl

theorem kv_read_object_loop_ret (env : KvEnv) (st : Sheep) (object : String)
    (vid hval : Nat) :
    ∀ (n i : Nat) (req : http_request) (obj : kv_onode),
      (kv_read_object_loop env st object vid hval n i req obj).ret = 0 ∨
      (kv_read_object_loop env st object vid hval n i req obj).ret = -1 := by
  intro n
  induction n with
  | zero => intro i req obj; exact Or.inr rfl
  | succ n ih =>
    intro i req obj
    simp only [kv_read_object_loop]
    split_ifs
    · exact Or.inl rfl
    · exact ih _ _ _

theorem kv_update_object_loop_ret (env : KvEnv) (object : String) (vid hval size : Nat) :
    ∀ (n i : Nat) (req : http_request) (obj : kv_onode) (st : Sheep),
      (kv_update_object_loop env object vid hval size n i req obj st).ret = 0 ∨
      (kv_update_object_loop env object vid hval size n i req obj st).ret = -1 := by
  intro n
  induction n with
  | zero => intro i req obj st; exact Or.inr rfl
  | succ n ih =>
    intro i req obj st
    simp only [kv_update_object_loop]
    split_ifs
    · exact Or.inl rfl
    · exact ih _ _ _ _

theorem kv_delete_object_loop_ret (env : KvEnv) (object : String) (vid hval : Nat) :
    ∀ (n i : Nat) (req : http_request) (st : Sheep),
      (kv_delete_object_loop env object vid hval n i req st).ret = 0 ∨
      (kv_delete_object_loop env object vid hval n i req st).ret = -1 := by
  intro n
  induction n with
  | zero => intro i req st; exact Or.inr rfl
  | succ n ih =>
    intro i req st
    simp only [kv_delete_object_loop]
    split_ifs
    · exact Or.inl rfl
    · exact ih _ _ _

/-- After a miss of the bucket lookup none of the five object entry points returns the
lookup status: `SD_RES_NO_VDI` is not negative, so the `ret < 0` guard lets the call go
on, and every later return is 0 or -1. -/
theorem kv_object_ops_lookup_miss (env : KvEnv) (st : Sheep) (req : http_request)
    (bucket name : String) (v0 : Nat) (hb : st.vdis bucket = none) :
    (kv_create_object env st req bucket name v0).ret ≠ SD_RES_NO_VDI ∧
    (kv_read_object env st req bucket name v0).ret ≠ SD_RES_NO_VDI ∧
    (kv_update_object env st req bucket name v0).ret ≠ SD_RES_NO_VDI ∧
    (kv_delete_object env st req bucket name v0).ret ≠ SD_RES_NO_VDI ∧
    (kv_list_objects env st req bucket v0).1 ≠ SD_RES_NO_VDI := by
  have h0 : ¬ (SD_RES_NO_VDI < 0) := by decide
  have hz : (0 : Int) ≠ SD_RES_NO_VDI := by decide
  have hm : (-1 : Int) ≠ SD_RES_NO_VDI := by decide
  have key : ∀ x : Int, (x = 0 ∨ x = -1) → x ≠ SD_RES_NO_VDI := by
    intro x hx
    rcases hx with h | h <;> rw [h]
    · exact hz
    · exact hm
  refine ⟨?_, ?_, ?_, ?_, ?_⟩
  · simp only [kv_create_object, lookup_bucket_miss st req bucket v0 hb, h0, if_false]
    split_ifs
    · exact hm
    · exact key _ (kv_create_object_loop_ret env _ _ _ _ _ _ _)
  · simp only [kv_read_object, lookup_bucket_miss st req bucket v0 hb, h0, if_false]
    exact key _ (kv_read_object_loop_ret env st _ _ _ _ _ _ _)
  · simp only [kv_update_object, lookup_bucket_miss st req bucket v0 hb, h0, if_false]
    split_ifs
    · exact hm
    · exact key _ (kv_update_object_loop_ret env _ _ _ _ _ _ _ _ _)
  · simp only [kv_delete_object, lookup_bucket_miss st req bucket v0 hb, h0, if_false]
    exact key _ (kv_delete_object_loop_ret env _ _ _ _ _ _ _)
  · simp only [kv_list_objects, lookup_bucket_miss st req bucket v0 hb, h0, if_false]
    split_ifs
    · exact hm
    · exact hz

/-- C19 at a failing input: the bucket "nob" does not exist, so `lookup_bucket` responds
NOT_FOUND and returns `SD_RES_NO_VDI`, which is not negative; the `ret < 0` guard does not
fire and each entry point goes on with the unassigned `vid`.  With that variable holding 0:
`kv_read_object` and `kv_delete_object` return 0, `kv_update_object` returns 0 and
`kv_create_object` and `kv_list_objects` return -1, the last three having changed the
response to INTERNAL_SERVER_ERROR.  With it holding 6, the vid of the bucket "b1",
`kv_create_object` stores the object in "b1" and responds CREATED, and `kv_list_objects`
responds OK. -/
theorem C19_lookup_miss_goes_on :
    kv_st_bucket.vdis "nob" = none ∧
    lookup_bucket kv_st_bucket (kv_req [1]) "nob" 0
      = (SD_RES_NO_VDI, 0, http_response_header (kv_req [1]) http_status.NOT_FOUND) ∧
    ((kv_read_object kv_env0 kv_st_bucket (kv_req [1]) "nob" "k" 0).ret,
      (kv_read_object kv_env0 kv_st_bucket (kv_req [1]) "nob" "k" 0).req.status)
      = (0, http_status.NOT_FOUND) ∧
    ((kv_delete_object kv_env0 kv_st_bucket (kv_req [1]) "nob" "k" 0).ret,
      (kv_delete_object kv_env0 kv_st_bucket (kv_req [1]) "nob" "k" 0).req.status)
      = (0, http_status.NOT_FOUND) ∧
    ((kv_update_object kv_env0 kv_st_bucket (kv_req [1]) "nob" "k" 0).ret,
      (kv_update_object kv_env0 kv_st_bucket (kv_req [1]) "nob" "k" 0).req.status)
      = (0, http_status.INTERNAL_SERVER_ERROR) ∧
    ((kv_create_object kv_env0 kv_st_bucket (kv_req [1]) "nob" "k" 0).ret,
      (kv_create_object kv_env0 kv_st_bucket (kv_req [1]) "nob" "k" 0).req.status)
      = (-1, http_status.INTERNAL_SERVER_ERROR) ∧
    ((kv_list_objects kv_env0 kv_st_bucket (kv_req [1]) "nob" 0).1,
      (kv_list_objects kv_env0 kv_st_bucket (kv_req [1]) "nob" 0).2.1.status)
      = (-1, http_status.INTERNAL_SERVER_ERROR) ∧
    ((kv_create_object kv_env0 kv_st_bucket (kv_req [1]) "nob" "k" 6).ret,
      (kv_create_object kv_env0 kv_st_bucket (kv_req [1]) "nob" "k" 6).req.status,
      (kv_create_object kv_env0 kv_st_bucket (kv_req [1]) "nob" "k" 6).st.onodes 6 2)
      = (0, http_status.CREATED, some ⟨⟨"k", 1, 0, 0, true⟩, [1]⟩) ∧
    ((kv_list_objects kv_env0 kv_st_bucket (kv_req [1]) "nob" 6).1,
      (kv_list_objects kv_env0 kv_st_bucket (kv_req [1]) "nob" 6).2.1.status)
      = (0, http_status.OK) := by
  decide
